import Mathlib

/-!
# Yeelight device protocol engine: a shallow embedding

Go strings and byte slices are lists of characters, Go maps are association
lists read through `mapGet`, and an `error` is represented by its innermost
cause, the value `errors.Cause` returns. Go `int` is `Int`: the 64 bit range is
checked where a value is parsed from text (`Atoi`), and the command counter,
which only ever grows by one per issued command, is not wrapped around.
A text is the list of its code points. The case tables of the package
`unicode`, which `strings.ToLower` reads for a character outside ASCII, are a
parameter `fold` of every function that lowers a text.
-/

namespace Yeelight

/-- A Go string or byte slice. -/
abbrev Str := List Char

/-! ## Errors (errors.go) -/

/-- The cause of an error: the sentinel values of errors.go, plus the errors
of the libraries: `io.EOF`, `*strconv.NumError`, an error of `encoding/json`
and an error of package `net`. -/
inductive GoError where
  | ErrPartialDiscovery
  | ErrConnNotInitialized
  | ErrWrongAdvertisement
  | ErrInvalidRange
  | ErrInvalidType
  | ErrTimedOut
  | ErrFailedCmd
  | ErrConnDrop
  | ErrUnknownCommand
  | EOF
  | NumError
  | JSONError
  | NetError
  deriving DecidableEq, Repr

deriving instance DecidableEq for Except

/-! ## Go maps -/

/-- A Go map as an association list; the first binding of a key is the live one. -/
abbrev GoMap (κ ν : Type) := List (κ × ν)

/-- Map read `v, found := m[k]`. -/
def mapGet {κ ν : Type} [DecidableEq κ] : GoMap κ ν → κ → Option ν
  | [], _ => none
  | (k', v) :: rest, k => if k' = k then some v else mapGet rest k

/-- Map removal `delete(m, k)`. -/
def mapDelete {κ ν : Type} [DecidableEq κ] (m : GoMap κ ν) (k : κ) : GoMap κ ν :=
  m.filter (fun e => decide (e.1 ≠ k))

/-- Map write `m[k] = v`: the old binding of `k`, if any, is replaced. -/
def mapSet {κ ν : Type} [DecidableEq κ] (m : GoMap κ ν) (k : κ) (v : ν) : GoMap κ ν :=
  (k, v) :: mapDelete m k

/-! ## Library functions on strings -/

/-- Go `strings.TrimPrefix`. -/
def TrimPrefix (s pre : Str) : Str :=
  if pre.isPrefixOf s then s.drop pre.length else s

/-- Go `strings.TrimSuffix`. -/
def TrimSuffix (s suf : Str) : Str :=
  if suf.isSuffixOf s then s.take (s.length - suf.length) else s

/-- Go `unicode.ToLower` on one character. Below 0x80 the letters A to Z are
mapped to a to z and every other character is kept. From 0x80 on the result
is read from the case tables of the library, which are the parameter `fold`. -/
def lowerRune (fold : Char → Char) (c : Char) : Char :=
  if c.toNat < 0x80 then c.toLower else fold c

/-- Go `strings.ToLower`: every character is mapped by `unicode.ToLower`. -/
def ToLower (fold : Char → Char) (s : Str) : Str := s.map (lowerRune fold)

/-- Go `strings.Split(s, sep)` for a separator of one character: the pieces
between the occurrences of `sep`; the empty string gives one empty piece. -/
def Split (sep : Char) : Str → List Str
  | [] => [[]]
  | c :: cs =>
    if c = sep then [] :: Split sep cs
    else match Split sep cs with
      | [] => [[c]]
      | t :: ts => (c :: t) :: ts

/-- The text before and after the first occurrence of `sep` in a string, if
`sep` occurs (Go `strings.Index` followed by the two slices). -/
def cutFirst (sep : Str) : Str → Option (Str × Str)
  | [] => if sep = [] then some ([], []) else none
  | c :: cs =>
    if sep.isPrefixOf (c :: cs) then some ([], (c :: cs).drop sep.length)
    else match cutFirst sep cs with
      | some (a, b) => some (c :: a, b)
      | none => none

/-- Go `strings.SplitN(s, sep, 2)` for a non-empty separator. -/
def SplitN2 (s sep : Str) : List Str :=
  match cutFirst sep s with
  | some (a, b) => [a, b]
  | none => [s]

/-- The value of a decimal digit, `none` for any other character. -/
def digitVal (c : Char) : Option Nat :=
  if '0' ≤ c ∧ c ≤ '9' then some (c.toNat - '0'.toNat) else none

/-- The number written by a string of decimal digits, read left to right on
top of `acc`; `none` when a character is not a digit. -/
def parseDigits : Str → Nat → Option Nat
  | [], acc => some acc
  | c :: cs, acc =>
    match digitVal c with
    | some d => parseDigits cs (acc * 10 + d)
    | none => none

/-- Go `strconv.Atoi` with a 64 bit `int`: an optional sign followed by at
least one decimal digit, the value within the `int64` range. `none` stands for
the `*strconv.NumError` it returns otherwise (syntax or range). -/
def Atoi (s : Str) : Option Int :=
  match s with
  | [] => none
  | '-' :: ds =>
    if ds = [] then none
    else match parseDigits ds 0 with
      | some n => if n ≤ 2 ^ 63 then some (-(n : Int)) else none
      | none => none
  | '+' :: ds =>
    if ds = [] then none
    else match parseDigits ds 0 with
      | some n => if n < 2 ^ 63 then some (n : Int) else none
      | none => none
  | ds =>
    match parseDigits ds 0 with
    | some n => if n < 2 ^ 63 then some (n : Int) else none
    | none => none

/-- Go `bytes.Buffer.ReadBytes(delim)`: the bytes up to and including the first
`delim`, the unread rest, and whether `delim` was found. When it is not found
the whole buffer is returned together with `io.EOF` (the flag is `false`). -/
def ReadBytes (delim : Char) : Str → Str × Str × Bool
  | [] => ([], [], false)
  | c :: cs =>
    if c = delim then ([c], cs, true)
    else match ReadBytes delim cs with
      | (line, rest, ok) => (c :: line, rest, ok)

/-! ## Values (values.go) -/

/-- The capability flags of a device. -/
structure SupportedFeatures where
  GetProp : Bool := false
  SetDefault : Bool := false
  SetPower : Bool := false
  Toggle : Bool := false
  SetBright : Bool := false
  StartCF : Bool := false
  StopCF : Bool := false
  SetScene : Bool := false
  CronAdd : Bool := false
  CronGet : Bool := false
  CronDel : Bool := false
  SetCtAbx : Bool := false
  SetRGB : Bool := false
  deriving DecidableEq, Repr

/-- The power value `On`. -/
def On : Str := "on".toList

/-- The power value `Off`. -/
def Off : Str := "off".toList

/-- The method `PowerValue.isValid`. -/
def PowerValue.isValid (p : Str) : Bool := p = "on".toList || p = "off".toList

/-- The method `TurnOnValue.isValid`. -/
def TurnOnValue.isValid (t : Int) : Bool := decide (t > 0) && decide (t < 6)

/-- The three colour bytes; each field is a `uint8`. -/
structure RGBValue where
  red : Nat := 0
  green : Nat := 0
  blue : Nat := 0
  deriving DecidableEq, Repr

/-- The constructor `NewRGB`; the `uint8` conversions are the `% 256`. -/
def NewRGB (val : Int) : Except GoError RGBValue :=
  if val < 0 ∨ val > 0xffffff then .error .ErrInvalidRange
  else
    let n := val.toNat
    .ok { red := ((0x00FF0000 &&& n) >>> 16) % 256
          green := ((0x0000FF00 &&& n) >>> 8) % 256
          blue := (0x000000FF &&& n) % 256 }

/-- The method `RGBValue.Get`. -/
def RGBValue.Get (rgb : RGBValue) : Int :=
  ((rgb.red <<< 16 + rgb.green <<< 8 + rgb.blue : Nat) : Int)

/-! ## Commands and answers (command.go) -/

/-- A Go value of type `interface{}`, tagged with its dynamic type: the four
kinds `newCommand` recognises, the kinds the JSON decoder produces, and
`other` for a value of any further type, given by the name of the type and the
text of the value. -/
inductive Iface where
  | int (n : Int)
  | Effect (e : Str)
  | PowerValue (p : Str)
  | TurnOnValue (t : Int)
  | string (s : Str)
  | float64 (bits : Nat)
  | bool (b : Bool)
  | nil
  | other (typ : Str) (repr : Str)
  deriving DecidableEq, Repr

/-- An event that occurred on the device. -/
structure Notification where
  Property : Str
  Status : Str
  deriving DecidableEq, Repr

/-- The result of a command, as received from the device. -/
structure Answer where
  ID : Int
  Result : List Iface
  deriving DecidableEq, Repr

/-- A command to be sent over the connection of the device. -/
structure command where
  ID : Int
  Method : Str
  Params : List Iface
  deriving DecidableEq, Repr

/-- A Go channel of answers: its buffered elements, its capacity and whether
it has been closed. -/
structure Chan where
  buf : List Answer := []
  cap : Nat := 0
  closed : Bool := false
  deriving DecidableEq, Repr

/-- The channel `make(chan Answer, 1)`. -/
def Chan.make1 : Chan := { buf := [], cap := 1, closed := false }

/-- A TCP connection: the bytes written to it so far and whether it is closed. -/
structure Conn where
  written : Str := []
  closed : Bool := false
  deriving DecidableEq, Repr

/-! ## The device (yeelight.go) -/

/-- The struct `YeeLight`. The mutexes have no state of their own and are
left out; `errs` and `events` hold what has been sent on the two channels,
which are taken to exist and to be read by their consumers. The default value
of every field is its Go zero value. -/
structure YeeLight where
  CacheControl : Str := []
  Location : Str := []
  ID : Str := []
  Model : Str := []
  FirmwareVersion : Str := []
  Support : SupportedFeatures := {}
  Power : Str := []
  Brightness : Int := 0
  ColorMode : Int := 0
  ColorTemperature : Int := 0
  RGB : RGBValue := {}
  Hue : Int := 0
  Saturation : Int := 0
  Name : Str := []
  tcpSocket : Option Conn := none
  idCommand : Int := 0
  pendingCmds : Option (GoMap Int Chan) := none
  errs : List GoError := []
  events : List Notification := []
  deriving DecidableEq, Repr

/-- One step of the loop of `setSupport`: the switch on the lowered token. -/
def setFeature (fold : Char → Char) (f : SupportedFeatures) (feature : Str) :
    SupportedFeatures :=
  let t := ToLower fold feature
  if t = "get_prop".toList then { f with GetProp := true }
  else if t = "set_default".toList then { f with SetDefault := true }
  else if t = "set_power".toList then { f with SetPower := true }
  else if t = "toggle".toList then { f with Toggle := true }
  else if t = "set_bright".toList then { f with SetBright := true }
  else if t = "start_cf".toList then { f with StartCF := true }
  else if t = "stop_cf".toList then { f with StopCF := true }
  else if t = "set_scene".toList then { f with SetScene := true }
  else if t = "cron_add".toList then { f with CronAdd := true }
  else if t = "cron_get".toList then { f with CronGet := true }
  else if t = "cron_del".toList then { f with CronDel := true }
  else if t = "set_ct_abx".toList then { f with SetCtAbx := true }
  else if t = "set_rgb".toList then { f with SetRGB := true }
  else f

/-- The method `setSupport`: the loop over the space separated tokens. -/
def setSupport (fold : Char → Char) (y : YeeLight) (support : Str) : YeeLight :=
  { y with Support := (Split ' ' support).foldl (setFeature fold) y.Support }

/-- The method `setPower`. An error leaves the device as it was. -/
def setPower (y : YeeLight) (val : Str) : Except GoError YeeLight :=
  if val ≠ On ∧ val ≠ Off then .error .ErrInvalidRange
  else .ok { y with Power := val }

/-- The method `setBright`. -/
def setBright (y : YeeLight) (val : Str) : Except GoError YeeLight :=
  match Atoi val with
  | none => .error .NumError
  | some v =>
    if v < 1 ∨ v > 100 then .error .ErrInvalidRange
    else .ok { y with Brightness := v }

/-- The method `setColorMode`. -/
def setColorMode (y : YeeLight) (val : Str) : Except GoError YeeLight :=
  match Atoi val with
  | none => .error .NumError
  | some v =>
    if v < 1 ∨ v > 3 then .error .ErrInvalidRange
    else .ok { y with ColorMode := v }

/-- The method `setColorTemperature`. -/
def setColorTemperature (y : YeeLight) (val : Str) : Except GoError YeeLight :=
  match Atoi val with
  | none => .error .NumError
  | some v =>
    if v < 1700 ∨ v > 6500 then .error .ErrInvalidRange
    else .ok { y with ColorTemperature := v }

/-- The method `setRGB`. -/
def setRGB (y : YeeLight) (val : Str) : Except GoError YeeLight :=
  match Atoi val with
  | none => .error .NumError
  | some intVal =>
    match NewRGB intVal with
    | .error _ => .error .ErrInvalidRange
    | .ok v => .ok { y with RGB := v }

/-- The method `setHue`. -/
def setHue (y : YeeLight) (val : Str) : Except GoError YeeLight :=
  match Atoi val with
  | none => .error .NumError
  | some v =>
    if v < 0 ∨ v > 359 then .error .ErrInvalidRange
    else .ok { y with Hue := v }

/-- The method `setSaturation`. -/
def setSaturation (y : YeeLight) (val : Str) : Except GoError YeeLight :=
  match Atoi val with
  | none => .error .NumError
  | some v =>
    if v < 0 ∨ v > 100 then .error .ErrInvalidRange
    else .ok { y with Saturation := v }

/-- The method `setName`. -/
def setName (y : YeeLight) (val : Str) : YeeLight := { y with Name := val }

/-- The function `parseFromMap`: the fourteen headers are looked up and
checked one after the other, and the first failure is returned. -/
def parseFromMap (fold : Char → Char) (lines : GoMap Str Str) : Except GoError YeeLight :=
  let y : YeeLight := {}
  match mapGet lines "cache-control".toList with
  | none => .error .ErrWrongAdvertisement
  | some cacheControl =>
  let y := { y with CacheControl := cacheControl }
  match mapGet lines "location".toList with
  | none => .error .ErrWrongAdvertisement
  | some location =>
  let y := { y with Location := TrimPrefix location "yeelight://".toList }
  match mapGet lines "id".toList with
  | none => .error .ErrWrongAdvertisement
  | some id =>
  let y := { y with ID := id }
  match mapGet lines "name".toList with
  | none => .error .ErrWrongAdvertisement
  | some name =>
  let y := { y with Name := name }
  match mapGet lines "model".toList with
  | none => .error .ErrWrongAdvertisement
  | some model =>
  let y := { y with Model := model }
  match mapGet lines "fw_ver".toList with
  | none => .error .ErrWrongAdvertisement
  | some fwVer =>
  let y := { y with FirmwareVersion := fwVer }
  match mapGet lines "support".toList with
  | none => .error .ErrWrongAdvertisement
  | some supportedFeatures =>
  let y := setSupport fold y supportedFeatures
  match mapGet lines "power".toList with
  | none => .error .ErrWrongAdvertisement
  | some val =>
  match setPower y val with
  | .error err => .error err
  | .ok y =>
  match mapGet lines "bright".toList with
  | none => .error .ErrWrongAdvertisement
  | some val =>
  match setBright y val with
  | .error err => .error err
  | .ok y =>
  match mapGet lines "color_mode".toList with
  | none => .error .ErrWrongAdvertisement
  | some val =>
  match setColorMode y val with
  | .error err => .error err
  | .ok y =>
  match mapGet lines "ct".toList with
  | none => .error .ErrWrongAdvertisement
  | some val =>
  match setColorTemperature y val with
  | .error err => .error err
  | .ok y =>
  match mapGet lines "rgb".toList with
  | none => .error .ErrWrongAdvertisement
  | some val =>
  match setRGB y val with
  | .error err => .error err
  | .ok y =>
  match mapGet lines "hue".toList with
  | none => .error .ErrWrongAdvertisement
  | some val =>
  match setHue y val with
  | .error err => .error err
  | .ok y =>
  match mapGet lines "sat".toList with
  | none => .error .ErrWrongAdvertisement
  | some val =>
  match setSaturation y val with
  | .error err => .error err
  | .ok y => .ok y

/-- The start line `discoveryAnswerHeader` of a discovery answer (constants.go). -/
def discoveryAnswerHeader : Str := "HTTP/1.1 200 OK\r\n".toList

/-- The start line `advertisementHeader` of a periodic advertisement. -/
def advertisementHeader : Str := "NOTIFY * HTTP/1.1\r\n".toList

/-- The body of the header loop of `newFromAdvertisement` for one line that
was read: when the line holds a colon followed by a blank, the text after
them, without a final CR LF, is stored under the lowered text before them. -/
def storeHeader (fold : Char → Char) (lines : GoMap Str Str) (chunk : Str) : GoMap Str Str :=
  match SplitN2 chunk ": ".toList with
  | name :: value :: _ => mapSet lines (ToLower fold name) (TrimSuffix value "\r\n".toList)
  | _ => lines

/-- The header loop of `newFromAdvertisement`: each round reads one line that
ends in a newline and stores its header; the loop ends at `io.EOF`, and the
bytes after the last newline are dropped. Every round consumes at least one
byte, so a fuel of the length of the buffer is never exhausted before
`io.EOF`. -/
def readHeaders (fold : Char → Char) : Nat → Str → GoMap Str Str → GoMap Str Str
  | 0, _, lines => lines
  | fuel + 1, buf, lines =>
    match ReadBytes '\n' buf with
    | (_, _, false) => lines
    | (chunk, rest, true) => readHeaders fold fuel rest (storeHeader fold lines chunk)

/-- The function `newFromAdvertisement`. -/
def newFromAdvertisement (fold : Char → Char) (msg : Str) : Except GoError YeeLight :=
  match ReadBytes '\n' msg with
  | (_, _, false) => .error .EOF
  | (chunk, rest, true) =>
    if !(chunk = discoveryAnswerHeader || chunk = advertisementHeader) then
      .error .ErrWrongAdvertisement
    else parseFromMap fold (readHeaders fold rest.length rest [])

/-- The method `Effect.isValid`. -/
def Effect.isValid (e : Str) : Bool :=
  if e = "sudden".toList ∨ e = "smooth".toList then true else false

/-- The method `nextCommand`, run under the exclusive lock: the table is
created when it is nil, the counter is incremented and the new identifier is
bound to a fresh channel of capacity one. Returns the new state and the
identifier. -/
def nextCommand (y : YeeLight) : YeeLight × Int :=
  let pendingCmds := match y.pendingCmds with
    | none => []
    | some m => m
  let idCommand := y.idCommand + 1
  ({ y with idCommand := idCommand, pendingCmds := some (mapSet pendingCmds idCommand Chan.make1) },
    idCommand)

/-- The parameter loop of `newCommand`: the type switch on every parameter,
stopping at the first one that is rejected. -/
def checkParams : List Iface → Except GoError Unit
  | [] => .ok ()
  | .Effect p :: rest => if !Effect.isValid p then .error .ErrInvalidType else checkParams rest
  | .PowerValue p :: rest =>
    if !PowerValue.isValid p then .error .ErrInvalidType else checkParams rest
  | .TurnOnValue p :: rest =>
    if !TurnOnValue.isValid p then .error .ErrInvalidType else checkParams rest
  | .int _ :: rest => checkParams rest
  | _ :: _ => .error .ErrInvalidType

/-- The method `newCommand`: the new state of the device and the command or
the error. -/
def newCommand (y : YeeLight) (method : Str) (params : List Iface) :
    YeeLight × Except GoError command :=
  match checkParams params with
  | .error err => (y, .error err)
  | .ok _ =>
    match nextCommand y with
    | (y', id) => (y', .ok { ID := id, Method := method, Params := params })

/-- The check the numeric setters apply to a header value: the conversion
error when it is not a decimal integer, `ErrInvalidRange` when the integer is
outside `lo..hi`, and `none` when the value is accepted. -/
def checkInt (lo hi : Int) (val : Str) : Option GoError :=
  match Atoi val with
  | none => some .NumError
  | some v => if v < lo ∨ v > hi then some .ErrInvalidRange else none

/-- The check `setPower` applies to a header value. -/
def checkPower (val : Str) : Option GoError :=
  if val ≠ On ∧ val ≠ Off then some .ErrInvalidRange else none

/-- The fourteen required headers in the order `parseFromMap` reads them, each
with the check applied to its value (`none`: the value is accepted). -/
def fieldChecks : List (Str × (Str → Option GoError)) :=
  [ ("cache-control".toList, fun _ => none),
    ("location".toList, fun _ => none),
    ("id".toList, fun _ => none),
    ("name".toList, fun _ => none),
    ("model".toList, fun _ => none),
    ("fw_ver".toList, fun _ => none),
    ("support".toList, fun _ => none),
    ("power".toList, checkPower),
    ("bright".toList, checkInt 1 100),
    ("color_mode".toList, checkInt 1 3),
    ("ct".toList, checkInt 1700 6500),
    ("rgb".toList, checkInt 0 0xffffff),
    ("hue".toList, checkInt 0 359),
    ("sat".toList, checkInt 0 100) ]

/-- The names of the fourteen required headers. -/
def requiredKeys : List Str := fieldChecks.map Prod.fst

/-- The error of one required header in a map: `ErrWrongAdvertisement` when it
is absent, the error of its check when its value is rejected, `none` when the
header is present and accepted. -/
def fieldError (lines : GoMap Str Str) (f : Str × (Str → Option GoError)) : Option GoError :=
  match mapGet lines f.1 with
  | none => some .ErrWrongAdvertisement
  | some v => f.2 v

/-- The error of the earliest required header that is absent or rejected. -/
def firstError (lines : GoMap Str Str) : Option GoError :=
  (fieldChecks.filterMap (fieldError lines)).head?

/-! ## Encoding of commands (command.go, encoding/json) -/

/-- The two parts of `encoding/json` that are left to the library: `escape`
is the escape sequence it writes for a character that a JSON string does not
hold as it is, and `value` is its encoding of a parameter of kind `float64` or
`other` (`none`: `json.Marshal` returns an error). -/
structure Encoder where
  escape : Char → Str
  value : Iface → Option Str

/-- An encoder for the places where the library is not consulted: it leaves
every character as it is and encodes no value of the two library kinds. -/
def plainEncoder : Encoder := { escape := fun c => [c], value := fun _ => none }

/-- The characters `encoding/json` writes into a string as they are: every
character from the blank on, except the double quote, the backslash, the three
characters escaped for HTML and the two Unicode line separators. -/
def jsonSafe (c : Char) : Bool :=
  decide (0x20 ≤ c.toNat) && !(c = '"' || c = '\\' || c = '<' || c = '>' || c = '&' ||
    c.toNat = 0x2028 || c.toNat = 0x2029)

/-- The JSON encoding of a Go string. -/
def marshalString (enc : Encoder) (s : Str) : Str :=
  '"' :: (s.flatMap (fun c => if jsonSafe c then [c] else enc.escape c)) ++ ['"']

/-- The JSON encoding of a Go `int`: its decimal digits after a minus sign for
a negative number. -/
def Itoa (n : Int) : Str :=
  if n < 0 then '-' :: Nat.toDigits 10 n.natAbs else Nat.toDigits 10 n.toNat

/-- The JSON encoding of one parameter, by the kind of its Go type. -/
def marshalIface (enc : Encoder) : Iface → Option Str
  | .int n => some (Itoa n)
  | .TurnOnValue t => some (Itoa t)
  | .Effect e => some (marshalString enc e)
  | .PowerValue p => some (marshalString enc p)
  | .string s => some (marshalString enc s)
  | .bool b => some (if b then "true".toList else "false".toList)
  | .nil => some "null".toList
  | v => enc.value v

/-- The encodings of the elements of a slice; `none` when one of them cannot
be encoded. -/
def marshalParams (enc : Encoder) : List Iface → Option (List Str)
  | [] => some []
  | p :: ps =>
    match marshalIface enc p with
    | none => none
    | some e =>
      match marshalParams enc ps with
      | none => none
      | some es => some (e :: es)

/-- The elements of a JSON array, separated by commas. -/
def joinComma : List Str → Str
  | [] => []
  | [e] => e
  | e :: es => e ++ ',' :: joinComma es

/-- Go `json.Marshal` of a `command`: the object of the three tagged fields in
the order of their declaration. A slice that is not nil is an array. -/
def Marshal (enc : Encoder) (cmd : command) : Option Str :=
  match marshalParams enc cmd.Params with
  | none => none
  | some ps =>
    some ("\x7b\"id\":".toList ++ Itoa cmd.ID ++ ",\"method\":".toList ++
      marshalString enc cmd.Method ++ ",\"params\":[".toList ++ joinComma ps ++ "]\x7d".toList)

/-- The method `command.json`: the error of `json.Marshal` is dropped, and CR
LF is appended to what it returned, which is nil after an error. -/
def command.json (enc : Encoder) (cmd : command) : Str :=
  (match Marshal enc cmd with
    | some j => j
    | none => []) ++ ['\r', '\n']

/-! ## Release and sending (command.go) -/

/-- The content of the pending table; a nil map holds nothing. -/
def pending (y : YeeLight) : GoMap Int Chan :=
  match y.pendingCmds with
  | none => []
  | some m => m

/-- A send on a channel. `none`: the send does not return, because the channel
is closed (the send panics) or its buffer is full (the send blocks). -/
def Chan.send (c : Chan) (a : Answer) : Option Chan :=
  if c.closed then none
  else if c.buf.length < c.cap then some { c with buf := c.buf ++ [a] }
  else none

/-- The call `close(c)`. `none`: the channel is closed already and the call
panics. -/
def Chan.close (c : Chan) : Option Chan :=
  if c.closed then none else some { c with closed := true }

/-- The method `releaseAnswerChan`, run under the exclusive lock. The result
is the new state of the device together with the channel of `id` as the call
leaves it (`none` when `id` is not in the table); the whole result is `none`
when the call does not return, because the send or the close does not. -/
def releaseAnswerChan (y : YeeLight) (id : Int) (a : Option Answer) :
    Option (YeeLight × Option Chan) :=
  match mapGet (pending y) id with
  | none => some ({ y with errs := y.errs ++ [.ErrUnknownCommand] }, none)
  | some c =>
    let sent := match a with
      | some a => c.send a
      | none => some c
    match sent with
    | none => none
    | some c1 =>
      match c1.close with
      | none => none
      | some c2 => some ({ y with pendingCmds := some (mapDelete (pending y) id) }, some c2)

/-- The call `Write` on a connection: a closed connection takes no bytes. -/
def Conn.Write (c : Conn) (b : Str) : Conn :=
  if c.closed then c else { c with written := c.written ++ b }

/-- The method `sendCommand`. `arrived` is the outcome of the `select`: the
answer received from the channel of the command before `commandTimeout` has
passed, or `none` when the timeout fires first. -/
def sendCommand (enc : Encoder) (y : YeeLight) (cmd : command) (arrived : Option Answer) :
    Option (YeeLight × Except GoError Answer) :=
  match y.tcpSocket with
  | none =>
    match releaseAnswerChan y cmd.ID none with
    | none => none
    | some (y', _) => some (y', .error .ErrConnNotInitialized)
  | some conn =>
    match mapGet (pending y) cmd.ID with
    | none => some (y, .error .ErrFailedCmd)
    | some _ =>
      let y1 := { y with tcpSocket := some (conn.Write (command.json enc cmd)) }
      match arrived with
      | some a => some (y1, .ok a)
      | none =>
        match releaseAnswerChan y1 cmd.ID none with
        | none => none
        | some (y2, _) => some (y2, .error .ErrTimedOut)

/-- The function `isValidDuration`. -/
def isValidDuration (d : Int) : Bool := decide (d ≥ 30)

/-- The common end of the public operations: the command is built and, when
that succeeds, sent. -/
def buildAndSend (enc : Encoder) (y : YeeLight) (method : Str) (params : List Iface)
    (arrived : Option Answer) : Option (YeeLight × Except GoError Answer) :=
  match newCommand y method params with
  | (y1, .error err) => some (y1, .error err)
  | (y1, .ok cmd) => sendCommand enc y1 cmd arrived

/-- The method `SendRGB`; the three colour arguments are of type `uint8`. -/
def SendRGB (enc : Encoder) (y : YeeLight) (r g b : Nat) (effect : Str) (duration : Int)
    (arrived : Option Answer) : Option (YeeLight × Except GoError Answer) :=
  if !isValidDuration duration then some (y, .error .ErrInvalidType)
  else
    let val : RGBValue := { red := r % 256, green := g % 256, blue := b % 256 }
    buildAndSend enc y "set_rgb".toList [.int val.Get, .Effect effect, .int duration] arrived

/-- The method `SetCTAbs`. -/
def SetCTAbs (enc : Encoder) (y : YeeLight) (ct : Int) (effect : Str) (duration : Int)
    (arrived : Option Answer) : Option (YeeLight × Except GoError Answer) :=
  if ct < 1700 ∨ ct > 6500 then some (y, .error .ErrInvalidRange)
  else if !isValidDuration duration then some (y, .error .ErrInvalidType)
  else buildAndSend enc y "set_ct_abx".toList [.int ct, .Effect effect, .int duration] arrived

/-- The method `SetHSV`. -/
def SetHSV (enc : Encoder) (y : YeeLight) (hue sat : Int) (effect : Str) (duration : Int)
    (arrived : Option Answer) : Option (YeeLight × Except GoError Answer) :=
  if !isValidDuration duration then some (y, .error .ErrInvalidType)
  else buildAndSend enc y "set_hsv".toList [.int hue, .int sat, .Effect effect, .int duration]
    arrived

/-- The method `SetBright`. -/
def SetBright (enc : Encoder) (y : YeeLight) (bright : Int) (effect : Str) (duration : Int)
    (arrived : Option Answer) : Option (YeeLight × Except GoError Answer) :=
  if bright < 1 ∨ bright > 100 then some (y, .error .ErrInvalidRange)
  else if !isValidDuration duration then some (y, .error .ErrInvalidType)
  else buildAndSend enc y "set_bright".toList [.int bright, .Effect effect, .int duration] arrived

/-- The method `SetPower`. -/
def SetPower (enc : Encoder) (y : YeeLight) (power effect : Str) (duration : Int) (mode : Int)
    (arrived : Option Answer) : Option (YeeLight × Except GoError Answer) :=
  if !PowerValue.isValid power then some (y, .error .ErrInvalidType)
  else if !isValidDuration duration then some (y, .error .ErrInvalidType)
  else buildAndSend enc y "set_power".toList
    [.PowerValue power, .Effect effect, .int duration, .TurnOnValue mode] arrived

/-- The method `Toggle`. -/
def Toggle (enc : Encoder) (y : YeeLight) (arrived : Option Answer) :
    Option (YeeLight × Except GoError Answer) :=
  buildAndSend enc y "toggle".toList [] arrived

/-! ## Notifications (command.go) -/

/-- The state after the call of a setter whose error is dropped: the state
the setter returns, or the state before the call when the setter fails, which
it does before it touches the device. -/
def afterSetter (y : YeeLight) (r : Except GoError YeeLight) : YeeLight :=
  match r with
  | .ok y' => y'
  | .error _ => y

/-- The method `updateProperty`: the switch on the name of the property. -/
def updateProperty (y : YeeLight) (n : Notification) : YeeLight :=
  if n.Property = "power".toList then afterSetter y (setPower y n.Status)
  else if n.Property = "bright".toList then afterSetter y (setBright y n.Status)
  else if n.Property = "color_mode".toList then afterSetter y (setColorMode y n.Status)
  else if n.Property = "ct".toList then afterSetter y (setColorTemperature y n.Status)
  else if n.Property = "rgb".toList then afterSetter y (setRGB y n.Status)
  else if n.Property = "hue".toList then afterSetter y (setHue y n.Status)
  else if n.Property = "sat".toList then afterSetter y (setSaturation y n.Status)
  else if n.Property = "name".toList then setName y n.Status
  else y

/-- The part of `encoding/json` that reads a frame, left to the library:
`answer` is `json.Unmarshal` into an `Answer` and `props` is `json.Unmarshal`
into the struct of a notification, its method and its params (`none`: the
call returns an error). The params are listed in the order in which the loop
over the map meets them, which Go does not fix. -/
structure Decoder where
  answer : Str → Option Answer
  props : Str → Option (Str × GoMap Str Str)

/-- The loop of `parseNotifications` over the params: every entry gives one
notification, which is handed to `updateProperty` and appended to the result.
The calls started with `go` are taken as done where they are started. -/
def notifyLoop : GoMap Str Str → YeeLight → List Notification → YeeLight × List Notification
  | [], y, res => (y, res)
  | (k, v) :: rest, y, res =>
    notifyLoop rest (updateProperty y { Property := k, Status := v })
      (res ++ [{ Property := k, Status := v }])

/-- The method `parseNotifications`: the new state and the notifications. -/
def parseNotifications (dec : Decoder) (y : YeeLight) (msg : Str) :
    YeeLight × List Notification :=
  let s := TrimSuffix msg "\r\n".toList
  match dec.props s with
  | none => ({ y with errs := y.errs ++ [.JSONError] }, [])
  | some (_, params) => notifyLoop params y []

/-! ## The connection (yeelightConn.go) -/

/-- The call `Close` on a connection and its result: a connection that is
closed already returns an error of package net. -/
def Conn.Close (c : Conn) : Conn × Option GoError :=
  if c.closed then (c, some .NetError) else ({ c with closed := true }, none)

/-- The method `Close`: the new state and the error returned. -/
def Close (y : YeeLight) : YeeLight × Option GoError :=
  match y.tcpSocket with
  | some c => ({ y with tcpSocket := some c.Close.1 }, c.Close.2)
  | none => (y, some .ErrConnNotInitialized)

/-- The method `Open`, without the read loop it starts: `dialed` is what
`net.Dial` returns, a connection or an error together with a nil connection.
The two channels are part of the state from the start. -/
def Open (y : YeeLight) (dialed : Except GoError Conn) : YeeLight × Option GoError :=
  let y1 := (Close y).1
  match dialed with
  | .ok c => ({ y1 with tcpSocket := some c }, none)
  | .error err => ({ y1 with tcpSocket := none }, some err)

/-- What one call of `ReadBytes` on the socket returns to the read loop: a
frame that ends in a newline, or an error. -/
inductive ReadResult where
  | frame (msg : Str)
  | failure (err : GoError)
  deriving DecidableEq, Repr

/-- The function the read loop starts for a frame that was read. `none`: the
release of the answer does not return. -/
def dispatch (dec : Decoder) (y : YeeLight) (msg : Str) : Option YeeLight :=
  match dec.answer msg with
  | none => some { y with errs := y.errs ++ [.JSONError] }
  | some a =>
    if a.ID = 0 then
      match parseNotifications dec y msg with
      | (y1, ns) =>
        let y2 := if ns.length = 0 then { y1 with errs := y1.errs ++ [.ErrUnknownCommand] } else y1
        some { y2 with events := y2.events ++ ns }
    else if a.ID < 0 then some { y with errs := y.errs ++ [.ErrFailedCmd] }
    else
      match releaseAnswerChan y a.ID (some a) with
      | none => none
      | some (y', _) => some y'

/-- The loop of `readTCP` over the successive results of `ReadBytes`. The
result says whether the loop has ended (the socket was nil when the condition
was tested) or is waiting for the next read; the frames are dispatched in the
order in which they are read. -/
def readLoop (dec : Decoder) : List ReadResult → YeeLight → Option (YeeLight × Bool)
  | [], y =>
    match y.tcpSocket with
    | none => some (y, true)
    | some _ => some (y, false)
  | r :: rest, y =>
    match y.tcpSocket with
    | none => some (y, true)
    | some _ =>
      match r with
      | .failure err => readLoop dec rest { y with errs := y.errs ++ [err] }
      | .frame msg =>
        match dispatch dec y msg with
        | none => none
        | some y' => readLoop dec rest y'

/-- The method `readTCP`: the loop and, once it has ended, the report of the
dropped connection, `Close` and `Open`. -/
def readTCP (dec : Decoder) (y : YeeLight) (reads : List ReadResult)
    (dialed : Except GoError Conn) : Option (YeeLight × Bool) :=
  match readLoop dec reads y with
  | none => none
  | some (y1, false) => some (y1, false)
  | some (y1, true) =>
    let y2 := { y1 with errs := y1.errs ++ [.ErrConnDrop] }
    some ((Open (Close y2).1 dialed).1, true)

/-! ## Discovery (discover.go) -/

/-- The function `addrIsIn`; `addr` is the text `addr.String()` returns. -/
def addrIsIn (addr : Str) : List Str → Bool
  | [] => false
  | ip :: ips =>
    let addrString := (Split ':' addr).headD []
    if addrString = ip then true else addrIsIn addr ips

/-- The two channels of a `discoveryService`: what has been sent on them. -/
structure discoveryService where
  discoveredDevices : List YeeLight := []
  errorsChan : List GoError := []
  deriving DecidableEq, Repr

/-- The function started for a datagram in `Open`: `datagram` holds the `n`
bytes `ReadFrom` has put at the start of the buffer of 2048 bytes. `none`: an
index is outside the buffer and the function panics. -/
def handleDatagram (fold : Char → Char) (service : discoveryService) (myIPs : List Str)
    (datagram : Str) (addr : Str) : Option discoveryService :=
  let n := datagram.length
  let buf := datagram ++ List.replicate (2048 - n) (Char.ofNat 0)
  if addrIsIn addr myIPs then some service
  else if n + 1 < buf.length then
    let buf := (buf.set n '\r').set (n + 1) '\n'
    match newFromAdvertisement fold (buf.take (n + 2)) with
    | .error err => some { service with errorsChan := service.errorsChan ++ [err] }
    | .ok y => some { service with discoveredDevices := service.discoveredDevices ++ [y] }
  else none

/-! ## The JSON form of a device (yeelight.go, values.go, encoding/json) -/

/-- A JSON value that is not an object: a string, an integer or a boolean. -/
inductive JSONScalar where
  | string (s : Str)
  | number (n : Int)
  | bool (b : Bool)
  deriving DecidableEq, Repr

/-- A JSON value as the text of a device holds them: a scalar, or an object
whose members are scalars. -/
inductive JSONValue where
  | scalar (v : JSONScalar)
  | object (members : List (Str × JSONScalar))
  deriving DecidableEq, Repr

/-- The method `ColorModeValue.String`. -/
def ColorModeValue.String (c : Int) : Str :=
  if c = 1 then "rgb".toList
  else if c = 2 then "temperature".toList
  else if c = 3 then "hsv".toList
  else "unknown mode".toList

/-- The method `ColorModeValue.MarshalJSON`: the JSON string of the name. -/
def ColorModeValue.MarshalJSON (c : Int) : JSONValue :=
  .scalar (.string (ColorModeValue.String c))

/-- The method `RGBValue.MarshalJSON`: the object with the members r, g, b. -/
def RGBValue.MarshalJSON (rgb : RGBValue) : JSONValue :=
  .object [ ("r".toList, .number rgb.red), ("g".toList, .number rgb.green),
            ("b".toList, .number rgb.blue) ]

/-- What `json.Marshal` writes for a `SupportedFeatures`: the thirteen flags
under the names of their struct tags. -/
def SupportedFeatures.Marshal (f : SupportedFeatures) : JSONValue :=
  .object
    [ ("get_prop".toList, .bool f.GetProp), ("set_default".toList, .bool f.SetDefault),
      ("set_power".toList, .bool f.SetPower), ("toggle".toList, .bool f.Toggle),
      ("set_bright".toList, .bool f.SetBright), ("start_cf".toList, .bool f.StartCF),
      ("stop_cf".toList, .bool f.StopCF), ("set_scene".toList, .bool f.SetScene),
      ("cron_add".toList, .bool f.CronAdd), ("cron_get".toList, .bool f.CronGet),
      ("cron_del".toList, .bool f.CronDel), ("set_ct_abx".toList, .bool f.SetCtAbx),
      ("set_rgb".toList, .bool f.SetRGB) ]

/-- A string field with the tag option `omitempty`: left out when empty. -/
def omitEmptyString (key s : Str) : List (Str × JSONValue) :=
  if s = [] then [] else [(key, .scalar (.string s))]

/-- An int field with the tag option `omitempty`: left out when 0. -/
def omitEmptyInt (key : Str) (n : Int) : List (Str × JSONValue) :=
  if n = 0 then [] else [(key, .scalar (.number n))]

/-- The call `json.Marshal(y)` that `YeeLight.String` makes, as the members of
the JSON object whose text it returns: the exported fields in the order of the
struct, under the names of their tags; `omitempty` leaves an empty string and
a zero integer out, which for `ColorMode` is decided on the integer before
`MarshalJSON` is called and never applies to the struct `RGB`. -/
def YeeLight.Marshal (y : YeeLight) : List (Str × JSONValue) :=
  omitEmptyString "cache_control".toList y.CacheControl ++
  omitEmptyString "location".toList y.Location ++
  omitEmptyString "id".toList y.ID ++
  omitEmptyString "model".toList y.Model ++
  omitEmptyString "fw_ver".toList y.FirmwareVersion ++
  [("support".toList, y.Support.Marshal)] ++
  omitEmptyString "power".toList y.Power ++
  omitEmptyInt "brightness".toList y.Brightness ++
  (if y.ColorMode = 0 then [] else [("color_mode".toList, ColorModeValue.MarshalJSON y.ColorMode)]) ++
  omitEmptyInt "color_temperature".toList y.ColorTemperature ++
  [("rgb".toList, y.RGB.MarshalJSON)] ++
  omitEmptyInt "hue".toList y.Hue ++
  omitEmptyInt "saturation".toList y.Saturation ++
  [("name".toList, .scalar (.string y.Name))]

/-- What `json.Unmarshal` does with a JSON value whose target is a Go `bool`:
a boolean is stored; a value of another kind is a type error, reported by the
flag `true`, and the target is left as it was. -/
def storeBool {α : Type} (v : JSONScalar) (set : Bool → α) (old : α) : α × Bool :=
  match v with
  | .bool b => (set b, false)
  | _ => (old, true)

/-- The same for a target of kind `string`, as `string` and `PowerValue`. -/
def storeString {α : Type} (v : JSONValue) (set : Str → α) (old : α) : α × Bool :=
  match v with
  | .scalar (.string s) => (set s, false)
  | _ => (old, true)

/-- The same for a target of kind `int`, as `int` and `ColorModeValue`, a type
without a method `UnmarshalJSON`: only a JSON number is stored. -/
def storeInt {α : Type} (v : JSONValue) (set : Int → α) (old : α) : α × Bool :=
  match v with
  | .scalar (.number n) => (set n, false)
  | _ => (old, true)

/-- What `json.Unmarshal` does with one member of the object stored into a
`SupportedFeatures`: the member is stored in the flag that has its name as
tag, and a member under any other name is skipped. -/
def SupportedFeatures.setMember (f : SupportedFeatures) (key : Str) (v : JSONScalar) :
    SupportedFeatures × Bool :=
  if key = "get_prop".toList then storeBool v (fun b => { f with GetProp := b }) f
  else if key = "set_default".toList then storeBool v (fun b => { f with SetDefault := b }) f
  else if key = "set_power".toList then storeBool v (fun b => { f with SetPower := b }) f
  else if key = "toggle".toList then storeBool v (fun b => { f with Toggle := b }) f
  else if key = "set_bright".toList then storeBool v (fun b => { f with SetBright := b }) f
  else if key = "start_cf".toList then storeBool v (fun b => { f with StartCF := b }) f
  else if key = "stop_cf".toList then storeBool v (fun b => { f with StopCF := b }) f
  else if key = "set_scene".toList then storeBool v (fun b => { f with SetScene := b }) f
  else if key = "cron_add".toList then storeBool v (fun b => { f with CronAdd := b }) f
  else if key = "cron_get".toList then storeBool v (fun b => { f with CronGet := b }) f
  else if key = "cron_del".toList then storeBool v (fun b => { f with CronDel := b }) f
  else if key = "set_ct_abx".toList then storeBool v (fun b => { f with SetCtAbx := b }) f
  else if key = "set_rgb".toList then storeBool v (fun b => { f with SetRGB := b }) f
  else (f, false)

/-- The members of a JSON object stored one after the other into a
`SupportedFeatures`; the flag tells whether one of them was a type error. -/
def SupportedFeatures.Unmarshal :
    List (Str × JSONScalar) → SupportedFeatures → SupportedFeatures × Bool
  | [], f => (f, false)
  | (key, v) :: rest, f =>
    match f.setMember key v with
    | (f1, bad) =>
      match SupportedFeatures.Unmarshal rest f1 with
      | (f2, bad2) => (f2, bad || bad2)

/-- What `json.Unmarshal` does with one member of the object stored into a
`YeeLight`. The member is stored in the exported field that has its name as
tag, by the kind of the type of the field. `ColorModeValue` is of kind int and
`RGBValue` is a struct without an exported field, and neither type has a
method `UnmarshalJSON`: for the first only a number is stored, in the second
no member of the object finds a field. A member under any other name is
skipped. The flag tells whether the member was a type error. -/
def YeeLight.setMember (y : YeeLight) (key : Str) (v : JSONValue) : YeeLight × Bool :=
  if key = "cache_control".toList then storeString v (fun s => { y with CacheControl := s }) y
  else if key = "location".toList then storeString v (fun s => { y with Location := s }) y
  else if key = "id".toList then storeString v (fun s => { y with ID := s }) y
  else if key = "model".toList then storeString v (fun s => { y with Model := s }) y
  else if key = "fw_ver".toList then storeString v (fun s => { y with FirmwareVersion := s }) y
  else if key = "support".toList then
    match v with
    | .object members =>
      match SupportedFeatures.Unmarshal members y.Support with
      | (f, bad) => ({ y with Support := f }, bad)
    | _ => (y, true)
  else if key = "power".toList then storeString v (fun s => { y with Power := s }) y
  else if key = "brightness".toList then storeInt v (fun n => { y with Brightness := n }) y
  else if key = "color_mode".toList then storeInt v (fun n => { y with ColorMode := n }) y
  else if key = "color_temperature".toList then
    storeInt v (fun n => { y with ColorTemperature := n }) y
  else if key = "rgb".toList then
    match v with
    | .object _ => (y, false)
    | _ => (y, true)
  else if key = "hue".toList then storeInt v (fun n => { y with Hue := n }) y
  else if key = "saturation".toList then storeInt v (fun n => { y with Saturation := n }) y
  else if key = "name".toList then storeString v (fun s => { y with Name := s }) y
  else (y, false)

/-- The call `json.Unmarshal(text, &aux)` on the text of a JSON object with
the given members: every member is stored as far as it can be, and the call
returns the device together with an `UnmarshalTypeError` when a member was of
the wrong kind for its field. -/
def YeeLight.Unmarshal : List (Str × JSONValue) → YeeLight → YeeLight × Option GoError
  | [], y => (y, none)
  | (key, v) :: rest, y =>
    match y.setMember key v with
    | (y1, bad) =>
      match YeeLight.Unmarshal rest y1 with
      | (y2, err) => (y2, if bad then some .JSONError else err)

/-! ## Concrete inputs -/

/-- A complete and valid header map, after the discovery answer in the tests
of the decoder, with a shorter support string. -/
def headersFull : GoMap Str Str :=
  [ ("cache-control".toList, "max-age-3600".toList),
    ("location".toList, "yeelight://192.168.0.20:55443".toList),
    ("id".toList, "0x000000000458bdfa".toList),
    ("name".toList, "my-bulb".toList),
    ("model".toList, "color".toList),
    ("fw_ver".toList, "70".toList),
    ("support".toList, "get_prop set_default Toggle set_hsv".toList),
    ("power".toList, "off".toList),
    ("bright".toList, "53".toList),
    ("color_mode".toList, "2".toList),
    ("ct".toList, "2634".toList),
    ("rgb".toList, "16711680".toList),
    ("hue".toList, "359".toList),
    ("sat".toList, "100".toList) ]

/-- A header map without the sat header whose bright value is out of range. -/
def headersNoSatBadBright : GoMap Str Str :=
  [ ("cache-control".toList, "max-age=3600".toList),
    ("location".toList, "yeelight://192.168.0.20:55443".toList),
    ("id".toList, "0x000000000458bdfa".toList),
    ("name".toList, "my-bulb".toList),
    ("model".toList, "color".toList),
    ("fw_ver".toList, "70".toList),
    ("support".toList, "get_prop set_default set_power".toList),
    ("power".toList, "off".toList),
    ("bright".toList, "0".toList),
    ("color_mode".toList, "2".toList),
    ("ct".toList, "1700".toList),
    ("rgb".toList, "4".toList),
    ("hue".toList, "5".toList) ]

/-- A header map without the sat header whose other values are valid. -/
def headersNoSat : GoMap Str Str :=
  [ ("cache-control".toList, "max-age=3600".toList),
    ("location".toList, "yeelight://192.168.0.20:55443".toList),
    ("id".toList, "0x000000000458bdfa".toList),
    ("name".toList, "my-bulb".toList),
    ("model".toList, "color".toList),
    ("fw_ver".toList, "70".toList),
    ("support".toList, "get_prop set_default set_power".toList),
    ("power".toList, "off".toList),
    ("bright".toList, "1".toList),
    ("color_mode".toList, "2".toList),
    ("ct".toList, "1700".toList),
    ("rgb".toList, "4".toList),
    ("hue".toList, "5".toList) ]

/-- A header map with every required header in which bright is not a number
and ct is out of range. -/
def headersTextBright : GoMap Str Str :=
  [ ("cache-control".toList, "max-age=3600".toList),
    ("location".toList, "yeelight://192.168.0.20:55443".toList),
    ("id".toList, "0x000000000458bdfa".toList),
    ("name".toList, "my-bulb".toList),
    ("model".toList, "color".toList),
    ("fw_ver".toList, "70".toList),
    ("support".toList, "get_prop set_default set_power".toList),
    ("power".toList, "off".toList),
    ("bright".toList, "bright".toList),
    ("color_mode".toList, "2".toList),
    ("ct".toList, "0".toList),
    ("rgb".toList, "4".toList),
    ("hue".toList, "5".toList),
    ("sat".toList, "6".toList) ]

/-- A header map with every required header in which ct is out of range and
the later value hue is not a number. -/
def headersLowCt : GoMap Str Str :=
  [ ("cache-control".toList, "max-age=3600".toList),
    ("location".toList, "yeelight://192.168.0.20:55443".toList),
    ("id".toList, "0x000000000458bdfa".toList),
    ("name".toList, "my-bulb".toList),
    ("model".toList, "color".toList),
    ("fw_ver".toList, "70".toList),
    ("support".toList, "get_prop set_default set_power".toList),
    ("power".toList, "off".toList),
    ("bright".toList, "1".toList),
    ("color_mode".toList, "2".toList),
    ("ct".toList, "1699".toList),
    ("rgb".toList, "4".toList),
    ("hue".toList, "hue".toList),
    ("sat".toList, "6".toList) ]

/-- The thirteen capability tokens `setSupport` recognises. -/
def supportTokens : List Str :=
  [ "get_prop".toList, "set_default".toList, "set_power".toList, "toggle".toList,
    "set_bright".toList, "start_cf".toList, "stop_cf".toList, "set_scene".toList,
    "cron_add".toList, "cron_get".toList, "cron_del".toList, "set_ct_abx".toList,
    "set_rgb".toList ]

/-- A parameter `newCommand` accepts: an int, or a valid `Effect`,
`PowerValue` or `TurnOnValue`. -/
def validParam : Iface → Bool
  | .int _ => true
  | .Effect e => Effect.isValid e
  | .PowerValue p => PowerValue.isValid p
  | .TurnOnValue t => TurnOnValue.isValid t
  | _ => false

/-- The identifiers returned by `n` successive calls of `nextCommand` on one
device, in call order, with the state after the last call. The exclusive lock
of `nextCommand` makes concurrent calls take effect one after the other. -/
def nextCommandN : Nat → YeeLight → YeeLight × List Int
  | 0, y => (y, [])
  | n + 1, y =>
    match nextCommand y with
    | (y', id) =>
      match nextCommandN n y' with
      | (y'', ids) => (y'', id :: ids)

/-- Successive calls of `newCommand` on one device, as in the loop of
`Test_newCommand`: the final state and the result of every call, in order. -/
def newCommands : YeeLight → List (Str × List Iface) → YeeLight × List (Except GoError command)
  | y, [] => (y, [])
  | y, (method, params) :: calls =>
    match newCommand y method params with
    | (y', r) =>
      match newCommands y' calls with
      | (y'', rs) => (y'', r :: rs)

/-- The identifier of a built command, `none` for a failed construction. -/
def commandID : Except GoError command → Option Int
  | .ok c => some c.ID
  | .error _ => none

/-- Two characters that are equal, or are the same ASCII letter in upper and
in lower case. -/
def sameLetter (c d : Char) : Prop :=
  c = d ∨ (c.isAlpha = true ∧ d.isAlpha = true ∧ c.toLower = d.toLower)

instance (c d : Char) : Decidable (sameLetter c d) :=
  inferInstanceAs (Decidable (c = d ∨ (c.isAlpha = true ∧ d.isAlpha = true ∧ c.toLower = d.toLower)))

/-- The JSON text of a validated parameter: the decimal digits of an int or a
TurnOnValue, the text of an Effect or a PowerValue between double quotes. -/
def paramJSON : Iface → Str
  | .int n => Itoa n
  | .TurnOnValue t => Itoa t
  | .Effect e => '"' :: e ++ ['"']
  | .PowerValue p => '"' :: p ++ ['"']
  | _ => []

/-- A device with the command 7 pending on a fresh channel. -/
def devicePending7 : YeeLight := { idCommand := 7, pendingCmds := some [(7, Chan.make1)] }

/-- The answer frame with identifier 7 and the result ok, decoded. -/
def answerOk7 : Answer := { ID := 7, Result := [.string "ok".toList] }

/-- A device with an open connection on which nothing has been written, and
with the command 1 pending. -/
def deviceOpen1 : YeeLight :=
  { tcpSocket := some {}, idCommand := 1, pendingCmds := some [(1, Chan.make1)] }

/-- The names of the eight properties `updateProperty` recognises. -/
def propertyNames : List Str :=
  [ "power".toList, "bright".toList, "color_mode".toList, "ct".toList, "rgb".toList,
    "hue".toList, "sat".toList, "name".toList ]

/-- A device with an open connection on which nothing has been written and
no command pending. -/
def deviceOpen : YeeLight := { tcpSocket := some {} }

/-- The answer frame with identifier 1 and the result ok, decoded. -/
def answerOk1 : Answer := { ID := 1, Result := [.string "ok".toList] }

/-- A decoder that knows a finite set of frames: the value `json.Unmarshal`
gives for each listed text, and an error for every other text. -/
def tableDecoder (answers : GoMap Str Answer) (batches : GoMap Str (Str × GoMap Str Str)) :
    Decoder :=
  { answer := mapGet answers, props := mapGet batches }

/-- The frame with two properties of the test of `parseNotifications`. -/
def propsFrame : Str :=
  "\x7b\"method\":\"props\",\"params\":\x7b\"power\":\"on\",\"bright\":\"20\"\x7d\x7d\r\n".toList

/-- The frame `propsFrame` without its line end. -/
def propsText : Str :=
  "\x7b\"method\":\"props\",\"params\":\x7b\"power\":\"on\",\"bright\":\"20\"\x7d\x7d".toList

/-- The malformed frame of the test of `parseNotifications`. -/
def malformedFrame : Str :=
  "\x7b\x7d\"method\":\"props\",\"params\":\x7b\"power\":\"on\",\"bright\":\"20\"\x7d\x7d\r\n".toList

/-- The frame of the answer ok to the command 1. -/
def answerFrame1 : Str := "\x7b\"id\":1,\"result\":[\"ok\"]\x7d\r\n".toList

/-- A frame whose identifier is negative. -/
def failedFrame : Str := "\x7b\"id\":-1\x7d\r\n".toList

/-- What `encoding/json` makes of the four frames above: as an `Answer`, a
frame without an identifier has the identifier 0, and as a notification a
frame without params has none; the malformed frame is rejected. -/
def testDecoder : Decoder :=
  tableDecoder
    [ (propsFrame, { ID := 0, Result := [] }),
      (answerFrame1, answerOk1),
      (failedFrame, { ID := -1, Result := [] }) ]
    [ (propsText, ("props".toList,
        [("power".toList, "on".toList), ("bright".toList, "20".toList)])),
      ("\x7b\"id\":1,\"result\":[\"ok\"]\x7d".toList, ([], [])),
      ("\x7b\"id\":-1\x7d".toList, ([], [])) ]

/-- The flag-wise OR of two sets of capability flags. -/
def SupportedFeatures.union (f g : SupportedFeatures) : SupportedFeatures :=
  { GetProp := f.GetProp || g.GetProp
    SetDefault := f.SetDefault || g.SetDefault
    SetPower := f.SetPower || g.SetPower
    Toggle := f.Toggle || g.Toggle
    SetBright := f.SetBright || g.SetBright
    StartCF := f.StartCF || g.StartCF
    StopCF := f.StopCF || g.StopCF
    SetScene := f.SetScene || g.SetScene
    CronAdd := f.CronAdd || g.CronAdd
    CronGet := f.CronGet || g.CronGet
    CronDel := f.CronDel || g.CronDel
    SetCtAbx := f.SetCtAbx || g.SetCtAbx
    SetRGB := f.SetRGB || g.SetRGB }

/-- The thirteen flags in the order of the struct. -/
def SupportedFeatures.flags (f : SupportedFeatures) : List Bool :=
  [ f.GetProp, f.SetDefault, f.SetPower, f.Toggle, f.SetBright, f.StartCF, f.StopCF,
    f.SetScene, f.CronAdd, f.CronGet, f.CronDel, f.SetCtAbx, f.SetRGB ]

/-- One call of the four methods that work on the pending table, with its
arguments and, for `sendCommand`, the outcome of the wait for the answer. -/
inductive Call where
  | nextCommand
  | newCommand (method : Str) (params : List Iface)
  | releaseAnswerChan (id : Int) (a : Option Answer)
  | sendCommand (cmd : command) (arrived : Option Answer)

/-- The state of the device after one call; `none` when the call does not
return. -/
def Call.run (enc : Encoder) (y : YeeLight) : Call → Option YeeLight
  | .nextCommand => some (Yeelight.nextCommand y).1
  | .newCommand method params => some (Yeelight.newCommand y method params).1
  | .releaseAnswerChan id a => (Yeelight.releaseAnswerChan y id a).map Prod.fst
  | .sendCommand cmd arrived => (Yeelight.sendCommand enc y cmd arrived).map Prod.fst

/-- The state of the device after a sequence of calls, each made in the state
the call before it has left. -/
def runCalls (enc : Encoder) : List Call → YeeLight → Option YeeLight
  | [], y => some y
  | c :: cs, y =>
    match c.run enc y with
    | none => none
    | some y' => runCalls enc cs y'

/-- The invariant of the pending table: the counter is not negative and every
key lies between 1 and the counter. -/
def pendingInRange (y : YeeLight) : Prop :=
  0 ≤ y.idCommand ∧ ∀ e ∈ pending y, 1 ≤ e.1 ∧ e.1 ≤ y.idCommand

/-- The device of the tests `Test_MarshalJSON` and `Test_UnmarshalJSON`. -/
def deviceOfJSONTest : YeeLight :=
  { CacheControl := "max-age-3600".toList
    Location := "192.168.0.20".toList
    ID := "0x000000000458bdfa".toList
    Model := "color".toList
    FirmwareVersion := "70".toList
    Support :=
      { GetProp := true, SetDefault := true, SetPower := true, Toggle := true, SetBright := true,
        StartCF := true, StopCF := true, SetScene := true, CronAdd := true, CronGet := true,
        CronDel := true, SetCtAbx := true, SetRGB := true }
    Power := Off
    Brightness := 53
    ColorMode := 2
    ColorTemperature := 2634
    RGB := { red := 255, green := 0, blue := 0 }
    Hue := 359
    Saturation := 100
    Name := "my-bulb".toList }

/-- The members of the JSON text of the same two tests. -/
def membersOfJSONTest : List (Str × JSONValue) :=
  [ ("cache_control".toList, .scalar (.string "max-age-3600".toList)),
    ("location".toList, .scalar (.string "192.168.0.20".toList)),
    ("id".toList, .scalar (.string "0x000000000458bdfa".toList)),
    ("model".toList, .scalar (.string "color".toList)),
    ("fw_ver".toList, .scalar (.string "70".toList)),
    ("support".toList, .object
      [ ("get_prop".toList, .bool true), ("set_default".toList, .bool true),
        ("set_power".toList, .bool true), ("toggle".toList, .bool true),
        ("set_bright".toList, .bool true), ("start_cf".toList, .bool true),
        ("stop_cf".toList, .bool true), ("set_scene".toList, .bool true),
        ("cron_add".toList, .bool true), ("cron_get".toList, .bool true),
        ("cron_del".toList, .bool true), ("set_ct_abx".toList, .bool true),
        ("set_rgb".toList, .bool true) ]),
    ("power".toList, .scalar (.string "off".toList)),
    ("brightness".toList, .scalar (.number 53)),
    ("color_mode".toList, .scalar (.string "temperature".toList)),
    ("color_temperature".toList, .scalar (.number 2634)),
    ("rgb".toList, .object
      [("r".toList, .number 255), ("g".toList, .number 0), ("b".toList, .number 0)]),
    ("hue".toList, .scalar (.number 359)),
    ("saturation".toList, .scalar (.number 100)),
    ("name".toList, .scalar (.string "my-bulb".toList)) ]

/-- An excerpt of the case tables of the library for the examples: the two
characters outside ASCII that lower to an ASCII letter, U+0130 to i and U+212A
to k. The texts of the examples hold no other character from 0x80 on. -/
def sampleFold (c : Char) : Char :=
  if c = Char.ofNat 0x130 then 'i' else if c = Char.ofNat 0x212A then 'k' else c

/-! ## Theorems -/

theorem shiftRight_land (m n k : Nat) : (m &&& n) >>> k = (m >>> k) &&& (n >>> k) := by
  apply Nat.eq_of_testBit_eq
  intro i
  simp [Nat.testBit_shiftRight, Nat.testBit_and]

theorem land_shift_byte (m n k : Nat) (hm : m >>> k = 255) :
    ((m &&& n) >>> k) % 256 = n / 2 ^ k % 256 := by
  rw [shiftRight_land, hm, Nat.shiftRight_eq_div_pow]
  have h := Nat.and_pow_two_sub_one_eq_mod (n / 2 ^ k) 8
  norm_num at h
  rw [Nat.land_comm, h, Nat.mod_mod]

theorem NewRGB_ok (v : Int) (h0 : 0 ≤ v) (h1 : v ≤ 0xffffff) :
    NewRGB v = .ok { red := v.toNat / 65536 % 256, green := v.toNat / 256 % 256,
                     blue := v.toNat % 256 } := by
  have hr := land_shift_byte 0x00FF0000 v.toNat 16 (by decide)
  have hg := land_shift_byte 0x0000FF00 v.toNat 8 (by decide)
  have hb := land_shift_byte 0x000000FF v.toNat 0 (by decide)
  simp only [Nat.shiftRight_zero, pow_zero, Nat.div_one] at hb
  norm_num at hr hg
  have : ¬ (v < 0 ∨ v > 0xffffff) := by omega
  simp only [NewRGB, this, if_false, hr, hg, hb]

/-- C1: a header map that holds the fourteen required keys with valid values is
decoded into the device whose identity fields are the header values verbatim,
whose location has lost a leading scheme, whose flags are those of the support
tokens and whose state fields are the parsed numbers (for rgb: its three
bytes). -/
theorem parseFromMap_full (fold : Char → Char) (lines : GoMap Str Str)
    (cc loc id name model fw sup pw vb vcm vct vrgb vh vs : Str) (b cm ct rgb h s : Int)
    (hcc : mapGet lines "cache-control".toList = some cc)
    (hloc : mapGet lines "location".toList = some loc)
    (hid : mapGet lines "id".toList = some id)
    (hname : mapGet lines "name".toList = some name)
    (hmodel : mapGet lines "model".toList = some model)
    (hfw : mapGet lines "fw_ver".toList = some fw)
    (hsup : mapGet lines "support".toList = some sup)
    (hpw : mapGet lines "power".toList = some pw)
    (hvb : mapGet lines "bright".toList = some vb)
    (hvcm : mapGet lines "color_mode".toList = some vcm)
    (hvct : mapGet lines "ct".toList = some vct)
    (hvrgb : mapGet lines "rgb".toList = some vrgb)
    (hvh : mapGet lines "hue".toList = some vh)
    (hvs : mapGet lines "sat".toList = some vs)
    (hpower : pw = "on".toList ∨ pw = "off".toList)
    (hb : Atoi vb = some b) (hbr : 1 ≤ b ∧ b ≤ 100)
    (hcm : Atoi vcm = some cm) (hcmr : cm = 1 ∨ cm = 2 ∨ cm = 3)
    (hct : Atoi vct = some ct) (hctr : 1700 ≤ ct ∧ ct ≤ 6500)
    (hrgb : Atoi vrgb = some rgb) (hrgbr : 0 ≤ rgb ∧ rgb ≤ 0xFFFFFF)
    (hh : Atoi vh = some h) (hhr : 0 ≤ h ∧ h ≤ 359)
    (hs : Atoi vs = some s) (hsr : 0 ≤ s ∧ s ≤ 100) :
    parseFromMap fold lines = .ok
      { CacheControl := cc
        Location := TrimPrefix loc "yeelight://".toList
        ID := id
        Name := name
        Model := model
        FirmwareVersion := fw
        Support := (setSupport fold {} sup).Support
        Power := pw
        Brightness := b
        ColorMode := cm
        ColorTemperature := ct
        RGB := { red := rgb.toNat / 65536 % 256
                 green := rgb.toNat / 256 % 256
                 blue := rgb.toNat % 256 }
        Hue := h
        Saturation := s } := by
  have e1 : ¬ (pw ≠ On ∧ pw ≠ Off) := by
    rcases hpower with h | h <;> simp [h, On, Off]
  have e2 : ¬ (b < 1 ∨ b > 100) := by omega
  have e3 : ¬ (cm < 1 ∨ cm > 3) := by omega
  have e4 : ¬ (ct < 1700 ∨ ct > 6500) := by omega
  have e5 := NewRGB_ok rgb hrgbr.1 hrgbr.2
  have e6 : ¬ (h < 0 ∨ h > 359) := by omega
  have e7 : ¬ (s < 0 ∨ s > 100) := by omega
  simp only [parseFromMap, hcc, hloc, hid, hname, hmodel, hfw, hsup, hpw, hvb, hvcm, hvct,
    hvrgb, hvh, hvs, setPower, setBright, setColorMode, setColorTemperature, setRGB, setHue,
    setSaturation, hb, hcm, hct, hrgb, hh, hs, e1, e2, e3, e4, e5, e6, e7, if_false, setSupport]

/-- C1 witness: the complete header map of the tests is decoded field by field. -/
theorem parseFromMap_full_witness :
    parseFromMap sampleFold headersFull = .ok
      { CacheControl := "max-age-3600".toList
        Location := "192.168.0.20:55443".toList
        ID := "0x000000000458bdfa".toList
        Name := "my-bulb".toList
        Model := "color".toList
        FirmwareVersion := "70".toList
        Support := { GetProp := true, SetDefault := true, Toggle := true }
        Power := "off".toList
        Brightness := 53
        ColorMode := 2
        ColorTemperature := 2634
        RGB := { red := 255, green := 0, blue := 0 }
        Hue := 359
        Saturation := 100 } :=
  parseFromMap_full sampleFold headersFull "max-age-3600".toList "yeelight://192.168.0.20:55443".toList
    "0x000000000458bdfa".toList "my-bulb".toList "color".toList "70".toList
    "get_prop set_default Toggle set_hsv".toList "off".toList "53".toList "2".toList
    "2634".toList "16711680".toList "359".toList "100".toList 53 2 2634 16711680 359 100
    (by decide) (by decide) (by decide) (by decide) (by decide) (by decide) (by decide)
    (by decide) (by decide) (by decide) (by decide) (by decide) (by decide) (by decide)
    (by decide) (by decide) (by decide) (by decide) (by decide) (by decide) (by decide)
    (by decide) (by decide) (by decide) (by decide) (by decide) (by decide)

theorem setPower_eq (y : YeeLight) (v : Str) :
    setPower y v = match checkPower v with
      | some e => .error e
      | none => .ok { y with Power := v } := by
  unfold setPower checkPower
  by_cases hr : v ≠ On ∧ v ≠ Off <;> simp [hr]

theorem setBright_eq (y : YeeLight) (v : Str) :
    setBright y v = match checkInt 1 100 v with
      | some e => .error e
      | none => .ok { y with Brightness := (Atoi v).getD 0 } := by
  unfold setBright checkInt
  cases h : Atoi v with
  | none => rfl
  | some n => by_cases hr : n < 1 ∨ n > 100 <;> simp [hr]

theorem setColorMode_eq (y : YeeLight) (v : Str) :
    setColorMode y v = match checkInt 1 3 v with
      | some e => .error e
      | none => .ok { y with ColorMode := (Atoi v).getD 0 } := by
  unfold setColorMode checkInt
  cases h : Atoi v with
  | none => rfl
  | some n => by_cases hr : n < 1 ∨ n > 3 <;> simp [hr]

theorem setColorTemperature_eq (y : YeeLight) (v : Str) :
    setColorTemperature y v = match checkInt 1700 6500 v with
      | some e => .error e
      | none => .ok { y with ColorTemperature := (Atoi v).getD 0 } := by
  unfold setColorTemperature checkInt
  cases h : Atoi v with
  | none => rfl
  | some n => by_cases hr : n < 1700 ∨ n > 6500 <;> simp [hr]

theorem setRGB_eq (y : YeeLight) (v : Str) :
    setRGB y v = match checkInt 0 0xffffff v with
      | some e => .error e
      | none => .ok { y with RGB :=
          { red := ((Atoi v).getD 0).toNat / 65536 % 256
            green := ((Atoi v).getD 0).toNat / 256 % 256
            blue := ((Atoi v).getD 0).toNat % 256 } } := by
  unfold setRGB checkInt
  cases h : Atoi v with
  | none => rfl
  | some n =>
    by_cases hr : n < 0 ∨ n > 0xffffff
    · simp [hr, NewRGB]
    · have h0 : 0 ≤ n := by omega
      have h1 : n ≤ 0xffffff := by omega
      simp [hr, NewRGB_ok n h0 h1]

theorem setHue_eq (y : YeeLight) (v : Str) :
    setHue y v = match checkInt 0 359 v with
      | some e => .error e
      | none => .ok { y with Hue := (Atoi v).getD 0 } := by
  unfold setHue checkInt
  cases h : Atoi v with
  | none => rfl
  | some n => by_cases hr : n < 0 ∨ n > 359 <;> simp [hr]

theorem setSaturation_eq (y : YeeLight) (v : Str) :
    setSaturation y v = match checkInt 0 100 v with
      | some e => .error e
      | none => .ok { y with Saturation := (Atoi v).getD 0 } := by
  unfold setSaturation checkInt
  cases h : Atoi v with
  | none => rfl
  | some n => by_cases hr : n < 0 ∨ n > 100 <;> simp [hr]

/-- The device `parseFromMap` builds from fourteen accepted header values. -/
theorem parseFromMap_spec (fold : Char → Char) (lines : GoMap Str Str) :
    match firstError lines with
    | some e => parseFromMap fold lines = .error e
    | none => ∃ cc loc id name model fw sup pw vb vcm vct vrgb vh vs,
        mapGet lines "cache-control".toList = some cc ∧
        mapGet lines "location".toList = some loc ∧
        mapGet lines "id".toList = some id ∧
        mapGet lines "name".toList = some name ∧
        mapGet lines "model".toList = some model ∧
        mapGet lines "fw_ver".toList = some fw ∧
        mapGet lines "support".toList = some sup ∧
        mapGet lines "power".toList = some pw ∧
        mapGet lines "bright".toList = some vb ∧
        mapGet lines "color_mode".toList = some vcm ∧
        mapGet lines "ct".toList = some vct ∧
        mapGet lines "rgb".toList = some vrgb ∧
        mapGet lines "hue".toList = some vh ∧
        mapGet lines "sat".toList = some vs ∧
        checkPower pw = none ∧ checkInt 1 100 vb = none ∧ checkInt 1 3 vcm = none ∧
        checkInt 1700 6500 vct = none ∧ checkInt 0 0xffffff vrgb = none ∧
        checkInt 0 359 vh = none ∧ checkInt 0 100 vs = none ∧
        parseFromMap fold lines = .ok
          { CacheControl := cc
            Location := TrimPrefix loc "yeelight://".toList
            ID := id
            Name := name
            Model := model
            FirmwareVersion := fw
            Support := (setSupport fold {} sup).Support
            Power := pw
            Brightness := (Atoi vb).getD 0
            ColorMode := (Atoi vcm).getD 0
            ColorTemperature := (Atoi vct).getD 0
            RGB := { red := ((Atoi vrgb).getD 0).toNat / 65536 % 256
                     green := ((Atoi vrgb).getD 0).toNat / 256 % 256
                     blue := ((Atoi vrgb).getD 0).toNat % 256 }
            Hue := (Atoi vh).getD 0
            Saturation := (Atoi vs).getD 0 } := by
  rcases h1 : mapGet lines "cache-control".toList with _ | cc
  · simp only [firstError, fieldChecks, fieldError, parseFromMap, List.filterMap_cons, List.filterMap_nil, List.head?_cons, List.head?_nil, h1]
  rcases h2 : mapGet lines "location".toList with _ | loc
  · simp only [firstError, fieldChecks, fieldError, parseFromMap, List.filterMap_cons, List.filterMap_nil, List.head?_cons, List.head?_nil, h1, h2]
  rcases h3 : mapGet lines "id".toList with _ | id
  · simp only [firstError, fieldChecks, fieldError, parseFromMap, List.filterMap_cons, List.filterMap_nil, List.head?_cons, List.head?_nil, h1, h2, h3]
  rcases h4 : mapGet lines "name".toList with _ | name
  · simp only [firstError, fieldChecks, fieldError, parseFromMap, List.filterMap_cons, List.filterMap_nil, List.head?_cons, List.head?_nil, h1, h2, h3, h4]
  rcases h5 : mapGet lines "model".toList with _ | model
  · simp only [firstError, fieldChecks, fieldError, parseFromMap, List.filterMap_cons, List.filterMap_nil, List.head?_cons, List.head?_nil, h1, h2, h3, h4, h5]
  rcases h6 : mapGet lines "fw_ver".toList with _ | fw
  · simp only [firstError, fieldChecks, fieldError, parseFromMap, List.filterMap_cons, List.filterMap_nil, List.head?_cons, List.head?_nil, h1, h2, h3, h4, h5, h6]
  rcases h7 : mapGet lines "support".toList with _ | sup
  · simp only [firstError, fieldChecks, fieldError, parseFromMap, List.filterMap_cons, List.filterMap_nil, List.head?_cons, List.head?_nil, h1, h2, h3, h4, h5, h6, h7]
  rcases h8 : mapGet lines "power".toList with _ | pw
  · simp only [firstError, fieldChecks, fieldError, parseFromMap, List.filterMap_cons, List.filterMap_nil, List.head?_cons, List.head?_nil, h1, h2, h3, h4, h5, h6, h7, h8]
  rcases c8 : checkPower pw with _ | e
  swap
  · simp only [firstError, fieldChecks, fieldError, parseFromMap, List.filterMap_cons, List.filterMap_nil, List.head?_cons, List.head?_nil, h1, h2, h3, h4, h5, h6, h7, h8,
      setPower_eq, c8]
  rcases h9 : mapGet lines "bright".toList with _ | vb
  · simp only [firstError, fieldChecks, fieldError, parseFromMap, List.filterMap_cons, List.filterMap_nil, List.head?_cons, List.head?_nil, h1, h2, h3, h4, h5, h6, h7, h8,
      setPower_eq, c8, h9]
  rcases c9 : checkInt 1 100 vb with _ | e
  swap
  · simp only [firstError, fieldChecks, fieldError, parseFromMap, List.filterMap_cons, List.filterMap_nil, List.head?_cons, List.head?_nil, h1, h2, h3, h4, h5, h6, h7, h8,
      setPower_eq, c8, h9, setBright_eq, c9]
  rcases h10 : mapGet lines "color_mode".toList with _ | vcm
  · simp only [firstError, fieldChecks, fieldError, parseFromMap, List.filterMap_cons, List.filterMap_nil, List.head?_cons, List.head?_nil, h1, h2, h3, h4, h5, h6, h7, h8,
      setPower_eq, c8, h9, setBright_eq, c9, h10]
  rcases c10 : checkInt 1 3 vcm with _ | e
  swap
  · simp only [firstError, fieldChecks, fieldError, parseFromMap, List.filterMap_cons, List.filterMap_nil, List.head?_cons, List.head?_nil, h1, h2, h3, h4, h5, h6, h7, h8,
      setPower_eq, c8, h9, setBright_eq, c9, h10, setColorMode_eq, c10]
  rcases h11 : mapGet lines "ct".toList with _ | vct
  · simp only [firstError, fieldChecks, fieldError, parseFromMap, List.filterMap_cons, List.filterMap_nil, List.head?_cons, List.head?_nil, h1, h2, h3, h4, h5, h6, h7, h8,
      setPower_eq, c8, h9, setBright_eq, c9, h10, setColorMode_eq, c10, h11]
  rcases c11 : checkInt 1700 6500 vct with _ | e
  swap
  · simp only [firstError, fieldChecks, fieldError, parseFromMap, List.filterMap_cons, List.filterMap_nil, List.head?_cons, List.head?_nil, h1, h2, h3, h4, h5, h6, h7, h8,
      setPower_eq, c8, h9, setBright_eq, c9, h10, setColorMode_eq, c10, h11,
      setColorTemperature_eq, c11]
  rcases h12 : mapGet lines "rgb".toList with _ | vrgb
  · simp only [firstError, fieldChecks, fieldError, parseFromMap, List.filterMap_cons, List.filterMap_nil, List.head?_cons, List.head?_nil, h1, h2, h3, h4, h5, h6, h7, h8,
      setPower_eq, c8, h9, setBright_eq, c9, h10, setColorMode_eq, c10, h11,
      setColorTemperature_eq, c11, h12]
  rcases c12 : checkInt 0 0xffffff vrgb with _ | e
  swap
  · simp only [firstError, fieldChecks, fieldError, parseFromMap, List.filterMap_cons, List.filterMap_nil, List.head?_cons, List.head?_nil, h1, h2, h3, h4, h5, h6, h7, h8,
      setPower_eq, c8, h9, setBright_eq, c9, h10, setColorMode_eq, c10, h11,
      setColorTemperature_eq, c11, h12, setRGB_eq, c12]
  rcases h13 : mapGet lines "hue".toList with _ | vh
  · simp only [firstError, fieldChecks, fieldError, parseFromMap, List.filterMap_cons, List.filterMap_nil, List.head?_cons, List.head?_nil, h1, h2, h3, h4, h5, h6, h7, h8,
      setPower_eq, c8, h9, setBright_eq, c9, h10, setColorMode_eq, c10, h11,
      setColorTemperature_eq, c11, h12, setRGB_eq, c12, h13]
  rcases c13 : checkInt 0 359 vh with _ | e
  swap
  · simp only [firstError, fieldChecks, fieldError, parseFromMap, List.filterMap_cons, List.filterMap_nil, List.head?_cons, List.head?_nil, h1, h2, h3, h4, h5, h6, h7, h8,
      setPower_eq, c8, h9, setBright_eq, c9, h10, setColorMode_eq, c10, h11,
      setColorTemperature_eq, c11, h12, setRGB_eq, c12, h13, setHue_eq, c13]
  rcases h14 : mapGet lines "sat".toList with _ | vs
  · simp only [firstError, fieldChecks, fieldError, parseFromMap, List.filterMap_cons, List.filterMap_nil, List.head?_cons, List.head?_nil, h1, h2, h3, h4, h5, h6, h7, h8,
      setPower_eq, c8, h9, setBright_eq, c9, h10, setColorMode_eq, c10, h11,
      setColorTemperature_eq, c11, h12, setRGB_eq, c12, h13, setHue_eq, c13, h14]
  rcases c14 : checkInt 0 100 vs with _ | e
  swap
  · simp only [firstError, fieldChecks, fieldError, parseFromMap, List.filterMap_cons, List.filterMap_nil, List.head?_cons, List.head?_nil, h1, h2, h3, h4, h5, h6, h7, h8,
      setPower_eq, c8, h9, setBright_eq, c9, h10, setColorMode_eq, c10, h11,
      setColorTemperature_eq, c11, h12, setRGB_eq, c12, h13, setHue_eq, c13, h14,
      setSaturation_eq, c14]
  simp only [firstError, fieldChecks, fieldError, parseFromMap, List.filterMap_cons, List.filterMap_nil, List.head?_cons, List.head?_nil, h1, h2, h3, h4, h5, h6, h7, h8,
      setPower_eq, c8, h9, setBright_eq, c9, h10, setColorMode_eq, c10, h11,
      setColorTemperature_eq, c11, h12, setRGB_eq, c12, h13, setHue_eq, c13, h14,
      setSaturation_eq, c14, setSupport]
  exact ⟨_, _, _, _, _, _, _, _, _, _, _, _, _, _, rfl, rfl, rfl, rfl, rfl, rfl, rfl, rfl, rfl, rfl, rfl, rfl, rfl, rfl, c8, c9, c10, c11, c12, c13, c14, rfl⟩

theorem firstError_absent_some (lines : GoMap Str Str) (k : Str)
    (L : List (Str × (Str → Option GoError))) (hk : k ∈ L.map Prod.fst)
    (habs : mapGet lines k = none) :
    ∃ e, (L.filterMap (fieldError lines)).head? = some e := by
  induction L with
  | nil => simp at hk
  | cons f L ih =>
    rw [List.filterMap_cons]
    cases hf : fieldError lines f with
    | some e => exact ⟨e, rfl⟩
    | none =>
      have hne : f.1 ≠ k := by
        intro h
        rw [fieldError, h, habs] at hf
        cases hf
      have hk' : k ∈ L.map Prod.fst := by
        simp only [List.map_cons, List.mem_cons] at hk
        rcases hk with h | h
        · exact absurd h.symm hne
        · exact h
      exact ih hk'

theorem firstError_absent_wrong (lines : GoMap Str Str) (k : Str)
    (L : List (Str × (Str → Option GoError))) (hk : k ∈ L.map Prod.fst)
    (habs : mapGet lines k = none)
    (hv : ∀ f ∈ L.takeWhile (fun f => decide (f.1 ≠ k)), ∀ v ∈ mapGet lines f.1, f.2 v = none) :
    (L.filterMap (fieldError lines)).head? = some .ErrWrongAdvertisement := by
  induction L with
  | nil => simp at hk
  | cons f L ih =>
    rw [List.filterMap_cons]
    by_cases hfk : f.1 = k
    · have : fieldError lines f = some .ErrWrongAdvertisement := by
        rw [fieldError, hfk, habs]
      rw [this]; rfl
    · have htw : (f :: L).takeWhile (fun f => decide (f.1 ≠ k)) =
          f :: L.takeWhile (fun f => decide (f.1 ≠ k)) := by
        simp [List.takeWhile_cons, hfk]
      rw [htw] at hv
      have hk' : k ∈ L.map Prod.fst := by
        simp only [List.map_cons, List.mem_cons] at hk
        rcases hk with h | h
        · exact absurd h.symm hfk
        · exact h
      have ih' := ih hk' (fun g hg => hv g (List.mem_cons_of_mem _ hg))
      cases hm : mapGet lines f.1 with
      | none =>
        have : fieldError lines f = some .ErrWrongAdvertisement := by
          rw [fieldError, hm]
        rw [this]; rfl
      | some v =>
        have h0 : f.2 v = none := hv f (List.mem_cons_self _ _) v (by rw [hm]; rfl)
        have : fieldError lines f = none := by
          rw [fieldError, hm]; exact h0
        rw [this]; exact ih'

/-- C2 (as stated, refuted): the sat header is absent from this map, yet the
error is `ErrInvalidRange`, because bright is checked, and rejected, first. -/
theorem parseFromMap_missing_counterexample :
    "sat".toList ∈ requiredKeys ∧ mapGet headersNoSatBadBright "sat".toList = none ∧
    parseFromMap sampleFold headersNoSatBadBright = .error .ErrInvalidRange ∧
    parseFromMap sampleFold headersNoSatBadBright ≠ .error .ErrWrongAdvertisement := by
  decide

/-- C2 (amended): a header map from which one of the fourteen required keys is
absent is never decoded into a device; the cause of the error is
`ErrWrongAdvertisement` whenever every header that is read before the absent
key and is present in the map has an accepted value. -/
theorem parseFromMap_missing (fold : Char → Char) (lines : GoMap Str Str) (k : Str) (hk : k ∈ requiredKeys)
    (habs : mapGet lines k = none) :
    (∃ e, parseFromMap fold lines = .error e) ∧
    ((∀ f ∈ fieldChecks.takeWhile (fun f => decide (f.1 ≠ k)),
        ∀ v ∈ mapGet lines f.1, f.2 v = none) →
      parseFromMap fold lines = .error .ErrWrongAdvertisement) := by
  have hspec := parseFromMap_spec fold lines
  constructor
  · obtain ⟨e, he⟩ := firstError_absent_some lines k fieldChecks hk habs
    have he' : firstError lines = some e := he
    rw [he'] at hspec
    exact ⟨e, hspec⟩
  · intro hv
    have he : firstError lines = some .ErrWrongAdvertisement :=
      firstError_absent_wrong lines k fieldChecks hk habs hv
    rw [he] at hspec
    exact hspec

/-- C2 witness: the sat header is absent and every other value is valid. -/
theorem parseFromMap_missing_witness :
    "sat".toList ∈ requiredKeys ∧ mapGet headersNoSat "sat".toList = none ∧
    parseFromMap sampleFold headersNoSat = .error .ErrWrongAdvertisement :=
  ⟨by decide, by decide,
    (parseFromMap_missing sampleFold headersNoSat "sat".toList (by decide) (by decide)).2 (by
      intro f hf v hv
      have e : List.takeWhile (fun f => decide (f.1 ≠ "sat".toList)) fieldChecks =
          fieldChecks.take 13 := by rfl
      rw [e] at hf
      simp only [fieldChecks, List.take, List.mem_cons, List.mem_nil_iff, or_false] at hf
      rcases hf with rfl | rfl | rfl | rfl | rfl | rfl | rfl | rfl | rfl | rfl | rfl | rfl | rfl <;>
        first
        | rfl
        | (revert v; decide))⟩

theorem firstError_present (lines : GoMap Str Str)
    (cc loc id name model fw sup pw vb vcm vct vrgb vh vs : Str)
    (hcc : mapGet lines "cache-control".toList = some cc)
    (hloc : mapGet lines "location".toList = some loc)
    (hid : mapGet lines "id".toList = some id)
    (hname : mapGet lines "name".toList = some name)
    (hmodel : mapGet lines "model".toList = some model)
    (hfw : mapGet lines "fw_ver".toList = some fw)
    (hsup : mapGet lines "support".toList = some sup)
    (hpw : mapGet lines "power".toList = some pw)
    (hvb : mapGet lines "bright".toList = some vb)
    (hvcm : mapGet lines "color_mode".toList = some vcm)
    (hvct : mapGet lines "ct".toList = some vct)
    (hvrgb : mapGet lines "rgb".toList = some vrgb)
    (hvh : mapGet lines "hue".toList = some vh)
    (hvs : mapGet lines "sat".toList = some vs) :
    firstError lines =
      ([checkPower pw, checkInt 1 100 vb, checkInt 1 3 vcm, checkInt 1700 6500 vct,
        checkInt 0 0xffffff vrgb, checkInt 0 359 vh, checkInt 0 100 vs].filterMap (fun o => o)).head? := by
  simp only [firstError, fieldChecks, fieldError, List.filterMap_cons, List.filterMap_nil,
    hcc, hloc, hid, hname, hmodel, hfw, hsup, hpw, hvb, hvcm, hvct, hvrgb, hvh, hvs]

theorem checkPower_cases (v : Str) : checkPower v = none ∨ checkPower v = some .ErrInvalidRange := by
  unfold checkPower
  split <;> simp

theorem checkInt_cases (lo hi : Int) (v : Str) (h : Atoi v ≠ none) :
    checkInt lo hi v = none ∨ checkInt lo hi v = some .ErrInvalidRange := by
  unfold checkInt
  cases hv : Atoi v with
  | none => exact absurd hv h
  | some n => simp only; split <;> simp

theorem checkInt_out (lo hi : Int) (v : Str) (n : Int) (h : Atoi v = some n)
    (hout : n < lo ∨ n > hi) : checkInt lo hi v = some .ErrInvalidRange := by
  simp [checkInt, h, hout]

theorem checkInt_none (lo hi : Int) (v : Str) (h : checkInt lo hi v = none) :
    ∃ n, Atoi v = some n ∧ lo ≤ n ∧ n ≤ hi := by
  unfold checkInt at h
  cases hv : Atoi v with
  | none => rw [hv] at h; cases h
  | some n =>
    rw [hv] at h
    by_cases hr : n < lo ∨ n > hi
    · simp [hr] at h
    · exact ⟨n, rfl, by omega, by omega⟩

/-- C3 (amended): in a header map with every required header, a state value
that is a decimal integer outside its range makes the decoder fail with cause
ErrInvalidRange, provided each numeric value read before it is converted by
Atoi (whatever the values read after it are). -/
theorem parseFromMap_out_of_range (fold : Char → Char) (lines : GoMap Str Str)
    (cc loc id name model fw sup pw vb vcm vct vrgb vh vs : Str)
    (hcc : mapGet lines "cache-control".toList = some cc)
    (hloc : mapGet lines "location".toList = some loc)
    (hid : mapGet lines "id".toList = some id)
    (hname : mapGet lines "name".toList = some name)
    (hmodel : mapGet lines "model".toList = some model)
    (hfw : mapGet lines "fw_ver".toList = some fw)
    (hsup : mapGet lines "support".toList = some sup)
    (hpw : mapGet lines "power".toList = some pw)
    (hvb : mapGet lines "bright".toList = some vb)
    (hvcm : mapGet lines "color_mode".toList = some vcm)
    (hvct : mapGet lines "ct".toList = some vct)
    (hvrgb : mapGet lines "rgb".toList = some vrgb)
    (hvh : mapGet lines "hue".toList = some vh)
    (hvs : mapGet lines "sat".toList = some vs)
    (hout :
      (∃ b, Atoi vb = some b ∧ (b < 1 ∨ b > 100)) ∨ (Atoi vb ≠ none ∧
      ((∃ cm, Atoi vcm = some cm ∧ (cm < 1 ∨ cm > 3)) ∨ (Atoi vcm ≠ none ∧
      ((∃ ct, Atoi vct = some ct ∧ (ct < 1700 ∨ ct > 6500)) ∨ (Atoi vct ≠ none ∧
      ((∃ rgb, Atoi vrgb = some rgb ∧ (rgb < 0 ∨ rgb > 0xFFFFFF)) ∨ (Atoi vrgb ≠ none ∧
      ((∃ h, Atoi vh = some h ∧ (h < 0 ∨ h > 359)) ∨ (Atoi vh ≠ none ∧
      (∃ s, Atoi vs = some s ∧ (s < 0 ∨ s > 100)))))))))))) :
    parseFromMap fold lines = .error .ErrInvalidRange := by
  have hspec := parseFromMap_spec fold lines
  have hfe := firstError_present lines cc loc id name model fw sup pw vb vcm vct vrgb vh vs
    hcc hloc hid hname hmodel hfw hsup hpw hvb hvcm hvct hvrgb hvh hvs
  have key : firstError lines = some .ErrInvalidRange := by
    rw [hfe]
    rcases checkPower_cases pw with hp | hp
    swap
    · simp [hp]
    rcases hout with ⟨b, hb, ho⟩ | ⟨nb, hout⟩
    · simp [hp, checkInt_out 1 100 vb b hb ho]
    rcases checkInt_cases 1 100 vb nb with h1 | h1
    swap
    · simp [hp, h1]
    rcases hout with ⟨cm, hb, ho⟩ | ⟨ncm, hout⟩
    · simp [hp, h1, checkInt_out 1 3 vcm cm hb ho]
    rcases checkInt_cases 1 3 vcm ncm with h2 | h2
    swap
    · simp [hp, h1, h2]
    rcases hout with ⟨ct, hb, ho⟩ | ⟨nct, hout⟩
    · simp [hp, h1, h2, checkInt_out 1700 6500 vct ct hb ho]
    rcases checkInt_cases 1700 6500 vct nct with h3 | h3
    swap
    · simp [hp, h1, h2, h3]
    rcases hout with ⟨rgb, hb, ho⟩ | ⟨nrgb, hout⟩
    · simp [hp, h1, h2, h3, checkInt_out 0 0xffffff vrgb rgb hb ho]
    rcases checkInt_cases 0 0xffffff vrgb nrgb with h4 | h4
    swap
    · simp [hp, h1, h2, h3, h4]
    rcases hout with ⟨h, hb, ho⟩ | ⟨nh, s, hb, ho⟩
    · simp [hp, h1, h2, h3, h4, checkInt_out 0 359 vh h hb ho]
    rcases checkInt_cases 0 359 vh nh with h5 | h5
    swap
    · simp [hp, h1, h2, h3, h4, h5]
    simp [hp, h1, h2, h3, h4, h5, checkInt_out 0 100 vs s hb ho]
  rw [key] at hspec
  exact hspec

/-- C3 (as stated, refuted): every required header is present and ct is the
integer 0, outside its range, yet the cause of the error is the conversion
error of bright, which is read first. -/
theorem parseFromMap_out_of_range_counterexample :
    (∀ k ∈ requiredKeys, mapGet headersTextBright k ≠ none) ∧
    mapGet headersTextBright "ct".toList = some "0".toList ∧ Atoi "0".toList = some 0 ∧
    parseFromMap sampleFold headersTextBright = .error .NumError ∧
    parseFromMap sampleFold headersTextBright ≠ .error .ErrInvalidRange := by
  decide

/-- C3 witness: ct is 1699, bright and color_mode are valid, and the later
value hue is not even a number. -/
theorem parseFromMap_out_of_range_witness :
    parseFromMap sampleFold headersLowCt = .error .ErrInvalidRange :=
  parseFromMap_out_of_range sampleFold headersLowCt "max-age=3600".toList
    "yeelight://192.168.0.20:55443".toList "0x000000000458bdfa".toList "my-bulb".toList
    "color".toList "70".toList "get_prop set_default set_power".toList "off".toList
    "1".toList "2".toList "1699".toList "4".toList "hue".toList "6".toList
    (by decide) (by decide) (by decide) (by decide) (by decide) (by decide) (by decide)
    (by decide) (by decide) (by decide) (by decide) (by decide) (by decide) (by decide)
    (Or.inr ⟨by decide, Or.inr ⟨by decide, Or.inl ⟨1699, by decide, by decide⟩⟩⟩)

theorem checkPower_none (v : Str) (h : checkPower v = none) : v = On ∨ v = Off := by
  unfold checkPower at h
  by_cases hr : v ≠ On ∧ v ≠ Off
  · simp [hr] at h
  · by_cases h1 : v = On
    · exact Or.inl h1
    · by_cases h2 : v = Off
      · exact Or.inr h2
      · exact absurd ⟨h1, h2⟩ hr

theorem RGBValue_Get_bounds (r g b : Nat) (hr : r < 256) (hg : g < 256) (hb : b < 256) :
    0 ≤ RGBValue.Get { red := r, green := g, blue := b } ∧
    RGBValue.Get { red := r, green := g, blue := b } ≤ 0xFFFFFF := by
  simp only [RGBValue.Get, Nat.shiftLeft_eq]
  constructor
  · exact Int.natCast_nonneg _
  · have : r * 2 ^ 16 + g * 2 ^ 8 + b ≤ 0xFFFFFF := by norm_num; omega
    exact_mod_cast this

/-- C4: for every header map the decoder returns either an error and no
device, or a device all of whose state fields are within their ranges. -/
theorem parseFromMap_error_or_valid (fold : Char → Char) (lines : GoMap Str Str) :
    (∃ e, parseFromMap fold lines = .error e) ∨
    (∃ y, parseFromMap fold lines = .ok y ∧
      (y.Power = On ∨ y.Power = Off) ∧
      (1 ≤ y.Brightness ∧ y.Brightness ≤ 100) ∧
      (y.ColorMode = 1 ∨ y.ColorMode = 2 ∨ y.ColorMode = 3) ∧
      (1700 ≤ y.ColorTemperature ∧ y.ColorTemperature ≤ 6500) ∧
      (0 ≤ y.RGB.Get ∧ y.RGB.Get ≤ 0xFFFFFF) ∧
      (0 ≤ y.Hue ∧ y.Hue ≤ 359) ∧
      (0 ≤ y.Saturation ∧ y.Saturation ≤ 100)) := by
  have hspec := parseFromMap_spec fold lines
  cases hfe : firstError lines with
  | some e =>
    rw [hfe] at hspec
    exact Or.inl ⟨e, hspec⟩
  | none =>
    rw [hfe] at hspec
    obtain ⟨cc, loc, id, name, model, fw, sup, pw, vb, vcm, vct, vrgb, vh, vs, -, -, -, -, -, -,
      -, -, -, -, -, -, -, -, c1, c2, c3, c4, c5, c6, c7, hok⟩ := hspec
    obtain ⟨b, hb, hb1, hb2⟩ := checkInt_none _ _ _ c2
    obtain ⟨cm, hcm, hcm1, hcm2⟩ := checkInt_none _ _ _ c3
    obtain ⟨ct, hct, hct1, hct2⟩ := checkInt_none _ _ _ c4
    obtain ⟨h, hh, hh1, hh2⟩ := checkInt_none _ _ _ c6
    obtain ⟨s, hs, hs1, hs2⟩ := checkInt_none _ _ _ c7
    refine Or.inr ⟨_, hok, ?_, ?_, ?_, ?_, ?_, ?_, ?_⟩
    · exact checkPower_none pw c1
    · simp only [hb, Option.getD_some]; exact ⟨hb1, hb2⟩
    · simp only [hcm, Option.getD_some]; omega
    · simp only [hct, Option.getD_some]; exact ⟨hct1, hct2⟩
    · exact RGBValue_Get_bounds _ _ _ (Nat.mod_lt _ (by decide)) (Nat.mod_lt _ (by decide))
        (Nat.mod_lt _ (by decide))
    · simp only [hh, Option.getD_some]; exact ⟨hh1, hh2⟩
    · simp only [hs, Option.getD_some]; exact ⟨hs1, hs2⟩

theorem ReadBytes_append_newline (line rest : Str) (h : '\n' ∉ line) :
    ReadBytes '\n' (line ++ '\n' :: rest) = (line ++ ['\n'], rest, true) := by
  induction line with
  | nil => simp [ReadBytes]
  | cons c cs ih =>
    have hc : c ≠ '\n' := fun e => h (by simp [e])
    have hcs : '\n' ∉ cs := fun e => h (List.mem_cons_of_mem _ e)
    simp [ReadBytes, hc, ih hcs]

/-- C5 (as stated, refuted): the only line of this message is neither start
line, yet the error is `io.EOF`, because the line has no line terminator. -/
theorem newFromAdvertisement_start_line_counterexample :
    "WRONG".toList ≠ discoveryAnswerHeader ∧ "WRONG".toList ≠ advertisementHeader ∧
    newFromAdvertisement sampleFold "WRONG".toList = .error .EOF ∧
    newFromAdvertisement sampleFold "WRONG".toList ≠ .error .ErrWrongAdvertisement := by
  decide

/-- C5 (amended): a message whose first line ends in a newline and is neither
of the two start lines is rejected with cause `ErrWrongAdvertisement`,
whatever follows the line. -/
theorem newFromAdvertisement_start_line (fold : Char → Char) (line rest : Str) (hline : '\n' ∉ line)
    (h1 : line ++ ['\n'] ≠ discoveryAnswerHeader) (h2 : line ++ ['\n'] ≠ advertisementHeader) :
    newFromAdvertisement fold (line ++ '\n' :: rest) = .error .ErrWrongAdvertisement := by
  simp [newFromAdvertisement, ReadBytes_append_newline line rest hline, h1, h2]

/-- C5 witness: the wrong start line of the tests, followed by a header. -/
theorem newFromAdvertisement_start_line_witness :
    newFromAdvertisement sampleFold ("WRONG\r".toList ++ '\n' :: "id: 0x1\r\n".toList) =
      .error .ErrWrongAdvertisement :=
  newFromAdvertisement_start_line sampleFold "WRONG\r".toList "id: 0x1\r\n".toList
    (by decide) (by decide) (by decide)

theorem ReadBytes_append_of_not_mem (a b : Str) (h : '\n' ∉ a) :
    ReadBytes '\n' (a ++ b) =
      (a ++ (ReadBytes '\n' b).1, (ReadBytes '\n' b).2.1, (ReadBytes '\n' b).2.2) := by
  induction a with
  | nil => simp
  | cons c cs ih =>
    have hc : c ≠ '\n' := fun e => h (by simp [e])
    have hcs : '\n' ∉ cs := fun e => h (List.mem_cons_of_mem _ e)
    simp [ReadBytes, hc, ih hcs]

theorem sameLetter_toLower {c d : Char} (h : sameLetter c d) : c.toLower = d.toLower := by
  rcases h with h | ⟨_, _, h⟩
  · rw [h]
  · exact h

theorem sameLetter_eq_of_not_alpha {c d : Char} (h : sameLetter c d) (hd : d.isAlpha = false) :
    c = d := by
  rcases h with h | ⟨_, h, _⟩
  · exact h
  · rw [hd] at h; cases h

theorem isAlpha_ascii (c : Char) (h : c.isAlpha = true) : c.toNat < 0x80 := by
  simp only [Char.isAlpha, Char.isUpper, Char.isLower, Bool.or_eq_true, Bool.and_eq_true,
    decide_eq_true_eq] at h
  show c.val.toNat < 128
  rcases h with ⟨_, h⟩ | ⟨_, h⟩
  · have h2 : c.val.toNat ≤ (90 : UInt32).toNat := h
    have h3 : (90 : UInt32).toNat = 90 := rfl
    omega
  · have h2 : c.val.toNat ≤ (122 : UInt32).toNat := h
    have h3 : (122 : UInt32).toNat = 122 := rfl
    omega

/-- On a text that holds no character from 0x80 on, the case tables are not
consulted: `ToLower` gives the same text for any two of them. -/
theorem ToLower_ascii (fold fold' : Char → Char) (s : Str) (h : ∀ c ∈ s, c.toNat < 0x80) :
    ToLower fold s = ToLower fold' s := by
  unfold ToLower
  apply List.map_congr_left
  intro c hc
  simp only [lowerRune, h c hc, if_true]

theorem sameLetter_lowerRune (fold : Char → Char) {c d : Char} (h : sameLetter c d) :
    lowerRune fold c = lowerRune fold d := by
  rcases h with h | ⟨hc, hd, h⟩
  · rw [h]
  · simp only [lowerRune, isAlpha_ascii c hc, isAlpha_ascii d hd, if_true, h]

theorem sameLetter_ToLower (fold : Char → Char) {name name' : Str}
    (h : List.Forall₂ sameLetter name name') : ToLower fold name = ToLower fold name' := by
  induction h with
  | nil => rfl
  | cons hc _ ih =>
    simp only [ToLower, List.map_cons] at ih ⊢
    rw [sameLetter_lowerRune fold hc, ih]

theorem sameLetter_not_mem_newline {name name' : Str} (h : List.Forall₂ sameLetter name name')
    (hn : '\n' ∉ name) : '\n' ∉ name' := by
  induction h with
  | nil => simp
  | @cons c d cs ds hc _ ih =>
    intro hmem
    rcases List.mem_cons.mp hmem with e | e
    · have : c = d := sameLetter_eq_of_not_alpha hc (by rw [← e]; decide)
      exact hn (by rw [this, ← e]; exact List.mem_cons_self _ _)
    · exact ih (fun e' => hn (List.mem_cons_of_mem _ e')) e

theorem cutFirst_name {name name' : Str} (h : List.Forall₂ sameLetter name name')
    (hsep : ¬ [':', ' '] <:+: name) (rest : Str) :
    cutFirst [':', ' '] (name' ++ ':' :: ' ' :: rest) = some (name', rest) := by
  induction h with
  | nil => simp [cutFirst, List.isPrefixOf]
  | @cons c d cs ds hc hcs ih =>
    have hsep' : ¬ [':', ' '] <:+: cs := fun e => hsep (List.infix_cons e)
    have hnp : List.isPrefixOf [':', ' '] (d :: (ds ++ ':' :: ' ' :: rest)) = false := by
      by_cases hd : d = ':'
      · have hcd : c = ':' := by
          rw [← hd]; exact sameLetter_eq_of_not_alpha hc (by rw [hd]; decide)
        cases hcs with
        | nil => simp [List.isPrefixOf, hd]
        | @cons c2 d2 cs2 ds2 hc2 hcs2 =>
          by_cases hd2 : d2 = ' '
          · have hc2' : c2 = ' ' := by
              rw [← hd2]; exact sameLetter_eq_of_not_alpha hc2 (by rw [hd2]; decide)
            exfalso
            apply hsep
            rw [hcd, hc2']
            exact (List.prefix_append [':', ' '] cs2).isInfix
          · have hd2' : ¬ ' ' = d2 := fun e => hd2 e.symm
            simp [List.isPrefixOf, hd, hd2']
      · have hd' : ¬ ':' = d := fun e => hd e.symm
        simp [List.isPrefixOf, hd']
    rw [List.cons_append, cutFirst, hnp, ih hsep']
    rfl

theorem SplitN2_name {name name' : Str} (h : List.Forall₂ sameLetter name name')
    (hsep : ¬ ": ".toList <:+: name) (rest : Str) :
    SplitN2 (name' ++ ": ".toList ++ rest) ": ".toList = [name', rest] := by
  have e : ": ".toList = [':', ' '] := rfl
  rw [e] at hsep ⊢
  have := cutFirst_name h hsep rest
  simp only [List.append_assoc, List.cons_append, List.nil_append, SplitN2, this]

theorem sameLetter_refl (name : Str) : List.Forall₂ sameLetter name name := by
  induction name with
  | nil => exact .nil
  | cons c cs ih => exact .cons (Or.inl rfl) ih

theorem storeHeader_name (fold : Char → Char) {name name' : Str} (h : List.Forall₂ sameLetter name name')
    (hsep : ¬ ": ".toList <:+: name) (rest : Str) (lines : GoMap Str Str) :
    storeHeader fold lines (name ++ ": ".toList ++ rest) =
      storeHeader fold lines (name' ++ ": ".toList ++ rest) := by
  simp only [storeHeader, SplitN2_name h hsep rest, SplitN2_name (sameLetter_refl name) hsep rest,
    sameLetter_ToLower fold h]

theorem readHeaders_name (fold : Char → Char) {name name' : Str} (h : List.Forall₂ sameLetter name name')
    (hnl : '\n' ∉ name) (hsep : ¬ ": ".toList <:+: name) (post : Str) (fuel : Nat)
    (lines : GoMap Str Str) :
    readHeaders fold fuel (name ++ ": ".toList ++ post) lines =
      readHeaders fold fuel (name' ++ ": ".toList ++ post) lines := by
  cases fuel with
  | zero => rfl
  | succ fuel =>
    have hnl' := sameLetter_not_mem_newline h hnl
    have h1 : '\n' ∉ name ++ ": ".toList := by
      intro e
      rcases List.mem_append.mp e with e | e
      · exact hnl e
      · revert e; decide
    have h2 : '\n' ∉ name' ++ ": ".toList := by
      intro e
      rcases List.mem_append.mp e with e | e
      · exact hnl' e
      · revert e; decide
    rw [readHeaders, readHeaders, ReadBytes_append_of_not_mem _ post h1,
      ReadBytes_append_of_not_mem _ post h2]
    rcases hr : ReadBytes '\n' post with ⟨l, r, ok⟩
    cases ok with
    | false => rfl
    | true =>
      simp only
      rw [storeHeader_name fold h hsep l lines]

theorem readHeaders_lines (fold : Char → Char) {name name' : Str} (h : List.Forall₂ sameLetter name name')
    (hnl : '\n' ∉ name) (hsep : ¬ ": ".toList <:+: name) (post : Str) (n : Nat) :
    ∀ (p : Str), p.length ≤ n → ∀ (fuel : Nat) (lines : GoMap Str Str),
      readHeaders fold fuel (p ++ '\n' :: (name ++ ": ".toList ++ post)) lines =
        readHeaders fold fuel (p ++ '\n' :: (name' ++ ": ".toList ++ post)) lines := by
  induction n with
  | zero =>
    intro p hp fuel lines
    have : p = [] := List.length_eq_zero.mp (Nat.le_zero.mp hp)
    subst this
    cases fuel with
    | zero => rfl
    | succ fuel =>
      have e1 := ReadBytes_append_newline [] (name ++ ": ".toList ++ post) (by simp)
      have e2 := ReadBytes_append_newline [] (name' ++ ": ".toList ++ post) (by simp)
      rw [readHeaders, readHeaders, e1, e2]
      exact readHeaders_name fold h hnl hsep post fuel _
  | succ n ih =>
    intro p hp fuel lines
    cases fuel with
    | zero => rfl
    | succ fuel =>
      by_cases hmem : '\n' ∈ p
      · obtain ⟨a, b, hab, ha⟩ := List.eq_append_cons_of_mem hmem
        have hb : b.length ≤ n := by
          have : p.length = a.length + (b.length + 1) := by rw [hab]; simp
          omega
        subst hab
        have e1 := ReadBytes_append_newline a (b ++ '\n' :: (name ++ ": ".toList ++ post)) ha
        have e2 := ReadBytes_append_newline a (b ++ '\n' :: (name' ++ ": ".toList ++ post)) ha
        have assoc : ∀ X : Str, (a ++ '\n' :: b) ++ '\n' :: X = a ++ '\n' :: (b ++ '\n' :: X) := by
          intro X; simp
        rw [readHeaders, readHeaders, assoc, assoc, e1, e2]
        exact ih b hb fuel _
      · have e1 := ReadBytes_append_newline p (name ++ ": ".toList ++ post) hmem
        have e2 := ReadBytes_append_newline p (name' ++ ": ".toList ++ post) hmem
        rw [readHeaders, readHeaders, e1, e2]
        exact readHeaders_name fold h hnl hsep post fuel _

theorem newFromAdvertisement_tail (fold : Char → Char) {chunk X X' : Str} (hlen : X.length = X'.length)
    (h : ∀ (fuel : Nat) (lines : GoMap Str Str), readHeaders fold fuel X lines = readHeaders fold fuel X' lines) :
    (match (chunk, X, true) with
      | (_, _, false) => (Except.error GoError.EOF : Except GoError YeeLight)
      | (chunk, rest, true) =>
        if !(chunk = discoveryAnswerHeader || chunk = advertisementHeader) then
          .error .ErrWrongAdvertisement
        else parseFromMap fold (readHeaders fold rest.length rest [])) =
    (match (chunk, X', true) with
      | (_, _, false) => (Except.error GoError.EOF : Except GoError YeeLight)
      | (chunk, rest, true) =>
        if !(chunk = discoveryAnswerHeader || chunk = advertisementHeader) then
          .error .ErrWrongAdvertisement
        else parseFromMap fold (readHeaders fold rest.length rest [])) := by
  simp only [hlen, h]

theorem startLine_reject (chunk : Str) (h : ':' ∈ chunk) :
    (!(decide (chunk = discoveryAnswerHeader) || decide (chunk = advertisementHeader))) = true := by
  have h1 : chunk ≠ discoveryAnswerHeader := by
    intro e; rw [e] at h; revert h; decide
  have h2 : chunk ≠ advertisementHeader := by
    intro e; rw [e] at h; revert h; decide
  simp [h1, h2]

/-- C6: changing the letter case of a header name, the text of a line before
its first colon and blank, does not change the result of decoding the
message: the same device or the same error. -/
theorem newFromAdvertisement_header_case (fold : Char → Char) (pre name name' post : Str)
    (hpre : pre = [] ∨ pre.getLast? = some '\n')
    (hnl : '\n' ∉ name) (hsep : ¬ ": ".toList <:+: name)
    (hcase : List.Forall₂ sameLetter name name') :
    newFromAdvertisement fold (pre ++ name ++ ": ".toList ++ post) =
      newFromAdvertisement fold (pre ++ name' ++ ": ".toList ++ post) := by
  rcases hpre with hpre | hpre
  · subst hpre
    have hnl' := sameLetter_not_mem_newline hcase hnl
    have h1 : '\n' ∉ name ++ ": ".toList := by
      intro e
      rcases List.mem_append.mp e with e | e
      · exact hnl e
      · revert e; decide
    have h2 : '\n' ∉ name' ++ ": ".toList := by
      intro e
      rcases List.mem_append.mp e with e | e
      · exact hnl' e
      · revert e; decide
    simp only [List.nil_append, newFromAdvertisement, ReadBytes_append_of_not_mem _ post h1,
      ReadBytes_append_of_not_mem _ post h2]
    rcases hr : ReadBytes '\n' post with ⟨l, r, ok⟩
    cases ok with
    | false => rfl
    | true =>
      have hA : ':' ∈ name ++ ": ".toList ++ l := by simp
      have hB : ':' ∈ name' ++ ": ".toList ++ l := by simp
      simp only [startLine_reject _ hA, startLine_reject _ hB, if_true]
  · obtain ⟨p, hp⟩ := List.getLast?_eq_some_iff.mp hpre
    subst hp
    have e1 : p ++ ['\n'] ++ name ++ ": ".toList ++ post =
        p ++ '\n' :: (name ++ ": ".toList ++ post) := by simp
    have e2 : p ++ ['\n'] ++ name' ++ ": ".toList ++ post =
        p ++ '\n' :: (name' ++ ": ".toList ++ post) := by simp
    rw [e1, e2]
    unfold newFromAdvertisement
    by_cases hmem : '\n' ∈ p
    · obtain ⟨a, b, hab, ha⟩ := List.eq_append_cons_of_mem hmem
      subst hab
      have assoc2 : ∀ X : Str, (a ++ '\n' :: b) ++ '\n' :: X = a ++ '\n' :: (b ++ '\n' :: X) := by
        intro X; simp
      rw [assoc2, assoc2, ReadBytes_append_newline a _ ha, ReadBytes_append_newline a _ ha]
      apply newFromAdvertisement_tail
      · simp only [List.length_append, List.length_cons, hcase.length_eq]
      · exact readHeaders_lines fold hcase hnl hsep post b.length b (Nat.le_refl _)
    · rw [ReadBytes_append_newline p _ hmem, ReadBytes_append_newline p _ hmem]
      apply newFromAdvertisement_tail
      · simp only [List.length_append, hcase.length_eq]
      · exact readHeaders_name fold hcase hnl hsep post

/-- C6 witness: the header name Id of a discovery answer written in capitals. -/
theorem newFromAdvertisement_header_case_witness :
    newFromAdvertisement sampleFold
      ("HTTP/1.1 200 OK\r\n".toList ++ "Id".toList ++ ": ".toList ++ "0x1\r\n".toList) =
    newFromAdvertisement sampleFold
      ("HTTP/1.1 200 OK\r\n".toList ++ "ID".toList ++ ": ".toList ++ "0x1\r\n".toList) :=
  newFromAdvertisement_header_case sampleFold "HTTP/1.1 200 OK\r\n".toList "Id".toList "ID".toList
    "0x1\r\n".toList (by decide) (by decide) (by decide)
    (.cons (by decide) (.cons (by decide) .nil))

theorem ReadBytes_length (delim : Char) (buf : Str) (h : (ReadBytes delim buf).2.2 = true) :
    (ReadBytes delim buf).2.1.length < buf.length := by
  induction buf with
  | nil => simp [ReadBytes] at h
  | cons c cs ih =>
    by_cases hc : c = delim
    · simp [ReadBytes, hc]
    · rcases hr : ReadBytes delim cs with ⟨l, r, ok⟩
      rw [hr] at ih
      simp only [ReadBytes, hc, if_false, hr] at h ⊢
      have := ih h
      simp only [List.length_cons] at this ⊢
      omega

/-- The fuel of the header loop is adequate: with any fuel of at least the
length of the buffer the loop ends at `io.EOF` with the same map. -/
theorem readHeaders_fuel (fold : Char → Char) (f1 : Nat) : ∀ (f2 : Nat) (buf : Str) (lines : GoMap Str Str),
    buf.length ≤ f1 → buf.length ≤ f2 → readHeaders fold f1 buf lines = readHeaders fold f2 buf lines := by
  induction f1 with
  | zero =>
    intro f2 buf lines h1 _
    have : buf = [] := List.length_eq_zero.mp (Nat.le_zero.mp h1)
    subst this
    cases f2 with
    | zero => rfl
    | succ f2 => simp [readHeaders, ReadBytes]
  | succ f1 ih =>
    intro f2 buf lines h1 h2
    cases f2 with
    | zero =>
      have : buf = [] := List.length_eq_zero.mp (Nat.le_zero.mp h2)
      subst this
      simp [readHeaders, ReadBytes]
    | succ f2 =>
      have hl := ReadBytes_length '\n' buf
      rw [readHeaders, readHeaders]
      rcases hr : ReadBytes '\n' buf with ⟨c, r, ok⟩
      rw [hr] at hl
      cases ok with
      | false => rfl
      | true =>
        have := hl rfl
        simp only at this ⊢
        exact ih f2 r _ (by omega) (by omega)

theorem setFeature_flags (fold : Char → Char) (f : SupportedFeatures) (t : Str) :
    (setFeature fold f t).GetProp = (f.GetProp || decide (ToLower fold t = "get_prop".toList)) ∧
    (setFeature fold f t).SetDefault = (f.SetDefault || decide (ToLower fold t = "set_default".toList)) ∧
    (setFeature fold f t).SetPower = (f.SetPower || decide (ToLower fold t = "set_power".toList)) ∧
    (setFeature fold f t).Toggle = (f.Toggle || decide (ToLower fold t = "toggle".toList)) ∧
    (setFeature fold f t).SetBright = (f.SetBright || decide (ToLower fold t = "set_bright".toList)) ∧
    (setFeature fold f t).StartCF = (f.StartCF || decide (ToLower fold t = "start_cf".toList)) ∧
    (setFeature fold f t).StopCF = (f.StopCF || decide (ToLower fold t = "stop_cf".toList)) ∧
    (setFeature fold f t).SetScene = (f.SetScene || decide (ToLower fold t = "set_scene".toList)) ∧
    (setFeature fold f t).CronAdd = (f.CronAdd || decide (ToLower fold t = "cron_add".toList)) ∧
    (setFeature fold f t).CronGet = (f.CronGet || decide (ToLower fold t = "cron_get".toList)) ∧
    (setFeature fold f t).CronDel = (f.CronDel || decide (ToLower fold t = "cron_del".toList)) ∧
    (setFeature fold f t).SetCtAbx = (f.SetCtAbx || decide (ToLower fold t = "set_ct_abx".toList)) ∧
    (setFeature fold f t).SetRGB = (f.SetRGB || decide (ToLower fold t = "set_rgb".toList)) := by
  unfold setFeature
  simp only []
  generalize ToLower fold t = x
  by_cases h1 : x = "get_prop".toList
  · subst h1; simp
  by_cases h2 : x = "set_default".toList
  · subst h2; simp
  by_cases h3 : x = "set_power".toList
  · subst h3; simp
  by_cases h4 : x = "toggle".toList
  · subst h4; simp
  by_cases h5 : x = "set_bright".toList
  · subst h5; simp
  by_cases h6 : x = "start_cf".toList
  · subst h6; simp
  by_cases h7 : x = "stop_cf".toList
  · subst h7; simp
  by_cases h8 : x = "set_scene".toList
  · subst h8; simp
  by_cases h9 : x = "cron_add".toList
  · subst h9; simp
  by_cases h10 : x = "cron_get".toList
  · subst h10; simp
  by_cases h11 : x = "cron_del".toList
  · subst h11; simp
  by_cases h12 : x = "set_ct_abx".toList
  · subst h12; simp
  by_cases h13 : x = "set_rgb".toList
  · subst h13; simp
  simp only [h1, h2, h3, h4, h5, h6, h7, h8, h9, h10, h11, h12, h13, if_false, decide_False,
    Bool.or_false, and_self]

theorem foldl_setFeature_flags (fold : Char → Char) (ts : List Str) (f : SupportedFeatures) :
    (ts.foldl (setFeature fold) f).GetProp = (f.GetProp || decide ("get_prop".toList ∈ ts.map (ToLower fold))) ∧
    (ts.foldl (setFeature fold) f).SetDefault =
      (f.SetDefault || decide ("set_default".toList ∈ ts.map (ToLower fold))) ∧
    (ts.foldl (setFeature fold) f).SetPower =
      (f.SetPower || decide ("set_power".toList ∈ ts.map (ToLower fold))) ∧
    (ts.foldl (setFeature fold) f).Toggle = (f.Toggle || decide ("toggle".toList ∈ ts.map (ToLower fold))) ∧
    (ts.foldl (setFeature fold) f).SetBright =
      (f.SetBright || decide ("set_bright".toList ∈ ts.map (ToLower fold))) ∧
    (ts.foldl (setFeature fold) f).StartCF = (f.StartCF || decide ("start_cf".toList ∈ ts.map (ToLower fold))) ∧
    (ts.foldl (setFeature fold) f).StopCF = (f.StopCF || decide ("stop_cf".toList ∈ ts.map (ToLower fold))) ∧
    (ts.foldl (setFeature fold) f).SetScene =
      (f.SetScene || decide ("set_scene".toList ∈ ts.map (ToLower fold))) ∧
    (ts.foldl (setFeature fold) f).CronAdd = (f.CronAdd || decide ("cron_add".toList ∈ ts.map (ToLower fold))) ∧
    (ts.foldl (setFeature fold) f).CronGet = (f.CronGet || decide ("cron_get".toList ∈ ts.map (ToLower fold))) ∧
    (ts.foldl (setFeature fold) f).CronDel = (f.CronDel || decide ("cron_del".toList ∈ ts.map (ToLower fold))) ∧
    (ts.foldl (setFeature fold) f).SetCtAbx =
      (f.SetCtAbx || decide ("set_ct_abx".toList ∈ ts.map (ToLower fold))) ∧
    (ts.foldl (setFeature fold) f).SetRGB = (f.SetRGB || decide ("set_rgb".toList ∈ ts.map (ToLower fold))) := by
  induction ts generalizing f with
  | nil => simp
  | cons t ts ih =>
    obtain ⟨a1, a2, a3, a4, a5, a6, a7, a8, a9, a10, a11, a12, a13⟩ := ih (setFeature fold f t)
    obtain ⟨b1, b2, b3, b4, b5, b6, b7, b8, b9, b10, b11, b12, b13⟩ := setFeature_flags fold f t
    simp only [List.foldl_cons, List.map_cons, List.mem_cons, Bool.decide_or, a1, a2, a3, a4, a5,
      a6, a7, a8, a9, a10, a11, a12, a13, b1, b2, b3, b4, b5, b6, b7, b8, b9, b10, b11, b12, b13,
      Bool.or_assoc, eq_comm (a := ToLower fold t), and_self]

/-- C7: on a device without capability flags, `setSupport` sets a flag exactly
when its token occurs, up to letter case, among the pieces of the string
between blanks, a piece being compared after `strings.ToLower`; this holds for
any case tables of the library. The other fields of the device are kept, a
token that is not recognised changes nothing, and there is no error result. -/
theorem setSupport_flags (fold : Char → Char) (y : YeeLight) (s : Str) (hy : y.Support = {}) :
    ((setSupport fold y s).Support.GetProp = true ↔
      "get_prop".toList ∈ (Split ' ' s).map (ToLower fold)) ∧
    ((setSupport fold y s).Support.SetDefault = true ↔
      "set_default".toList ∈ (Split ' ' s).map (ToLower fold)) ∧
    ((setSupport fold y s).Support.SetPower = true ↔
      "set_power".toList ∈ (Split ' ' s).map (ToLower fold)) ∧
    ((setSupport fold y s).Support.Toggle = true ↔
      "toggle".toList ∈ (Split ' ' s).map (ToLower fold)) ∧
    ((setSupport fold y s).Support.SetBright = true ↔
      "set_bright".toList ∈ (Split ' ' s).map (ToLower fold)) ∧
    ((setSupport fold y s).Support.StartCF = true ↔
      "start_cf".toList ∈ (Split ' ' s).map (ToLower fold)) ∧
    ((setSupport fold y s).Support.StopCF = true ↔
      "stop_cf".toList ∈ (Split ' ' s).map (ToLower fold)) ∧
    ((setSupport fold y s).Support.SetScene = true ↔
      "set_scene".toList ∈ (Split ' ' s).map (ToLower fold)) ∧
    ((setSupport fold y s).Support.CronAdd = true ↔
      "cron_add".toList ∈ (Split ' ' s).map (ToLower fold)) ∧
    ((setSupport fold y s).Support.CronGet = true ↔
      "cron_get".toList ∈ (Split ' ' s).map (ToLower fold)) ∧
    ((setSupport fold y s).Support.CronDel = true ↔
      "cron_del".toList ∈ (Split ' ' s).map (ToLower fold)) ∧
    ((setSupport fold y s).Support.SetCtAbx = true ↔
      "set_ct_abx".toList ∈ (Split ' ' s).map (ToLower fold)) ∧
    ((setSupport fold y s).Support.SetRGB = true ↔
      "set_rgb".toList ∈ (Split ' ' s).map (ToLower fold)) ∧
    setSupport fold y s = { y with Support := (setSupport fold y s).Support } ∧
    (∀ (f : SupportedFeatures) (t : Str), ToLower fold t ∉ supportTokens → setFeature fold f t = f) := by
  obtain ⟨a1, a2, a3, a4, a5, a6, a7, a8, a9, a10, a11, a12, a13⟩ :=
    foldl_setFeature_flags fold (Split ' ' s) y.Support
  simp only [hy, Bool.false_or] at a1 a2 a3 a4 a5 a6 a7 a8 a9 a10 a11 a12 a13
  simp only [setSupport, hy, a1, a2, a3, a4, a5, a6, a7, a8, a9, a10, a11, a12, a13,
    decide_eq_true_eq, true_and]
  intro f t ht
  simp only [supportTokens, List.mem_cons, List.mem_nil_iff, or_false, not_or] at ht
  obtain ⟨h1, h2, h3, h4, h5, h6, h7, h8, h9, h10, h11, h12, h13⟩ := ht
  simp only [setFeature, h1, h2, h3, h4, h5, h6, h7, h8, h9, h10, h11, h12, h13, if_false]

/-- C7 witness: a fresh device and a string with a token in capitals, an
empty token and an unknown token; and the token set_bright written with the
letter U+0130, which the library lowers to i. -/
theorem setSupport_flags_witness :
    (setSupport sampleFold {} "get_prop  SET_RGB get_props".toList).Support =
      { GetProp := true, SetRGB := true } ∧
    ((setSupport sampleFold {} "get_prop  SET_RGB get_props".toList).Support.SetRGB = true ↔
      "set_rgb".toList ∈
        (Split ' ' "get_prop  SET_RGB get_props".toList).map (ToLower sampleFold)) ∧
    (setSupport sampleFold {} ("set_br".toList ++ Char.ofNat 0x130 :: "ght".toList)).Support =
      { SetBright := true } :=
  ⟨by decide,
    (setSupport_flags sampleFold {} "get_prop  SET_RGB get_props".toList
      rfl).2.2.2.2.2.2.2.2.2.2.2.2.1,
    by decide⟩

theorem nextCommandN_ids (N : Nat) (y : YeeLight) :
    (nextCommandN N y).2 = (List.range N).map (fun (k : Nat) => y.idCommand + 1 + (k : Int)) := by
  induction N generalizing y with
  | zero => rfl
  | succ n ih =>
    have h := ih (nextCommand y).1
    simp only [nextCommandN, List.range_succ_eq_map, List.map_cons, List.map_map]
    rw [h]
    simp only [nextCommand, List.cons.injEq, Nat.cast_zero, add_zero, true_and]
    apply List.map_congr_left
    intro k _
    simp only [Function.comp, Nat.cast_succ]
    ring

theorem mapGet_mapSet_self {κ ν : Type} [DecidableEq κ] (m : GoMap κ ν) (k : κ) (v : ν) :
    mapGet (mapSet m k v) k = some v := by
  simp [mapSet, mapGet]

/-- C8: on a device whose counter is not negative (a fresh device, or any
state reached from one), the identifiers returned by N successive calls of
`nextCommand` are the N values that follow the counter, in call order; they
are pairwise distinct and none is 0; on a fresh device the k-th call returns
k; and after a call the returned identifier is bound, in the pending table, to
an empty open channel of capacity one. -/
theorem nextCommand_distinct (y : YeeLight) (N : Nat) (hy : 0 ≤ y.idCommand) :
    (nextCommandN N y).2 = (List.range N).map (fun (k : Nat) => y.idCommand + 1 + (k : Int)) ∧
    (nextCommandN N y).2.length = N ∧
    (nextCommandN N y).2.Nodup ∧
    (0 : Int) ∉ (nextCommandN N y).2 ∧
    (y.idCommand = 0 → (nextCommandN N y).2 = (List.range N).map (fun (k : Nat) => (k : Int) + 1)) ∧
    (nextCommand y).2 = y.idCommand + 1 ∧
    0 ≤ (nextCommand y).1.idCommand ∧
    (∃ m, (nextCommand y).1.pendingCmds = some m ∧
      mapGet m (nextCommand y).2 = some { buf := [], cap := 1, closed := false }) := by
  have hids := nextCommandN_ids N y
  refine ⟨hids, ?_, ?_, ?_, ?_, rfl, ?_, ?_⟩
  · rw [hids]; simp
  · rw [hids]
    apply List.Nodup.map _ (List.nodup_range N)
    intro a b hab
    simp only at hab
    omega
  · rw [hids]
    simp only [List.mem_map, List.mem_range, not_exists, not_and]
    intro k _
    omega
  · intro h0
    rw [hids, h0]
    apply List.map_congr_left
    intro k _
    ring
  · simp only [nextCommand]; omega
  · exact ⟨_, rfl, mapGet_mapSet_self _ _ _⟩

/-- C8 witness: three calls on a fresh device return 1, 2 and 3. -/
theorem nextCommand_distinct_witness :
    (nextCommandN 3 {}).2 = [1, 2, 3] ∧ (nextCommandN 3 {}).2.Nodup ∧
    (0 : Int) ∉ (nextCommandN 3 {}).2 :=
  ⟨(nextCommand_distinct {} 3 (by decide)).2.2.2.2.1 rfl,
    (nextCommand_distinct {} 3 (by decide)).2.2.1,
    (nextCommand_distinct {} 3 (by decide)).2.2.2.1⟩

theorem checkParams_invalid (params : List Iface) (h : ∃ p ∈ params, validParam p = false) :
    checkParams params = .error .ErrInvalidType := by
  induction params with
  | nil => simp at h
  | cons p ps ih =>
    by_cases hp : validParam p = false
    · cases p <;> simp_all [validParam, checkParams]
    · have hps : ∃ q ∈ ps, validParam q = false := by
        obtain ⟨q, hq, hv⟩ := h
        rcases List.mem_cons.mp hq with e | e
        · exact absurd (e ▸ hv) hp
        · exact ⟨q, e, hv⟩
      have := ih hps
      cases p <;> simp_all [validParam, checkParams]

theorem checkParams_valid (params : List Iface) (h : ∀ p ∈ params, validParam p = true) :
    checkParams params = .ok () := by
  induction params with
  | nil => rfl
  | cons p ps ih =>
    have hp := h p (List.mem_cons_self _ _)
    have := ih (fun q hq => h q (List.mem_cons_of_mem _ hq))
    cases p <;> simp_all [validParam, checkParams]

/-- C9: when some parameter is not an int, a valid Effect, a valid PowerValue
or a valid TurnOnValue, `newCommand` returns no command but an error with
cause `ErrInvalidType`, and the device, its counter and its pending table
included, is exactly as before the call. -/
theorem newCommand_invalid (y : YeeLight) (method : Str) (params : List Iface)
    (h : ∃ p ∈ params, validParam p = false) :
    newCommand y method params = (y, .error .ErrInvalidType) ∧
    (newCommand y method params).1.idCommand = y.idCommand ∧
    (newCommand y method params).1.pendingCmds = y.pendingCmds := by
  have hc := checkParams_invalid params h
  simp only [newCommand, hc, and_self]

/-- C9 witness: the parameter list of `Test_newCommand` that ends in a float. -/
theorem newCommand_invalid_witness :
    newCommand {} "method".toList [.Effect "smooth".toList, .int 1, .float64 0] =
      ({}, .error .ErrInvalidType) :=
  (newCommand_invalid {} "method".toList [.Effect "smooth".toList, .int 1, .float64 0]
    ⟨.float64 0, by decide, by decide⟩).1

theorem newCommand_eq (y : YeeLight) (method : Str) (params : List Iface) :
    newCommand y method params =
      if params.all validParam = true then
        ((nextCommand y).1, .ok { ID := y.idCommand + 1, Method := method, Params := params })
      else (y, .error .ErrInvalidType) := by
  by_cases h : params.all validParam = true
  · have hv : ∀ p ∈ params, validParam p = true := by simpa using h
    simp only [newCommand, checkParams_valid params hv, h, if_true, nextCommand]
  · have hv : ∃ p ∈ params, validParam p = false := by simpa using h
    rw [if_neg h]
    simp only [newCommand, checkParams_invalid params hv]

theorem newCommands_ids (calls : List (Str × List Iface)) (y : YeeLight) :
    (newCommands y calls).2.filterMap commandID =
      (List.range (calls.countP (fun c => c.2.all validParam))).map
        (fun (k : Nat) => y.idCommand + 1 + (k : Int)) := by
  induction calls generalizing y with
  | nil => rfl
  | cons c calls ih =>
    obtain ⟨method, params⟩ := c
    by_cases h : params.all validParam = true
    · have hstep := newCommand_eq y method params
      rw [if_pos h] at hstep
      have hih := ih (nextCommand y).1
      have hcount : List.countP (fun c : Str × List Iface => c.2.all validParam)
          ((method, params) :: calls) =
          List.countP (fun c : Str × List Iface => c.2.all validParam) calls + 1 := by
        simp [List.countP_cons, h]
      simp only [newCommands, hstep, List.filterMap_cons, commandID, hih,
        hcount, List.range_succ_eq_map, List.map_cons, List.map_map]
      simp only [nextCommand, List.cons.injEq, Nat.cast_zero, add_zero, true_and]
      apply List.map_congr_left
      intro k _
      simp only [Function.comp, Nat.cast_succ]
      ring
    · have hstep := newCommand_eq y method params
      rw [if_neg h] at hstep
      have hih := ih y
      have hcount : List.countP (fun c : Str × List Iface => c.2.all validParam)
          ((method, params) :: calls) =
          List.countP (fun c : Str × List Iface => c.2.all validParam) calls := by
        simp [List.countP_cons, h]
      simp only [newCommands, hstep, List.filterMap_cons, commandID, hih, hcount]

/-- C10: when every parameter is an int, a valid Effect, a valid PowerValue or
a valid TurnOnValue, `newCommand` returns the command with the method and the
parameters as given and with the identifier one above the counter; the new
state is the one `nextCommand` leaves, in which that identifier is a key of the
pending table. Hence, over any sequence of calls on a fresh device, the
identifiers of the commands that were built are 1, 2, 3 and so on, however
many rejected calls lie in between. -/
theorem newCommand_valid (y : YeeLight) (method : Str) (params : List Iface)
    (h : ∀ p ∈ params, validParam p = true) :
    (newCommand y method params).2 =
      .ok { ID := y.idCommand + 1, Method := method, Params := params } ∧
    (newCommand y method params).1 = (nextCommand y).1 ∧
    (newCommand y method params).1.idCommand = y.idCommand + 1 ∧
    (∃ m ch, (newCommand y method params).1.pendingCmds = some m ∧
      mapGet m (y.idCommand + 1) = some ch) ∧
    (∀ calls : List (Str × List Iface),
      (newCommands {} calls).2.filterMap commandID =
        (List.range (calls.countP (fun c => c.2.all validParam))).map
          (fun (k : Nat) => (k : Int) + 1)) := by
  have hall : params.all validParam = true := by simpa using h
  have hstep := newCommand_eq y method params
  rw [if_pos hall] at hstep
  refine ⟨by rw [hstep], by rw [hstep], by rw [hstep]; rfl, ?_, ?_⟩
  · rw [hstep]
    exact ⟨_, _, rfl, mapGet_mapSet_self _ _ _⟩
  · intro calls
    rw [newCommands_ids calls {}]
    apply List.map_congr_left
    intro k _
    show (0 : Int) + 1 + (k : Int) = (k : Int) + 1
    ring

/-- C10 witness: the four calls of `Test_newCommand` on one fresh device; the
two that are accepted get the identifiers 1 and 2. -/
theorem newCommand_valid_witness :
    (newCommand {} "method".toList [.Effect "smooth".toList, .int 1]).2 =
      .ok { ID := 1, Method := "method".toList, Params := [.Effect "smooth".toList, .int 1] } ∧
    (newCommands {}
      [ ("method".toList, [.Effect "smooth".toList, .int 1]),
        ("method".toList, [.Effect "smooth".toList, .int 1, .float64 0]),
        ("method".toList, [.Effect "smoother".toList, .int 1]),
        ("method".toList, [.Effect "smooth".toList, .int 1]) ]).2.filterMap commandID = [1, 2] :=
  ⟨(newCommand_valid {} "method".toList [.Effect "smooth".toList, .int 1] (by decide)).1,
    (newCommand_valid {} "method".toList [.Effect "smooth".toList, .int 1] (by decide)).2.2.2.2 _⟩

theorem marshalString_safe (enc : Encoder) (s : Str) (h : ∀ c ∈ s, jsonSafe c = true) :
    marshalString enc s = '"' :: s ++ ['"'] := by
  have : s.flatMap (fun c => if jsonSafe c then [c] else enc.escape c) = s := by
    induction s with
    | nil => rfl
    | cons c cs ih =>
      have hc := h c (List.mem_cons_self _ _)
      have hcs := ih (fun d hd => h d (List.mem_cons_of_mem _ hd))
      simp only [List.flatMap_cons, hc, if_true, hcs, List.singleton_append]
  simp only [marshalString, this]

theorem marshalIface_valid (enc : Encoder) (p : Iface) (h : validParam p = true) :
    marshalIface enc p = some (paramJSON p) := by
  cases p with
  | int n => rfl
  | TurnOnValue t => rfl
  | Effect e =>
    have he : e = "sudden".toList ∨ e = "smooth".toList := by
      simpa [validParam, Effect.isValid] using h
    rcases he with he | he <;> subst he <;>
      simp only [marshalIface, paramJSON] <;> rw [marshalString_safe enc _ (by decide)]
  | PowerValue q =>
    have he : q = "on".toList ∨ q = "off".toList := by
      simpa [validParam, PowerValue.isValid] using h
    rcases he with he | he <;> subst he <;>
      simp only [marshalIface, paramJSON] <;> rw [marshalString_safe enc _ (by decide)]
  | string s => simp [validParam] at h
  | float64 b => simp [validParam] at h
  | bool b => simp [validParam] at h
  | nil => simp [validParam] at h
  | other t r => simp [validParam] at h

theorem marshalParams_valid (enc : Encoder) (params : List Iface)
    (h : ∀ p ∈ params, validParam p = true) :
    marshalParams enc params = some (params.map paramJSON) := by
  induction params with
  | nil => rfl
  | cons p ps ih =>
    have hp := marshalIface_valid enc p (h p (List.mem_cons_self _ _))
    have hps := ih (fun q hq => h q (List.mem_cons_of_mem _ hq))
    simp only [marshalParams, hp, hps, List.map_cons]

/-- C11: for a command with validated parameters `json.Marshal` does not fail,
and `json` returns the object of the members id, method and params, in that
order, followed by CR LF: the id in decimal digits, the method as a JSON
string, the parameters as an array of numbers and quoted words. The two
commands of the examples are encoded to the two texts given, whatever the
library does elsewhere. -/
theorem command_json_valid (enc : Encoder) (cmd : command)
    (h : ∀ p ∈ cmd.Params, validParam p = true) :
    (∃ j, Marshal enc cmd = some j) ∧
    command.json enc cmd =
      "\x7b\"id\":".toList ++ Itoa cmd.ID ++ ",\"method\":".toList ++
        marshalString enc cmd.Method ++ ",\"params\":[".toList ++
        joinComma (cmd.Params.map paramJSON) ++ "]\x7d".toList ++ "\r\n".toList ∧
    ((∀ c ∈ cmd.Method, jsonSafe c = true) →
      marshalString enc cmd.Method = '"' :: cmd.Method ++ ['"']) ∧
    (∀ e : Encoder, command.json e (command.mk 7 "toggle".toList []) =
      "\x7b\"id\":7,\"method\":\"toggle\",\"params\":[]\x7d\r\n".toList) ∧
    (∀ e : Encoder,
      command.json e (command.mk 0 "set_power".toList
          [.string "on".toList, .string "smooth".toList, .int 500]) =
        "\x7b\"id\":0,\"method\":\"set_power\",\"params\":[\"on\",\"smooth\",500]\x7d\r\n".toList) := by
  have hp := marshalParams_valid enc cmd.Params h
  have hM : Marshal enc cmd = some ("\x7b\"id\":".toList ++ Itoa cmd.ID ++ ",\"method\":".toList ++
      marshalString enc cmd.Method ++ ",\"params\":[".toList ++
      joinComma (cmd.Params.map paramJSON) ++ "]\x7d".toList) := by
    simp only [Marshal, hp]
  refine ⟨⟨_, hM⟩, ?_, marshalString_safe enc cmd.Method, ?_, ?_⟩
  · simp only [command.json, hM]
    rfl
  · intro e
    simp only [command.json, Marshal, marshalParams, marshalString_safe e "toggle".toList (by decide)]
    decide
  · intro e
    simp only [command.json, Marshal, marshalParams, marshalIface,
      marshalString_safe e "set_power".toList (by decide),
      marshalString_safe e "on".toList (by decide),
      marshalString_safe e "smooth".toList (by decide)]
    decide

/-- C11 witness: the frame of a set_bright command with the identifier 12. -/
theorem command_json_valid_witness :
    command.json plainEncoder (command.mk 12 "set_bright".toList
        [.int 50, .Effect "smooth".toList, .int 500]) =
      "\x7b\"id\":12,\"method\":\"set_bright\",\"params\":[50,\"smooth\",500]\x7d\r\n".toList :=
  ((command_json_valid plainEncoder (command.mk 12 "set_bright".toList
      [.int 50, .Effect "smooth".toList, .int 500]) (by decide)).2.1).trans
    (by decide)

theorem mapDelete_cons_eq {κ ν : Type} [DecidableEq κ] (m : GoMap κ ν) (k : κ) (v : ν) :
    mapDelete ((k, v) :: m) k = mapDelete m k := by
  unfold mapDelete
  rw [List.filter_cons_of_neg]
  simp

theorem mapDelete_cons_ne {κ ν : Type} [DecidableEq κ] (m : GoMap κ ν) (k k' : κ) (v : ν)
    (h : k' ≠ k) : mapDelete ((k', v) :: m) k = (k', v) :: mapDelete m k := by
  unfold mapDelete
  rw [List.filter_cons_of_pos]
  simpa using h

theorem mapGet_cons_eq {κ ν : Type} [DecidableEq κ] (m : GoMap κ ν) (k : κ) (v : ν) :
    mapGet ((k, v) :: m) k = some v := by
  simp [mapGet]

theorem mapGet_cons_ne {κ ν : Type} [DecidableEq κ] (m : GoMap κ ν) (k k' : κ) (v : ν)
    (h : k' ≠ k) : mapGet ((k', v) :: m) k = mapGet m k := by
  simp [mapGet, h]

theorem mapGet_mapDelete_self {κ ν : Type} [DecidableEq κ] (m : GoMap κ ν) (k : κ) :
    mapGet (mapDelete m k) k = none := by
  induction m with
  | nil => rfl
  | cons e m ih =>
    obtain ⟨k', v⟩ := e
    by_cases h : k' = k
    · subst h
      rw [mapDelete_cons_eq]; exact ih
    · rw [mapDelete_cons_ne m k k' v h, mapGet_cons_ne _ k k' v h]; exact ih

theorem mapGet_mapDelete_ne {κ ν : Type} [DecidableEq κ] (m : GoMap κ ν) (k j : κ) (hj : j ≠ k) :
    mapGet (mapDelete m k) j = mapGet m j := by
  induction m with
  | nil => rfl
  | cons e m ih =>
    obtain ⟨k', v⟩ := e
    by_cases h : k' = k
    · subst h
      rw [mapDelete_cons_eq, mapGet_cons_ne m j k' v (fun e => hj e.symm)]; exact ih
    · rw [mapDelete_cons_ne m k k' v h]
      by_cases h2 : k' = j
      · subst h2
        rw [mapGet_cons_eq, mapGet_cons_eq]
      · rw [mapGet_cons_ne _ j k' v h2, mapGet_cons_ne _ j k' v h2]; exact ih

theorem mapDelete_of_absent {κ ν : Type} [DecidableEq κ] (m : GoMap κ ν) (k : κ)
    (h : mapGet m k = none) : mapDelete m k = m := by
  induction m with
  | nil => rfl
  | cons e m ih =>
    obtain ⟨k', v⟩ := e
    by_cases hk : k' = k
    · subst hk
      rw [mapGet_cons_eq] at h; cases h
    · rw [mapGet_cons_ne m k k' v hk] at h
      rw [mapDelete_cons_ne m k k' v hk, ih h]

/-- C12: releasing an identifier that is in the pending table with an answer
puts exactly that answer into its channel, closes the channel, removes the
identifier from the table, keeps every other entry and reports no error. The
channel is open and has room, as the one-slot channel of every pending
identifier has. -/
theorem releaseAnswerChan_pending (y : YeeLight) (id : Int) (a : Answer) (c : Chan)
    (hc : mapGet (pending y) id = some c) (hopen : c.closed = false)
    (hroom : c.buf.length < c.cap) :
    releaseAnswerChan y id (some a) =
      some ({ y with pendingCmds := some (mapDelete (pending y) id) },
        some { c with buf := c.buf ++ [a], closed := true }) ∧
    mapGet (mapDelete (pending y) id) id = none ∧
    (∀ k, k ≠ id → mapGet (mapDelete (pending y) id) k = mapGet (pending y) k) ∧
    (c = Chan.make1 →
      releaseAnswerChan y id (some a) =
        some ({ y with pendingCmds := some (mapDelete (pending y) id) },
          some { buf := [a], cap := 1, closed := true })) := by
  have hmain : releaseAnswerChan y id (some a) =
      some ({ y with pendingCmds := some (mapDelete (pending y) id) },
        some { c with buf := c.buf ++ [a], closed := true }) := by
    simp only [releaseAnswerChan, hc, Chan.send, hopen, hroom, if_true, Chan.close,
      Bool.false_eq_true, if_false]
  refine ⟨hmain, mapGet_mapDelete_self _ _, fun k hk => mapGet_mapDelete_ne _ _ _ hk, ?_⟩
  intro hfresh
  rw [hmain, hfresh]
  rfl

/-- C12 witness: the answer with the result ok for the pending identifier 7. -/
theorem releaseAnswerChan_pending_witness :
    releaseAnswerChan devicePending7 7 (some answerOk7) =
      some ({ idCommand := 7, pendingCmds := some [] },
        some { buf := [{ ID := 7, Result := [.string "ok".toList] }], cap := 1, closed := true }) :=
  (releaseAnswerChan_pending devicePending7 7 answerOk7 Chan.make1 (by decide) (by decide)
    (by decide)).1

/-- C13: releasing an identifier that is not in the pending table sends
`ErrUnknownCommand` on the error stream and does nothing else: no channel
receives anything and the table is as before. Hence, once a release of an
identifier has found it, the next release of the same identifier does not
find it and delivers nothing. -/
theorem releaseAnswerChan_unknown (y : YeeLight) (id : Int) (a : Option Answer)
    (h : mapGet (pending y) id = none) :
    releaseAnswerChan y id a = some ({ y with errs := y.errs ++ [.ErrUnknownCommand] }, none) ∧
    (∀ (y0 y1 : YeeLight) (b b' : Option Answer) (c1 : Chan),
      releaseAnswerChan y0 id b = some (y1, some c1) →
      releaseAnswerChan y1 id b' =
        some ({ y1 with errs := y1.errs ++ [.ErrUnknownCommand] }, none)) := by
  have key : ∀ (z : YeeLight) (b : Option Answer), mapGet (pending z) id = none →
      releaseAnswerChan z id b = some ({ z with errs := z.errs ++ [.ErrUnknownCommand] }, none) := by
    intro z b hz
    simp only [releaseAnswerChan, hz]
  refine ⟨key y a h, ?_⟩
  intro y0 y1 b b' c1 hrel
  apply key
  unfold releaseAnswerChan at hrel
  simp only at hrel
  split at hrel
  · cases hrel
  · split at hrel
    · cases hrel
    · split at hrel
      · cases hrel
      · simp only [Option.some.injEq, Prod.mk.injEq] at hrel
        rw [← hrel.1]
        exact mapGet_mapDelete_self _ _

/-- C13 witness: the identifier 7 is released twice; the second release only
reports the error. -/
theorem releaseAnswerChan_unknown_witness :
    releaseAnswerChan { idCommand := 7, pendingCmds := some [] } 7 (some answerOk7) =
      some ({ idCommand := 7, pendingCmds := some [], errs := [.ErrUnknownCommand] }, none) :=
  (releaseAnswerChan_unknown { idCommand := 7, pendingCmds := some [] } 7 (some answerOk7)
    (by decide)).1

theorem pending_nextCommand (y : YeeLight) :
    pending (nextCommand y).1 = mapSet (pending y) (y.idCommand + 1) Chan.make1 := by
  unfold pending nextCommand
  cases y.pendingCmds <;> rfl

theorem mapDelete_mapSet_fresh {κ ν : Type} [DecidableEq κ] (m : GoMap κ ν) (k : κ) (v : ν)
    (h : mapGet m k = none) : mapDelete (mapSet m k v) k = m := by
  unfold mapSet
  rw [mapDelete_cons_eq, mapDelete_of_absent m k h, mapDelete_of_absent m k h]

theorem sendCommand_nil_socket (enc : Encoder) (y : YeeLight) (method : Str)
    (params : List Iface) (arrived : Option Answer) (hsock : y.tcpSocket = none)
    (hfresh : mapGet (pending y) (y.idCommand + 1) = none) :
    sendCommand enc (nextCommand y).1
        { ID := y.idCommand + 1, Method := method, Params := params } arrived =
      some ({ y with idCommand := y.idCommand + 1, pendingCmds := some (pending y) },
        .error .ErrConnNotInitialized) := by
  have hs : (nextCommand y).1.tcpSocket = none := hsock
  have hp := pending_nextCommand y
  have hget : mapGet (pending (nextCommand y).1) (y.idCommand + 1) = some Chan.make1 := by
    rw [hp]; exact mapGet_mapSet_self _ _ _
  have hdel : mapDelete (pending (nextCommand y).1) (y.idCommand + 1) = pending y := by
    rw [hp]; exact mapDelete_mapSet_fresh _ _ _ hfresh
  simp only [sendCommand, hs, releaseAnswerChan, hget, Chan.close, Chan.make1, hdel,
    Bool.false_eq_true, if_false, hsock]
  rfl

/-- C14: on a device without a connection, building a command from valid
parameters and sending it returns no answer but an error with cause
`ErrConnNotInitialized`; there is still no connection, so nothing was written;
the content of the pending table and the error stream are as before the
command was built, and only the counter has moved on. The next identifier is
not yet a key of the table, as in every state reached from a fresh device. -/
theorem sendCommand_not_connected (enc : Encoder) (y : YeeLight) (method : Str)
    (params : List Iface) (arrived : Option Answer) (hsock : y.tcpSocket = none)
    (hvalid : ∀ p ∈ params, validParam p = true)
    (hfresh : mapGet (pending y) (y.idCommand + 1) = none) :
    (∃ y1 cmd, newCommand y method params = (y1, .ok cmd) ∧
      sendCommand enc y1 cmd arrived =
        some ({ y with idCommand := y.idCommand + 1, pendingCmds := some (pending y) },
          .error .ErrConnNotInitialized)) ∧
    buildAndSend enc y method params arrived =
      some ({ y with idCommand := y.idCommand + 1, pendingCmds := some (pending y) },
        .error .ErrConnNotInitialized) ∧
    Toggle enc y arrived =
      some ({ y with idCommand := y.idCommand + 1, pendingCmds := some (pending y) },
        .error .ErrConnNotInitialized) ∧
    pending { y with idCommand := y.idCommand + 1, pendingCmds := some (pending y) } =
      pending y := by
  have hall : params.all validParam = true := by simpa using hvalid
  have hnew := newCommand_eq y method params
  rw [if_pos hall] at hnew
  have hsend := sendCommand_nil_socket enc y method params arrived hsock hfresh
  have hnewT := newCommand_eq y "toggle".toList []
  rw [if_pos (by rfl)] at hnewT
  have hsendT := sendCommand_nil_socket enc y "toggle".toList [] arrived hsock hfresh
  refine ⟨⟨_, _, hnew, hsend⟩, ?_, ?_, rfl⟩
  · simp only [buildAndSend, hnew, hsend]
  · simp only [Toggle, buildAndSend, hnewT, hsendT]

/-- C14 witness: Toggle on a fresh device. -/
theorem sendCommand_not_connected_witness :
    Toggle plainEncoder {} none =
      some ({ idCommand := 1, pendingCmds := some [] }, .error .ErrConnNotInitialized) :=
  (sendCommand_not_connected plainEncoder {} "toggle".toList [] none rfl (by decide)
    (by decide)).2.2.1

/-- C15: when a command is pending on an open channel, the connection exists
and the timeout fires before an answer is received, `sendCommand` writes the
frame, returns no answer but an error with cause `ErrTimedOut`, and leaves
the identifier of the command out of the pending table. -/
theorem sendCommand_timeout (enc : Encoder) (y : YeeLight) (cmd : command) (conn : Conn)
    (c : Chan) (hsock : y.tcpSocket = some conn) (hc : mapGet (pending y) cmd.ID = some c)
    (hopen : c.closed = false) :
    sendCommand enc y cmd none =
      some ({ y with tcpSocket := some (conn.Write (command.json enc cmd)),
                     pendingCmds := some (mapDelete (pending y) cmd.ID) },
        .error .ErrTimedOut) ∧
    mapGet (mapDelete (pending y) cmd.ID) cmd.ID = none ∧
    (∀ k, k ≠ cmd.ID → mapGet (mapDelete (pending y) cmd.ID) k = mapGet (pending y) k) := by
  refine ⟨?_, mapGet_mapDelete_self _ _, fun k hk => mapGet_mapDelete_ne _ _ _ hk⟩
  have hp : pending { y with tcpSocket := some (conn.Write (command.json enc cmd)) } =
      pending y := rfl
  simp only [sendCommand, hsock, hc, releaseAnswerChan, hp, Chan.close, hopen,
    Bool.false_eq_true, if_false]

/-- C15 witness: the command 1 is pending on an open connection and no answer
arrives. -/
theorem sendCommand_timeout_witness :
    sendCommand plainEncoder deviceOpen1 (command.mk 1 "toggle".toList []) none =
      some ({ tcpSocket := some
                { written := "\x7b\"id\":1,\"method\":\"toggle\",\"params\":[]\x7d\r\n".toList },
              idCommand := 1, pendingCmds := some [] },
        .error .ErrTimedOut) :=
  (sendCommand_timeout plainEncoder deviceOpen1 (command.mk 1 "toggle".toList []) {}
    Chan.make1 rfl (by decide) rfl).1.trans (by decide)

/-- C16: `SetBright` with a brightness outside 1..100 and `SetCTAbs` with a
colour temperature outside 1700..6500 return an error with cause
`ErrInvalidRange` and leave the device exactly as it was, whatever the effect,
the duration and the state of the connection are: no identifier is allocated,
the pending table is unchanged and nothing is written. -/
theorem range_rejected (enc : Encoder) (y : YeeLight) (effect : Str) (duration : Int)
    (arrived : Option Answer) (v : Int) :
    ((v < 1 ∨ v > 100) →
      SetBright enc y v effect duration arrived = some (y, .error .ErrInvalidRange)) ∧
    ((v < 1700 ∨ v > 6500) →
      SetCTAbs enc y v effect duration arrived = some (y, .error .ErrInvalidRange)) := by
  constructor
  · intro h
    simp only [SetBright, h, if_true]
  · intro h
    simp only [SetCTAbs, h, if_true]

/-- C16 witness: brightness 0 and colour temperature 6501 on a device with
an open connection and a pending command. -/
theorem range_rejected_witness :
    SetBright plainEncoder deviceOpen1 0 "smooth".toList 500 none =
      some (deviceOpen1, .error .ErrInvalidRange) ∧
    SetCTAbs plainEncoder deviceOpen1 6501 "smooth".toList 500 none =
      some (deviceOpen1, .error .ErrInvalidRange) :=
  ⟨(range_rejected plainEncoder deviceOpen1 "smooth".toList 500 none 0).1 (by decide),
    (range_rejected plainEncoder deviceOpen1 "smooth".toList 500 none 6501).2 (by decide)⟩

/-- C18 (the code at the failing input): `SetHSV` checks the duration only and
hands any hue and saturation on to the command; `setHue` and `setSaturation`
reject the hue 400 and the saturation 200, but `SetHSV` with these values
builds the command 1, writes its frame on the open connection and returns the
answer that arrives. -/
theorem SetHSV_unchecked :
    (∀ (enc : Encoder) (y : YeeLight) (hue sat : Int) (effect : Str) (d : Int)
        (arrived : Option Answer), d ≥ 30 →
      SetHSV enc y hue sat effect d arrived =
        buildAndSend enc y "set_hsv".toList [.int hue, .int sat, .Effect effect, .int d]
          arrived) ∧
    setHue {} "400".toList = .error .ErrInvalidRange ∧
    setSaturation {} "200".toList = .error .ErrInvalidRange ∧
    SetHSV plainEncoder deviceOpen 400 200 "smooth".toList 30 (some answerOk1) =
      some ({ tcpSocket := some
                { written :=
                    "\x7b\"id\":1,\"method\":\"set_hsv\",\"params\":[400,200,\"smooth\",30]\x7d\r\n".toList },
              idCommand := 1, pendingCmds := some [(1, Chan.make1)] },
        .ok answerOk1) := by
  refine ⟨?_, by decide, by decide, by decide⟩
  intro enc y hue sat effect d arrived hd
  have : isValidDuration d = true := by simp [isValidDuration, hd]
  simp [SetHSV, this]

theorem updateProperty_power (y : YeeLight) (s : Str) :
    updateProperty y ⟨"power".toList, s⟩ = afterSetter y (setPower y s) := by
  simp only [updateProperty, if_true, if_false]

theorem updateProperty_bright (y : YeeLight) (s : Str) :
    updateProperty y ⟨"bright".toList, s⟩ = afterSetter y (setBright y s) := by
  simp only [updateProperty, if_true, if_false]
  rw [if_neg (by decide)]

theorem updateProperty_color_mode (y : YeeLight) (s : Str) :
    updateProperty y ⟨"color_mode".toList, s⟩ = afterSetter y (setColorMode y s) := by
  simp only [updateProperty, if_true, if_false]
  rw [if_neg (by decide), if_neg (by decide)]

theorem updateProperty_ct (y : YeeLight) (s : Str) :
    updateProperty y ⟨"ct".toList, s⟩ = afterSetter y (setColorTemperature y s) := by
  simp only [updateProperty, if_true, if_false]
  rw [if_neg (by decide), if_neg (by decide), if_neg (by decide)]

theorem updateProperty_rgb (y : YeeLight) (s : Str) :
    updateProperty y ⟨"rgb".toList, s⟩ = afterSetter y (setRGB y s) := by
  simp only [updateProperty, if_true, if_false]
  rw [if_neg (by decide), if_neg (by decide), if_neg (by decide), if_neg (by decide)]

theorem updateProperty_hue (y : YeeLight) (s : Str) :
    updateProperty y ⟨"hue".toList, s⟩ = afterSetter y (setHue y s) := by
  simp only [updateProperty, if_true, if_false]
  rw [if_neg (by decide), if_neg (by decide), if_neg (by decide), if_neg (by decide), if_neg (by decide)]

theorem updateProperty_sat (y : YeeLight) (s : Str) :
    updateProperty y ⟨"sat".toList, s⟩ = afterSetter y (setSaturation y s) := by
  simp only [updateProperty, if_true, if_false]
  rw [if_neg (by decide), if_neg (by decide), if_neg (by decide), if_neg (by decide), if_neg (by decide), if_neg (by decide)]

theorem updateProperty_name (y : YeeLight) (s : Str) :
    updateProperty y ⟨"name".toList, s⟩ = setName y s := by
  simp only [updateProperty, if_true, if_false]
  rw [if_neg (by decide), if_neg (by decide), if_neg (by decide), if_neg (by decide), if_neg (by decide), if_neg (by decide), if_neg (by decide)]

/-- C19: for a notification whose property is one of the eight known names
and whose value the setter accepts, `updateProperty` returns the device with
that one field set to the parsed value, every other field as before: the text
itself for power and name, the integer for bright, color_mode, ct, hue and
sat, and the colour `NewRGB` makes of the integer for rgb. -/
theorem updateProperty_accepted (y : YeeLight) (s : Str) :
    ((s = On ∨ s = Off) → updateProperty y ⟨"power".toList, s⟩ = { y with Power := s }) ∧
    (∀ v, Atoi s = some v → 1 ≤ v → v ≤ 100 →
      updateProperty y ⟨"bright".toList, s⟩ = { y with Brightness := v }) ∧
    (∀ v, Atoi s = some v → 1 ≤ v → v ≤ 3 →
      updateProperty y ⟨"color_mode".toList, s⟩ = { y with ColorMode := v }) ∧
    (∀ v, Atoi s = some v → 1700 ≤ v → v ≤ 6500 →
      updateProperty y ⟨"ct".toList, s⟩ = { y with ColorTemperature := v }) ∧
    (∀ v c, Atoi s = some v → NewRGB v = .ok c →
      updateProperty y ⟨"rgb".toList, s⟩ = { y with RGB := c }) ∧
    (∀ v, Atoi s = some v → 0 ≤ v → v ≤ 359 →
      updateProperty y ⟨"hue".toList, s⟩ = { y with Hue := v }) ∧
    (∀ v, Atoi s = some v → 0 ≤ v → v ≤ 100 →
      updateProperty y ⟨"sat".toList, s⟩ = { y with Saturation := v }) ∧
    updateProperty y ⟨"name".toList, s⟩ = { y with Name := s } := by
  refine ⟨?_, ?_, ?_, ?_, ?_, ?_, ?_, ?_⟩
  · intro h
    have hn : ¬ (s ≠ On ∧ s ≠ Off) := by
      rcases h with h | h <;> simp [h]
    simp only [updateProperty_power, afterSetter, setPower, hn, if_false]
  · intro v hv h1 h2
    have hn : ¬ (v < 1 ∨ v > 100) := by omega
    simp only [updateProperty_bright, afterSetter, setBright, hv, hn, if_false]
  · intro v hv h1 h2
    have hn : ¬ (v < 1 ∨ v > 3) := by omega
    simp only [updateProperty_color_mode, afterSetter, setColorMode, hv, hn, if_false]
  · intro v hv h1 h2
    have hn : ¬ (v < 1700 ∨ v > 6500) := by omega
    simp only [updateProperty_ct, afterSetter, setColorTemperature, hv, hn, if_false]
  · intro v c hv hc
    simp only [updateProperty_rgb, afterSetter, setRGB, hv, hc]
  · intro v hv h1 h2
    have hn : ¬ (v < 0 ∨ v > 359) := by omega
    simp only [updateProperty_hue, afterSetter, setHue, hv, hn, if_false]
  · intro v hv h1 h2
    have hn : ¬ (v < 0 ∨ v > 100) := by omega
    simp only [updateProperty_sat, afterSetter, setSaturation, hv, hn, if_false]
  · simp only [updateProperty_name, setName]

/-- C19 witness: the notifications of the test of `updateProperty` for bright
and rgb, applied to a fresh device. -/
theorem updateProperty_accepted_witness :
    updateProperty {} ⟨"bright".toList, "90".toList⟩ = { Brightness := 90 } ∧
    updateProperty {} ⟨"rgb".toList, "16711680".toList⟩ =
      { RGB := { red := 255, green := 0, blue := 0 } } :=
  ⟨(updateProperty_accepted {} "90".toList).2.1 90 (by decide) (by decide) (by decide),
    (updateProperty_accepted {} "16711680".toList).2.2.2.2.1 16711680
      { red := 255, green := 0, blue := 0 } (by decide) (by decide)⟩

/-- C20: a notification whose value the setter of its property rejects (a
power that is neither on nor off; a bright, color_mode, ct, rgb, hue or sat
that is not a decimal integer or lies outside its range) and a notification
whose property is none of the eight known names leave the device exactly as
it was. -/
theorem updateProperty_rejected (y : YeeLight) (s : Str) :
    ((s ≠ On ∧ s ≠ Off) → updateProperty y ⟨"power".toList, s⟩ = y) ∧
    ((∀ v, Atoi s = some v → v < 1 ∨ v > 100) →
      updateProperty y ⟨"bright".toList, s⟩ = y) ∧
    ((∀ v, Atoi s = some v → v < 1 ∨ v > 3) →
      updateProperty y ⟨"color_mode".toList, s⟩ = y) ∧
    ((∀ v, Atoi s = some v → v < 1700 ∨ v > 6500) →
      updateProperty y ⟨"ct".toList, s⟩ = y) ∧
    ((∀ v, Atoi s = some v → v < 0 ∨ v > 0xFFFFFF) →
      updateProperty y ⟨"rgb".toList, s⟩ = y) ∧
    ((∀ v, Atoi s = some v → v < 0 ∨ v > 359) →
      updateProperty y ⟨"hue".toList, s⟩ = y) ∧
    ((∀ v, Atoi s = some v → v < 0 ∨ v > 100) →
      updateProperty y ⟨"sat".toList, s⟩ = y) ∧
    (∀ p, p ∉ propertyNames → updateProperty y ⟨p, s⟩ = y) := by
  have hchk : ∀ lo hi : Int, (∀ v, Atoi s = some v → v < lo ∨ v > hi) →
      ∃ e, checkInt lo hi s = some e := by
    intro lo hi h
    unfold checkInt
    cases hv : Atoi s with
    | none => exact ⟨_, rfl⟩
    | some v => exact ⟨.ErrInvalidRange, by simp [h v hv]⟩
  refine ⟨?_, ?_, ?_, ?_, ?_, ?_, ?_, ?_⟩
  · intro h
    rw [updateProperty_power, setPower, if_pos h]
    rfl
  · intro h
    obtain ⟨e, he⟩ := hchk 1 100 h
    simp only [updateProperty_bright, afterSetter, setBright_eq, he]
  · intro h
    obtain ⟨e, he⟩ := hchk 1 3 h
    simp only [updateProperty_color_mode, afterSetter, setColorMode_eq, he]
  · intro h
    obtain ⟨e, he⟩ := hchk 1700 6500 h
    simp only [updateProperty_ct, afterSetter, setColorTemperature_eq, he]
  · intro h
    obtain ⟨e, he⟩ := hchk 0 0xffffff h
    simp only [updateProperty_rgb, afterSetter, setRGB_eq, he]
  · intro h
    obtain ⟨e, he⟩ := hchk 0 359 h
    simp only [updateProperty_hue, afterSetter, setHue_eq, he]
  · intro h
    obtain ⟨e, he⟩ := hchk 0 100 h
    simp only [updateProperty_sat, afterSetter, setSaturation_eq, he]
  · intro p hp
    simp only [propertyNames, List.mem_cons, List.mem_nil_iff, or_false, not_or] at hp
    obtain ⟨h1, h2, h3, h4, h5, h6, h7, h8⟩ := hp
    simp only [updateProperty, h1, h2, h3, h4, h5, h6, h7, h8, if_false]

/-- C20 witness: a brightness of 0, a hue that is not a number and an unknown
property, each applied to a device whose brightness is 50. -/
theorem updateProperty_rejected_witness :
    updateProperty { Brightness := 50 } ⟨"bright".toList, "0".toList⟩ = { Brightness := 50 } ∧
    updateProperty { Brightness := 50 } ⟨"flowing".toList, "1".toList⟩ = { Brightness := 50 } :=
  ⟨(updateProperty_rejected { Brightness := 50 } "0".toList).2.1
      (fun v hv => by
        have : v = 0 := by
          have h0 : Atoi "0".toList = some 0 := by decide
          rw [h0] at hv
          exact (Option.some.inj hv).symm
        omega),
    (updateProperty_rejected { Brightness := 50 } "1".toList).2.2.2.2.2.2.2 "flowing".toList
      (by decide)⟩

theorem ReadBytes_of_not_mem (delim : Char) (buf : Str) (h : delim ∉ buf) :
    ReadBytes delim buf = (buf, [], false) := by
  induction buf with
  | nil => rfl
  | cons c cs ih =>
    have hc : c ≠ delim := fun e => h (by simp [e])
    have hcs : delim ∉ cs := fun e => h (List.mem_cons_of_mem _ e)
    simp only [ReadBytes, hc, if_false, ih hcs]

/-- C30: a message without a newline, the empty message included, is rejected
with the error `io.EOF`, and no device is returned. -/
theorem newFromAdvertisement_no_newline (fold : Char → Char) (msg : Str) (h : '\n' ∉ msg) :
    newFromAdvertisement fold msg = .error .EOF := by
  simp only [newFromAdvertisement, ReadBytes_of_not_mem '\n' msg h]

/-- C30 witness: the empty message and a start line without its newline. -/
theorem newFromAdvertisement_no_newline_witness :
    newFromAdvertisement sampleFold [] = .error .EOF ∧
    newFromAdvertisement sampleFold "HTTP/1.1 200 OK\r".toList = .error .EOF :=
  ⟨newFromAdvertisement_no_newline sampleFold [] (by decide),
    newFromAdvertisement_no_newline sampleFold "HTTP/1.1 200 OK\r".toList (by decide)⟩

theorem land_255 (n : Nat) : n &&& 0xFF = n % 256 := by
  have h := Nat.and_pow_two_sub_one_eq_mod n 8
  norm_num at h
  exact h

/-- C27: `NewRGB` fails exactly for an integer below 0 or above 0xFFFFFF, and
then with the cause `ErrInvalidRange`; for any other integer it returns the
colour whose red, green and blue are the bits 16 to 23, 8 to 15 and 0 to 7 of
the integer. -/
theorem NewRGB_spec (v : Int) :
    ((∃ e, NewRGB v = .error e) ↔ (v < 0 ∨ v > 0xFFFFFF)) ∧
    ((v < 0 ∨ v > 0xFFFFFF) → NewRGB v = .error .ErrInvalidRange) ∧
    (0 ≤ v → v ≤ 0xFFFFFF →
      NewRGB v = .ok { red := (v.toNat >>> 16) &&& 0xFF
                       green := (v.toNat >>> 8) &&& 0xFF
                       blue := v.toNat &&& 0xFF }) ∧
    NewRGB 0x112233 = .ok { red := 0x11, green := 0x22, blue := 0x33 } := by
  have hout : (v < 0 ∨ v > 0xFFFFFF) → NewRGB v = .error .ErrInvalidRange := by
    intro h
    simp only [NewRGB, h, if_true]
  have hin : 0 ≤ v → v ≤ 0xFFFFFF →
      NewRGB v = .ok { red := (v.toNat >>> 16) &&& 0xFF
                       green := (v.toNat >>> 8) &&& 0xFF
                       blue := v.toNat &&& 0xFF } := by
    intro h0 h1
    rw [NewRGB_ok v h0 h1, land_255, land_255, land_255, Nat.shiftRight_eq_div_pow,
      Nat.shiftRight_eq_div_pow]
  refine ⟨⟨?_, fun h => ⟨_, hout h⟩⟩, hout, hin, by decide⟩
  rintro ⟨e, he⟩
  by_contra hn
  have h0 : 0 ≤ v := by omega
  have h1 : v ≤ 0xFFFFFF := by omega
  rw [hin h0 h1] at he
  cases he

/-- C28: `Get` returns red times 65536 plus green times 256 plus blue; for
three bytes this lies between 0 and 0xFFFFFF; and the number `SendRGB` puts
first among the parameters of its command is such a value. -/
theorem RGBValue_Get_spec (c : RGBValue) (hr : c.red < 256) (hg : c.green < 256)
    (hb : c.blue < 256) :
    c.Get = (c.red : Int) * 65536 + (c.green : Int) * 256 + (c.blue : Int) ∧
    (0 ≤ c.Get ∧ c.Get ≤ 0xFFFFFF) ∧
    RGBValue.Get { red := 255, green := 0, blue := 0 } = 16711680 ∧
    RGBValue.Get { red := 0, green := 255, blue := 0 } = 65280 ∧
    RGBValue.Get { red := 0, green := 0, blue := 255 } = 255 ∧
    (∀ (enc : Encoder) (y : YeeLight) (r g b : Nat) (effect : Str) (d : Int)
        (arrived : Option Answer), d ≥ 30 →
      ∃ v : Int, 0 ≤ v ∧ v ≤ 0xFFFFFF ∧
        SendRGB enc y r g b effect d arrived =
          buildAndSend enc y "set_rgb".toList [.int v, .Effect effect, .int d] arrived) := by
  refine ⟨?_, ?_, by decide, by decide, by decide, ?_⟩
  · simp only [RGBValue.Get, Nat.shiftLeft_eq]
    push_cast
    norm_num
  · exact RGBValue_Get_bounds c.red c.green c.blue hr hg hb
  · intro enc y r g b effect d arrived hd
    have hv : isValidDuration d = true := by simp [isValidDuration, hd]
    have hbd := RGBValue_Get_bounds (r % 256) (g % 256) (b % 256) (Nat.mod_lt _ (by decide))
      (Nat.mod_lt _ (by decide)) (Nat.mod_lt _ (by decide))
    refine ⟨_, hbd.1, hbd.2, ?_⟩
    simp [SendRGB, hv]

/-- C28 witness: the colour 0x112233. -/
theorem RGBValue_Get_spec_witness :
    RGBValue.Get { red := 0x11, green := 0x22, blue := 0x33 } = 0x112233 ∧
    (0 ≤ RGBValue.Get { red := 0x11, green := 0x22, blue := 0x33 } ∧
      RGBValue.Get { red := 0x11, green := 0x22, blue := 0x33 } ≤ 0xFFFFFF) :=
  ⟨(RGBValue_Get_spec { red := 0x11, green := 0x22, blue := 0x33 } (by decide) (by decide)
      (by decide)).1,
    (RGBValue_Get_spec { red := 0x11, green := 0x22, blue := 0x33 } (by decide) (by decide)
      (by decide)).2.1⟩

/-- C25: `Close` on a device without a connection returns the error
`ErrConnNotInitialized` and leaves the device as it was; on a device with a
connection it closes that socket, keeps every other field, and returns what
the close of the socket returns. -/
theorem Close_spec (y : YeeLight) :
    (y.tcpSocket = none → Close y = (y, some .ErrConnNotInitialized)) ∧
    (∀ c, y.tcpSocket = some c →
      Close y = ({ y with tcpSocket := some c.Close.1 }, c.Close.2) ∧
      c.Close.1.closed = true ∧ c.Close.1.written = c.written ∧
      (c.closed = false → (Close y).2 = none)) := by
  refine ⟨fun h => ?_, fun c h => ⟨?_, ?_, ?_, ?_⟩⟩
  · simp only [Close, h]
  · simp only [Close, h]
  · unfold Conn.Close
    by_cases hc : c.closed = true <;> simp [hc]
  · unfold Conn.Close
    by_cases hc : c.closed = true <;> simp [hc]
  · intro hc
    simp [Close, h, Conn.Close, hc]

/-- C25 witness: a fresh device, and a device with an open connection. -/
theorem Close_spec_witness :
    Close {} = ({}, some .ErrConnNotInitialized) ∧
    Close deviceOpen = ({ tcpSocket := some { closed := true } }, none) :=
  ⟨(Close_spec {}).1 rfl, ((Close_spec deviceOpen).2 {} rfl).1⟩

theorem Split_of_not_mem (sep : Char) (s : Str) (h : sep ∉ s) : Split sep s = [s] := by
  induction s with
  | nil => rfl
  | cons c cs ih =>
    have hc : c ≠ sep := fun e => h (by simp [e])
    have hcs : sep ∉ cs := fun e => h (List.mem_cons_of_mem _ e)
    simp only [Split, hc, if_false, ih hcs]

theorem Split_head (sep : Char) (s t : Str) (h : sep ∉ s) :
    (Split sep (s ++ sep :: t)).headD [] = s := by
  induction s with
  | nil => simp [Split]
  | cons c cs ih =>
    have hc : c ≠ sep := fun e => h (by simp [e])
    have hcs : sep ∉ cs := fun e => h (List.mem_cons_of_mem _ e)
    have ih := ih hcs
    rw [List.cons_append]
    simp only [Split, hc, if_false]
    cases hsp : Split sep (cs ++ sep :: t) with
    | nil => rw [hsp] at ih; simp at ih; simp [← ih]
    | cons a as => rw [hsp] at ih; simp at ih; simp [ih]

theorem addrIsIn_iff (addr : Str) (ips : List Str) :
    addrIsIn addr ips = true ↔ (Split ':' addr).headD [] ∈ ips := by
  induction ips with
  | nil => simp [addrIsIn]
  | cons ip ips ih =>
    simp only [addrIsIn, List.mem_cons]
    by_cases h : (Split ':' addr).headD [] = ip
    · rw [if_pos h]
      exact ⟨fun _ => Or.inl h, fun _ => rfl⟩
    · rw [if_neg h, ih]
      exact ⟨fun hm => Or.inr hm, fun hm => hm.resolve_left h⟩

/-- C29: for an address text ip or ip:port, ip without a colon, `addrIsIn` is
true exactly when ip is one of the listed addresses, so never for the empty
list; and a datagram from an address for which it is true leaves the service
as it was: nothing is decoded and neither a device nor an error is sent. -/
theorem addrIsIn_spec (fold : Char → Char) (ip port : Str) (ips : List Str) (h : ':' ∉ ip) :
    (addrIsIn ip ips = true ↔ ip ∈ ips) ∧
    (addrIsIn (ip ++ ':' :: port) ips = true ↔ ip ∈ ips) ∧
    addrIsIn ip [] = false ∧ addrIsIn (ip ++ ':' :: port) [] = false ∧
    (∀ (service : discoveryService) (datagram : Str) (addr : Str),
      addrIsIn addr ips = true → handleDatagram fold service ips datagram addr = some service) := by
  refine ⟨?_, ?_, rfl, rfl, ?_⟩
  · rw [addrIsIn_iff, Split_of_not_mem _ _ h]
    rfl
  · rw [addrIsIn_iff, Split_head _ _ _ h]
  · intro service datagram addr ha
    simp only [handleDatagram, ha, if_true]

/-- C29 witness: the address 192.168.1.1 with the port 8080, first against a
list that holds it and then against one that does not. -/
theorem addrIsIn_spec_witness :
    (addrIsIn "192.168.1.1:8080".toList ["192.168.1.1".toList, "192.168.1.2".toList] = true ↔
      "192.168.1.1".toList ∈ ["192.168.1.1".toList, "192.168.1.2".toList]) ∧
    (addrIsIn "192.168.1.1:8080".toList ["192.168.1.2".toList] = true ↔
      "192.168.1.1".toList ∈ ["192.168.1.2".toList]) :=
  ⟨(addrIsIn_spec sampleFold "192.168.1.1".toList "8080".toList
      ["192.168.1.1".toList, "192.168.1.2".toList] (by decide)).2.1,
    (addrIsIn_spec sampleFold "192.168.1.1".toList "8080".toList ["192.168.1.2".toList] (by decide)).2.1⟩

/-- C23: a frame that `json.Unmarshal` rejects in the shape of a notification
gives no notification, leaves every field of the device as it was, and puts
exactly one error, the one of the decoder, on the error stream. -/
theorem parseNotifications_invalid (dec : Decoder) (y : YeeLight) (msg : Str)
    (h : dec.props (TrimSuffix msg "\r\n".toList) = none) :
    parseNotifications dec y msg = ({ y with errs := y.errs ++ [.JSONError] }, []) := by
  simp only [parseNotifications, h]

theorem afterSetter_setPower (y : YeeLight) (s : Str) :
    afterSetter y (setPower y s) =
      if (checkPower s).isSome then y else { y with Power := s } := by
  rw [setPower_eq]
  cases checkPower s <;> rfl

theorem afterSetter_setBright (y : YeeLight) (s : Str) :
    afterSetter y (setBright y s) =
      if (checkInt 1 100 s).isSome then y else { y with Brightness := (Atoi s).getD 0 } := by
  rw [setBright_eq]
  cases checkInt 1 100 s <;> rfl

theorem afterSetter_setColorMode (y : YeeLight) (s : Str) :
    afterSetter y (setColorMode y s) =
      if (checkInt 1 3 s).isSome then y else { y with ColorMode := (Atoi s).getD 0 } := by
  rw [setColorMode_eq]
  cases checkInt 1 3 s <;> rfl

theorem afterSetter_setColorTemperature (y : YeeLight) (s : Str) :
    afterSetter y (setColorTemperature y s) =
      if (checkInt 1700 6500 s).isSome then y
      else { y with ColorTemperature := (Atoi s).getD 0 } := by
  rw [setColorTemperature_eq]
  cases checkInt 1700 6500 s <;> rfl

theorem afterSetter_setRGB (y : YeeLight) (s : Str) :
    afterSetter y (setRGB y s) =
      if (checkInt 0 0xffffff s).isSome then y
      else { y with RGB :=
          { red := ((Atoi s).getD 0).toNat / 65536 % 256
            green := ((Atoi s).getD 0).toNat / 256 % 256
            blue := ((Atoi s).getD 0).toNat % 256 } } := by
  rw [setRGB_eq]
  cases checkInt 0 0xffffff s <;> rfl

theorem afterSetter_setHue (y : YeeLight) (s : Str) :
    afterSetter y (setHue y s) =
      if (checkInt 0 359 s).isSome then y else { y with Hue := (Atoi s).getD 0 } := by
  rw [setHue_eq]
  cases checkInt 0 359 s <;> rfl

theorem afterSetter_setSaturation (y : YeeLight) (s : Str) :
    afterSetter y (setSaturation y s) =
      if (checkInt 0 100 s).isSome then y else { y with Saturation := (Atoi s).getD 0 } := by
  rw [setSaturation_eq]
  cases checkInt 0 100 s <;> rfl

theorem updateProperty_frame (y : YeeLight) (n : Notification) :
    (updateProperty y n).errs = y.errs ∧ (updateProperty y n).events = y.events ∧
    (updateProperty y n).pendingCmds = y.pendingCmds ∧
    (updateProperty y n).tcpSocket = y.tcpSocket ∧
    (updateProperty y n).idCommand = y.idCommand := by
  unfold updateProperty
  simp only [afterSetter_setPower, afterSetter_setBright, afterSetter_setColorMode,
    afterSetter_setColorTemperature, afterSetter_setRGB, afterSetter_setHue,
    afterSetter_setSaturation, setName]
  split_ifs <;> exact ⟨rfl, rfl, rfl, rfl, rfl⟩

theorem updateProperty_as_update (n : Notification) :
    (∀ y, updateProperty y n = y) ∨
    (n.Property = "power".toList ∧ ∃ v, ∀ y, updateProperty y n = { y with Power := v }) ∨
    (n.Property = "bright".toList ∧ ∃ v, ∀ y, updateProperty y n = { y with Brightness := v }) ∨
    (n.Property = "color_mode".toList ∧
      ∃ v, ∀ y, updateProperty y n = { y with ColorMode := v }) ∨
    (n.Property = "ct".toList ∧
      ∃ v, ∀ y, updateProperty y n = { y with ColorTemperature := v }) ∨
    (n.Property = "rgb".toList ∧ ∃ v, ∀ y, updateProperty y n = { y with RGB := v }) ∨
    (n.Property = "hue".toList ∧ ∃ v, ∀ y, updateProperty y n = { y with Hue := v }) ∨
    (n.Property = "sat".toList ∧ ∃ v, ∀ y, updateProperty y n = { y with Saturation := v }) ∨
    (n.Property = "name".toList ∧ ∃ v, ∀ y, updateProperty y n = { y with Name := v }) := by
  obtain ⟨p, s⟩ := n
  by_cases h1 : p = "power".toList
  · subst h1
    by_cases hc : (checkPower s).isSome = true
    · exact Or.inl fun y => by rw [updateProperty_power, afterSetter_setPower, if_pos hc]
    · exact Or.inr (Or.inl ⟨rfl, _, fun y => by
        rw [updateProperty_power, afterSetter_setPower, if_neg hc]⟩)
  by_cases h2 : p = "bright".toList
  · subst h2
    by_cases hc : (checkInt 1 100 s).isSome = true
    · exact Or.inl fun y => by rw [updateProperty_bright, afterSetter_setBright, if_pos hc]
    · exact Or.inr (Or.inr (Or.inl ⟨rfl, _, fun y => by
        rw [updateProperty_bright, afterSetter_setBright, if_neg hc]⟩))
  by_cases h3 : p = "color_mode".toList
  · subst h3
    by_cases hc : (checkInt 1 3 s).isSome = true
    · exact Or.inl fun y => by
        rw [updateProperty_color_mode, afterSetter_setColorMode, if_pos hc]
    · exact Or.inr (Or.inr (Or.inr (Or.inl ⟨rfl, _, fun y => by
        rw [updateProperty_color_mode, afterSetter_setColorMode, if_neg hc]⟩)))
  by_cases h4 : p = "ct".toList
  · subst h4
    by_cases hc : (checkInt 1700 6500 s).isSome = true
    · exact Or.inl fun y => by
        rw [updateProperty_ct, afterSetter_setColorTemperature, if_pos hc]
    · exact Or.inr (Or.inr (Or.inr (Or.inr (Or.inl ⟨rfl, _, fun y => by
        rw [updateProperty_ct, afterSetter_setColorTemperature, if_neg hc]⟩))))
  by_cases h5 : p = "rgb".toList
  · subst h5
    by_cases hc : (checkInt 0 0xffffff s).isSome = true
    · exact Or.inl fun y => by rw [updateProperty_rgb, afterSetter_setRGB, if_pos hc]
    · exact Or.inr (Or.inr (Or.inr (Or.inr (Or.inr (Or.inl ⟨rfl, _, fun y => by
        rw [updateProperty_rgb, afterSetter_setRGB, if_neg hc]⟩)))))
  by_cases h6 : p = "hue".toList
  · subst h6
    by_cases hc : (checkInt 0 359 s).isSome = true
    · exact Or.inl fun y => by rw [updateProperty_hue, afterSetter_setHue, if_pos hc]
    · exact Or.inr (Or.inr (Or.inr (Or.inr (Or.inr (Or.inr (Or.inl ⟨rfl, _, fun y => by
        rw [updateProperty_hue, afterSetter_setHue, if_neg hc]⟩))))))
  by_cases h7 : p = "sat".toList
  · subst h7
    by_cases hc : (checkInt 0 100 s).isSome = true
    · exact Or.inl fun y => by rw [updateProperty_sat, afterSetter_setSaturation, if_pos hc]
    · exact Or.inr (Or.inr (Or.inr (Or.inr (Or.inr (Or.inr (Or.inr (Or.inl ⟨rfl, _, fun y => by
        rw [updateProperty_sat, afterSetter_setSaturation, if_neg hc]⟩)))))))
  by_cases h8 : p = "name".toList
  · subst h8
    exact Or.inr (Or.inr (Or.inr (Or.inr (Or.inr (Or.inr (Or.inr (Or.inr ⟨rfl, _, fun y => by
        rw [updateProperty_name, setName]⟩)))))))
  · exact Or.inl fun y => by
      simp only [updateProperty, h1, h2, h3, h4, h5, h6, h7, h8, if_false]

theorem updateProperty_comm (y : YeeLight) (n m : Notification) (h : n.Property ≠ m.Property) :
    updateProperty (updateProperty y n) m = updateProperty (updateProperty y m) n := by
  rcases updateProperty_as_update n with hn | ⟨hpn, v, hn⟩ | ⟨hpn, v, hn⟩ | ⟨hpn, v, hn⟩ |
    ⟨hpn, v, hn⟩ | ⟨hpn, v, hn⟩ | ⟨hpn, v, hn⟩ | ⟨hpn, v, hn⟩ | ⟨hpn, v, hn⟩ <;>
  rcases updateProperty_as_update m with hm | ⟨hpm, w, hm⟩ | ⟨hpm, w, hm⟩ | ⟨hpm, w, hm⟩ |
    ⟨hpm, w, hm⟩ | ⟨hpm, w, hm⟩ | ⟨hpm, w, hm⟩ | ⟨hpm, w, hm⟩ | ⟨hpm, w, hm⟩ <;>
  first
  | exact absurd (hpn.trans hpm.symm) h
  | simp only [hn, hm]

theorem notifyLoop_eq (params : GoMap Str Str) (y : YeeLight) (res : List Notification) :
    notifyLoop params y res =
      (params.foldl (fun y kv => updateProperty y ⟨kv.1, kv.2⟩) y,
        res ++ params.map (fun kv => ⟨kv.1, kv.2⟩)) := by
  induction params generalizing y res with
  | nil => simp [notifyLoop]
  | cons kv rest ih =>
    obtain ⟨k, v⟩ := kv
    simp only [notifyLoop, ih, List.foldl_cons, List.map_cons, List.append_assoc,
      List.singleton_append]

theorem foldl_updateProperty_frame (params : GoMap Str Str) (y : YeeLight) :
    (params.foldl (fun y kv => updateProperty y ⟨kv.1, kv.2⟩) y).errs = y.errs ∧
    (params.foldl (fun y kv => updateProperty y ⟨kv.1, kv.2⟩) y).events = y.events ∧
    (params.foldl (fun y kv => updateProperty y ⟨kv.1, kv.2⟩) y).pendingCmds = y.pendingCmds ∧
    (params.foldl (fun y kv => updateProperty y ⟨kv.1, kv.2⟩) y).tcpSocket = y.tcpSocket ∧
    (params.foldl (fun y kv => updateProperty y ⟨kv.1, kv.2⟩) y).idCommand = y.idCommand := by
  induction params generalizing y with
  | nil => exact ⟨rfl, rfl, rfl, rfl, rfl⟩
  | cons kv rest ih =>
    obtain ⟨h1, h2, h3, h4, h5⟩ := ih (updateProperty y ⟨kv.1, kv.2⟩)
    obtain ⟨g1, g2, g3, g4, g5⟩ := updateProperty_frame y ⟨kv.1, kv.2⟩
    simp only [List.foldl_cons]
    exact ⟨h1.trans g1, h2.trans g2, h3.trans g3, h4.trans g4, h5.trans g5⟩

theorem foldl_updateProperty_perm (l1 l2 : GoMap Str Str) (hp : l1.Perm l2)
    (hnd : (l1.map Prod.fst).Nodup) (y : YeeLight) :
    l1.foldl (fun y kv => updateProperty y ⟨kv.1, kv.2⟩) y =
      l2.foldl (fun y kv => updateProperty y ⟨kv.1, kv.2⟩) y := by
  induction hp generalizing y with
  | nil => rfl
  | cons a _ ih =>
    simp only [List.map_cons, List.nodup_cons] at hnd
    simp only [List.foldl_cons]
    exact ih hnd.2 _
  | swap a b l =>
    simp only [List.map_cons, List.nodup_cons, List.mem_cons, not_or] at hnd
    simp only [List.foldl_cons]
    rw [updateProperty_comm y ⟨b.1, b.2⟩ ⟨a.1, a.2⟩ (fun e => hnd.1.1 e)]
  | trans h12 _ ih1 ih2 =>
    rw [ih1 hnd, ih2 ((h12.map Prod.fst).nodup_iff.mp hnd)]

/-- C23 witness: the malformed frame of the test, on a fresh device. -/
theorem parseNotifications_invalid_witness :
    parseNotifications testDecoder {} malformedFrame = ({ errs := [.JSONError] }, []) :=
  parseNotifications_invalid testDecoder {} malformedFrame (by decide)

/-- C21 (as stated, refuted): the setter rejects the brightness 0 with
`ErrInvalidRange`, yet `updateProperty` puts no error on the error stream. -/
theorem updateProperty_failure_counterexample :
    setBright {} "0".toList = .error .ErrInvalidRange ∧
    (updateProperty {} ⟨"bright".toList, "0".toList⟩).errs = [] ∧
    ¬ ∃ e, (updateProperty {} ⟨"bright".toList, "0".toList⟩).errs =
      (({} : YeeLight).errs ++ [e]) := by
  refine ⟨by decide, by decide, ?_⟩
  rintro ⟨e, he⟩
  have h0 : (updateProperty {} ⟨"bright".toList, "0".toList⟩).errs = [] := by decide
  rw [h0] at he
  cases he

/-- C21 (amended): a notification whose value its setter rejects is dropped
by `updateProperty`: the device, its error stream included, is left exactly
as it was, and no notification at all adds to the error stream. -/
theorem updateProperty_failure_dropped (y : YeeLight) (s : Str) (e : GoError) :
    (setPower y s = .error e → updateProperty y ⟨"power".toList, s⟩ = y) ∧
    (setBright y s = .error e → updateProperty y ⟨"bright".toList, s⟩ = y) ∧
    (setColorMode y s = .error e → updateProperty y ⟨"color_mode".toList, s⟩ = y) ∧
    (setColorTemperature y s = .error e → updateProperty y ⟨"ct".toList, s⟩ = y) ∧
    (setRGB y s = .error e → updateProperty y ⟨"rgb".toList, s⟩ = y) ∧
    (setHue y s = .error e → updateProperty y ⟨"hue".toList, s⟩ = y) ∧
    (setSaturation y s = .error e → updateProperty y ⟨"sat".toList, s⟩ = y) ∧
    (∀ n, (updateProperty y n).errs = y.errs) := by
  refine ⟨fun h => ?_, fun h => ?_, fun h => ?_, fun h => ?_, fun h => ?_, fun h => ?_,
    fun h => ?_, fun n => (updateProperty_frame y n).1⟩
  · rw [updateProperty_power, h]; rfl
  · rw [updateProperty_bright, h]; rfl
  · rw [updateProperty_color_mode, h]; rfl
  · rw [updateProperty_ct, h]; rfl
  · rw [updateProperty_rgb, h]; rfl
  · rw [updateProperty_hue, h]; rfl
  · rw [updateProperty_sat, h]; rfl

/-- C21 witness: the brightness 0 on a device whose brightness is 50 and
whose error stream holds one earlier error. -/
theorem updateProperty_failure_dropped_witness :
    updateProperty { Brightness := 50, errs := [.ErrTimedOut] } ⟨"bright".toList, "0".toList⟩ =
      { Brightness := 50, errs := [.ErrTimedOut] } :=
  (updateProperty_failure_dropped { Brightness := 50, errs := [.ErrTimedOut] } "0".toList
    .ErrInvalidRange).2.1 (by decide)

/-- C22: when `json.Unmarshal` reads the frame, without its CRLF if it ends in
one, as a notification with the params `params`, whose names are distinct,
`parseNotifications` returns one notification per entry, with the name as
Property and the value as Status, as many as there are entries; the device it
leaves is the one `updateProperty` makes of them, taken one after the other in
any order; and the error stream is as before. -/
theorem parseNotifications_batch (dec : Decoder) (y : YeeLight) (msg method : Str)
    (params : GoMap Str Str)
    (h : dec.props (TrimSuffix msg "\r\n".toList) = some (method, params))
    (hnd : (params.map Prod.fst).Nodup) :
    (parseNotifications dec y msg).2 = params.map (fun kv => ⟨kv.1, kv.2⟩) ∧
    (parseNotifications dec y msg).2.length = params.length ∧
    (∀ k v, (⟨k, v⟩ : Notification) ∈ (parseNotifications dec y msg).2 ↔ (k, v) ∈ params) ∧
    (∀ order : GoMap Str Str, order.Perm params →
      (parseNotifications dec y msg).1 =
        order.foldl (fun y kv => updateProperty y ⟨kv.1, kv.2⟩) y) ∧
    (parseNotifications dec y msg).1.errs = y.errs := by
  have hp : parseNotifications dec y msg =
      (params.foldl (fun y kv => updateProperty y ⟨kv.1, kv.2⟩) y,
        params.map (fun kv => ⟨kv.1, kv.2⟩)) := by
    simp only [parseNotifications, h, notifyLoop_eq, List.nil_append]
  rw [hp]
  refine ⟨rfl, by simp, ?_, ?_, (foldl_updateProperty_frame params y).1⟩
  · intro k v
    simp only [List.mem_map, Prod.exists]
    constructor
    · rintro ⟨a, b, hab, he⟩
      cases he
      exact hab
    · intro hkv
      exact ⟨k, v, hkv, rfl⟩
  · intro order ho
    exact foldl_updateProperty_perm params order ho.symm hnd y

/-- C22 witness: the frame with power on and bright 20 of the test, on a fresh
device: the two notifications, and both values stored. -/
theorem parseNotifications_batch_witness :
    (parseNotifications testDecoder {} propsFrame).2 =
      [⟨"power".toList, "on".toList⟩, ⟨"bright".toList, "20".toList⟩] ∧
    (parseNotifications testDecoder {} propsFrame).1 =
      { Power := "on".toList, Brightness := 20 } :=
  ⟨(parseNotifications_batch testDecoder {} propsFrame "props".toList
      [("power".toList, "on".toList), ("bright".toList, "20".toList)]
      (by decide) (by decide)).1,
    (parseNotifications_batch testDecoder {} propsFrame "props".toList
      [("power".toList, "on".toList), ("bright".toList, "20".toList)]
      (by decide) (by decide)).2.2.2.1
      [("bright".toList, "20".toList), ("power".toList, "on".toList)]
      (List.Perm.swap _ _ _)⟩

theorem parseNotifications_frame (dec : Decoder) (y : YeeLight) (msg : Str) :
    (parseNotifications dec y msg).1.pendingCmds = y.pendingCmds ∧
    (parseNotifications dec y msg).1.events = y.events ∧
    (parseNotifications dec y msg).1.tcpSocket = y.tcpSocket ∧
    (parseNotifications dec y msg).1.idCommand = y.idCommand := by
  cases h : dec.props (TrimSuffix msg "\r\n".toList) with
  | none => simp only [parseNotifications, h, and_self]
  | some r =>
    obtain ⟨m, ps⟩ := r
    obtain ⟨h1, h2, h3, h4, h5⟩ := foldl_updateProperty_frame ps y
    simp only [parseNotifications, h, notifyLoop_eq]
    exact ⟨h3, h2, h4, h5⟩

/-- C24: a frame that `json.Unmarshal` reads as an answer is dispatched on
its identifier. With the identifier 0 it is handed to `parseNotifications`,
whose notifications are published, and the pending table stays as it was;
with a negative identifier the one effect is the error `ErrFailedCmd` on the
error stream; with a positive identifier the outcome is that of
`releaseAnswerChan` called with this identifier and the decoded answer. -/
theorem dispatch_by_identifier (dec : Decoder) (y : YeeLight) (msg : Str) (a : Answer)
    (h : dec.answer msg = some a) :
    (a.ID = 0 → ∃ y', dispatch dec y msg = some y' ∧
      y'.pendingCmds = y.pendingCmds ∧
      y'.events = y.events ++ (parseNotifications dec y msg).2) ∧
    (a.ID < 0 → dispatch dec y msg = some { y with errs := y.errs ++ [.ErrFailedCmd] }) ∧
    (0 < a.ID → dispatch dec y msg = (releaseAnswerChan y a.ID (some a)).map Prod.fst) := by
  refine ⟨fun h0 => ?_, fun hneg => ?_, fun hpos => ?_⟩
  · obtain ⟨f1, f2, -, -⟩ := parseNotifications_frame dec y msg
    rcases hp : parseNotifications dec y msg with ⟨y1, ns⟩
    rw [hp] at f1 f2
    simp only [dispatch, h, h0, if_true, hp]
    refine ⟨_, rfl, ?_, ?_⟩
    · by_cases hl : ns.length = 0 <;> simp only [hl, if_true, if_false] <;> exact f1
    · by_cases hl : ns.length = 0 <;> simp only [hl, if_true, if_false] <;> rw [← f2]
  · have h0 : ¬ a.ID = 0 := by omega
    simp only [dispatch, h, h0, hneg, if_true, if_false]
  · have h0 : ¬ a.ID = 0 := by omega
    have hn : ¬ a.ID < 0 := by omega
    simp only [dispatch, h, h0, hn, if_false]
    cases releaseAnswerChan y a.ID (some a) with
    | none => rfl
    | some r => rfl

/-- C24 witness: the answer to the pending command 1, a frame with the
identifier -1 and a notification frame, each read by a device on which the
command 1 is pending. -/
theorem dispatch_by_identifier_witness :
    dispatch testDecoder deviceOpen1 answerFrame1 =
      (releaseAnswerChan deviceOpen1 1 (some answerOk1)).map Prod.fst ∧
    dispatch testDecoder deviceOpen1 failedFrame =
      some { deviceOpen1 with errs := [.ErrFailedCmd] } ∧
    (∃ y', dispatch testDecoder deviceOpen1 propsFrame = some y' ∧
      y'.pendingCmds = deviceOpen1.pendingCmds ∧
      y'.events = deviceOpen1.events ++ (parseNotifications testDecoder deviceOpen1 propsFrame).2) :=
  ⟨(dispatch_by_identifier testDecoder deviceOpen1 answerFrame1 answerOk1 (by decide)).2.2
      (by decide),
    (dispatch_by_identifier testDecoder deviceOpen1 failedFrame { ID := -1, Result := [] }
      (by decide)).2.1 (by decide),
    (dispatch_by_identifier testDecoder deviceOpen1 propsFrame { ID := 0, Result := [] }
      (by decide)).1 rfl⟩

/-- C26 (the code at a failing read): while the device has a socket, a read
error is put on the error stream under its own cause and the loop goes on with
the next read. On a connected device whose reads fail with `io.EOF` the loop
is still running after two reads, with the two read errors and no
`ErrConnDrop` on the error stream, the socket not closed, nothing dialed and
the pending table untouched. -/
theorem readTCP_read_error :
    (∀ (dec : Decoder) (y : YeeLight) (c : Conn) (e : GoError) (rest : List ReadResult),
      y.tcpSocket = some c →
      readLoop dec (.failure e :: rest) y = readLoop dec rest { y with errs := y.errs ++ [e] }) ∧
    readTCP testDecoder deviceOpen1 [.failure .EOF, .failure .EOF]
        (.ok { written := "new".toList }) =
      some ({ tcpSocket := some { written := [], closed := false }, idCommand := 1,
              pendingCmds := some [(1, Chan.make1)], errs := [.EOF, .EOF] }, false) := by
  refine ⟨?_, by decide⟩
  intro dec y c e rest h
  simp only [readLoop, h]

/-- C32: `NewRGB` and `Get` undo each other: for an integer from 0 to 0xFFFFFF
`NewRGB` succeeds with a colour whose `Get` is that integer, and for a colour
of three bytes `NewRGB` of its `Get` succeeds with that colour. -/
theorem NewRGB_Get_inverse (v : Int) (c : RGBValue) :
    (0 ≤ v → v ≤ 0xFFFFFF → ∃ d, NewRGB v = .ok d ∧ d.Get = v) ∧
    (c.red < 256 → c.green < 256 → c.blue < 256 → NewRGB c.Get = .ok c) := by
  constructor
  · intro h0 h1
    refine ⟨_, NewRGB_ok v h0 h1, ?_⟩
    simp only [RGBValue.Get, Nat.shiftLeft_eq]
    have hv : ((v.toNat : Nat) : Int) = v := Int.toNat_of_nonneg h0
    have hb : v.toNat ≤ 0xFFFFFF := by omega
    rw [← hv]
    norm_cast
    omega
  · intro hr hg hb
    obtain ⟨r, g, b⟩ := c
    simp only at hr hg hb
    have hG : RGBValue.Get { red := r, green := g, blue := b } =
        ((r * 65536 + g * 256 + b : Nat) : Int) := by
      simp only [RGBValue.Get, Nat.shiftLeft_eq]
    have h0 : (0 : Int) ≤ ((r * 65536 + g * 256 + b : Nat) : Int) := Int.ofNat_nonneg _
    have h1 : ((r * 65536 + g * 256 + b : Nat) : Int) ≤ 0xFFFFFF := by
      norm_cast
      omega
    rw [hG, NewRGB_ok _ h0 h1, Int.toNat_ofNat]
    have e1 : (r * 65536 + g * 256 + b) / 65536 % 256 = r := by omega
    have e2 : (r * 65536 + g * 256 + b) / 256 % 256 = g := by omega
    have e3 : (r * 65536 + g * 256 + b) % 256 = b := by omega
    rw [e1, e2, e3]

/-- C32 witness: the integer 0x112233 and the colour red. -/
theorem NewRGB_Get_inverse_witness :
    (∃ d, NewRGB 0x112233 = .ok d ∧ d.Get = 0x112233) ∧
    NewRGB (RGBValue.Get { red := 255, green := 0, blue := 0 }) =
      .ok { red := 255, green := 0, blue := 0 } :=
  ⟨(NewRGB_Get_inverse 0x112233 {}).1 (by decide) (by decide),
    (NewRGB_Get_inverse 0 { red := 255, green := 0, blue := 0 }).2 (by decide) (by decide)
      (by decide)⟩

/-- C34 (the code at the declared default): `TurnOnValue.isValid` accepts
exactly the values 1 to 5, so it rejects `NormalMode`, the constant 0, and
`SetPower` with the power on, the effect smooth, the duration 500 and the mode
`NormalMode` fails with `ErrInvalidType` before an identifier is taken. -/
theorem TurnOnValue_isValid_NormalMode :
    (∀ t : Int, TurnOnValue.isValid t = true ↔ 1 ≤ t ∧ t ≤ 5) ∧
    TurnOnValue.isValid 0 = false ∧
    checkParams [.PowerValue On, .Effect "smooth".toList, .int 500, .TurnOnValue 0] =
      .error .ErrInvalidType ∧
    (∀ (enc : Encoder) (y : YeeLight) (arrived : Option Answer),
      SetPower enc y On "smooth".toList 500 0 arrived = some (y, .error .ErrInvalidType)) ∧
    SetPower plainEncoder deviceOpen On "smooth".toList 500 1 (some answerOk1) =
      some ({ tcpSocket := some
                { written :=
                    "\x7b\"id\":1,\"method\":\"set_power\",\"params\":[\"on\",\"smooth\",500,1]\x7d\r\n".toList },
              idCommand := 1, pendingCmds := some [(1, Chan.make1)] },
        .ok answerOk1) := by
  refine ⟨?_, by decide, by decide, ?_, by decide⟩
  · intro t
    simp only [TurnOnValue.isValid, Bool.and_eq_true, decide_eq_true_eq]
    omega
  · intro enc y arrived
    have hc : checkParams [.PowerValue On, .Effect "smooth".toList, .int 500, .TurnOnValue 0] =
        .error .ErrInvalidType := by decide
    have hp : PowerValue.isValid On = true := by decide
    have hd : isValidDuration 500 = true := by decide
    simp only [SetPower, hp, hd, Bool.not_true, Bool.false_eq_true, if_false, buildAndSend,
      newCommand, hc]

/-- C37: after either start line the same header block gives the same result,
the one `parseFromMap` gives for the headers of the block. -/
theorem newFromAdvertisement_either_start_line (fold : Char → Char) (B : Str) :
    newFromAdvertisement fold (discoveryAnswerHeader ++ B) =
      newFromAdvertisement fold (advertisementHeader ++ B) ∧
    newFromAdvertisement fold (discoveryAnswerHeader ++ B) =
      parseFromMap fold (readHeaders fold B.length B []) := by
  have h1 : ReadBytes '\n' (discoveryAnswerHeader ++ B) = (discoveryAnswerHeader, B, true) :=
    ReadBytes_append_newline "HTTP/1.1 200 OK\r".toList B (by decide)
  have h2 : ReadBytes '\n' (advertisementHeader ++ B) = (advertisementHeader, B, true) :=
    ReadBytes_append_newline "NOTIFY * HTTP/1.1\r".toList B (by decide)
  have e1 : newFromAdvertisement fold (discoveryAnswerHeader ++ B) =
      parseFromMap fold (readHeaders fold B.length B []) := by
    simp only [newFromAdvertisement, h1]
    simp
  have e2 : newFromAdvertisement fold (advertisementHeader ++ B) =
      parseFromMap fold (readHeaders fold B.length B []) := by
    simp only [newFromAdvertisement, h2]
    simp
  exact ⟨e1.trans e2.symm, e1⟩

theorem ReadBytes_append_right (t : Str) (ht : '\n' ∉ t) (s : Str) :
    ReadBytes '\n' (s ++ t) =
      if (ReadBytes '\n' s).2.2 = true then
        ((ReadBytes '\n' s).1, (ReadBytes '\n' s).2.1 ++ t, true)
      else (s ++ t, [], false) := by
  induction s with
  | nil => simp [ReadBytes, ReadBytes_of_not_mem '\n' t ht]
  | cons c cs ih =>
    by_cases hc : c = '\n'
    · simp [ReadBytes, hc]
    · rcases hr : ReadBytes '\n' cs with ⟨l, r, ok⟩
      rw [hr] at ih
      rw [List.cons_append]
      simp only [ReadBytes, hc, if_false, hr, ih]
      cases ok <;> simp

theorem readHeaders_append_right (fold : Char → Char) (t : Str) (ht : '\n' ∉ t) (fuel : Nat) :
    ∀ (s : Str) (lines : GoMap Str Str),
      readHeaders fold fuel (s ++ t) lines = readHeaders fold fuel s lines := by
  induction fuel with
  | zero => intro s lines; rfl
  | succ fuel ih =>
    intro s lines
    rcases hr : ReadBytes '\n' s with ⟨l, r, ok⟩
    have ha := ReadBytes_append_right t ht s
    rw [hr] at ha
    cases ok with
    | false =>
      simp only [Bool.false_eq_true, if_false] at ha
      simp only [readHeaders, ha, hr]
    | true =>
      simp only [if_true] at ha
      simp only [readHeaders, ha, hr, ih]

theorem ReadBytes_found (delim : Char) (buf : Str) (h : delim ∈ buf) :
    (ReadBytes delim buf).2.2 = true := by
  induction buf with
  | nil => cases h
  | cons c cs ih =>
    by_cases hc : c = delim
    · simp [ReadBytes, hc]
    · have hcs : delim ∈ cs := by
        rcases List.mem_cons.mp h with h1 | h1
        · exact absurd h1.symm hc
        · exact h1
      have hi := ih hcs
      rcases hq : ReadBytes delim cs with ⟨l, r, ok⟩
      rw [hq] at hi
      simp only [ReadBytes, hc, if_false, hq]
      exact hi

/-- C38: bytes without a newline appended to a message that holds a newline
do not change what the decoder returns: a last line without its newline is
never stored. -/
theorem newFromAdvertisement_unterminated_tail (fold : Char → Char) (m t : Str) (hm : '\n' ∈ m) (ht : '\n' ∉ t) :
    newFromAdvertisement fold (m ++ t) = newFromAdvertisement fold m := by
  have hfound := ReadBytes_found '\n' m hm
  rcases hr : ReadBytes '\n' m with ⟨l, r, ok⟩
  have ha := ReadBytes_append_right t ht m
  rw [hr] at ha hfound
  simp only at hfound
  subst hfound
  simp only [if_true] at ha
  simp only [newFromAdvertisement, ha, hr]
  have e : readHeaders fold (r ++ t).length (r ++ t) [] = readHeaders fold r.length r [] := by
    rw [readHeaders_append_right fold t ht]
    exact readHeaders_fuel fold _ _ r [] (by simp) (le_refl _)
  rw [e]

/-- C38 witness: a start line followed by a line that lacks its newline
decodes as the start line alone does. -/
theorem newFromAdvertisement_unterminated_tail_witness :
    newFromAdvertisement sampleFold ("HTTP/1.1 200 OK\r\n".toList ++ "Location: yeelight://1.2.3.4".toList) =
      newFromAdvertisement sampleFold "HTTP/1.1 200 OK\r\n".toList :=
  newFromAdvertisement_unterminated_tail sampleFold "HTTP/1.1 200 OK\r\n".toList
    "Location: yeelight://1.2.3.4".toList (by decide) (by decide)

theorem handleDatagram_some (fold : Char → Char) (service : discoveryService) (ips : List Str) (d addr : Str)
    (hown : addrIsIn addr ips = false) (hn : d.length ≤ 2046) :
    handleDatagram fold service ips d addr ≠ none := by
  have hl : d.length + 1 < (d ++ List.replicate (2048 - d.length) (Char.ofNat 0)).length := by
    rw [List.length_append, List.length_replicate]
    omega
  simp only [handleDatagram, hown, Bool.false_eq_true, if_false, hl, if_true]
  split <;> simp

theorem handleDatagram_none (fold : Char → Char) (service : discoveryService) (ips : List Str) (d addr : Str)
    (hown : addrIsIn addr ips = false) (hn : 2047 ≤ d.length) (hm : d.length ≤ 2048) :
    handleDatagram fold service ips d addr = none := by
  have hl : ¬ d.length + 1 < (d ++ List.replicate (2048 - d.length) (Char.ofNat 0)).length := by
    rw [List.length_append, List.length_replicate]
    omega
  simp only [handleDatagram, hown, Bool.false_eq_true, if_false, hl]

/-- C36 (the code at a full buffer): for a datagram of at most 2046 bytes
from a foreign address the two writes and the slice stay inside the buffer of
2048 bytes and the handler returns; for one of 2047 or 2048 bytes the write at
index n + 1, or already the one at index n, is outside the buffer and the
handler does not return. -/
theorem handleDatagram_full_buffer :
    (∀ (fold : Char → Char) (service : discoveryService) (ips : List Str) (d addr : Str),
      addrIsIn addr ips = false → d.length ≤ 2048 →
      (handleDatagram fold service ips d addr = none ↔ 2047 ≤ d.length)) ∧
    (∀ fold : Char → Char,
      handleDatagram fold {} [] (List.replicate 2047 'a') "192.168.0.20:1982".toList = none) ∧
    (∀ fold : Char → Char,
      handleDatagram fold {} [] (List.replicate 2048 'a') "192.168.0.20:1982".toList = none) := by
  refine ⟨?_, ?_, ?_⟩
  · intro fold service ips d addr hown hm
    constructor
    · intro h
      by_contra hlt
      exact handleDatagram_some fold service ips d addr hown (by omega) h
    · intro h
      exact handleDatagram_none fold service ips d addr hown h hm
  · intro fold
    exact handleDatagram_none fold _ _ _ _ rfl (by rw [List.length_replicate])
      (by rw [List.length_replicate]; omega)
  · intro fold
    exact handleDatagram_none fold _ _ _ _ rfl (by rw [List.length_replicate]; omega)
      (by rw [List.length_replicate])

theorem setFeature_union (fold : Char → Char) (f : SupportedFeatures) (t : Str) :
    setFeature fold f t = f.union (setFeature fold {} t) := by
  obtain ⟨a1, a2, a3, a4, a5, a6, a7, a8, a9, a10, a11, a12, a13⟩ := setFeature_flags fold f t
  obtain ⟨b1, b2, b3, b4, b5, b6, b7, b8, b9, b10, b11, b12, b13⟩ := setFeature_flags fold {} t
  rcases hs : setFeature fold f t with ⟨x1, x2, x3, x4, x5, x6, x7, x8, x9, x10, x11, x12, x13⟩
  rw [hs] at a1 a2 a3 a4 a5 a6 a7 a8 a9 a10 a11 a12 a13
  simp only at a1 a2 a3 a4 a5 a6 a7 a8 a9 a10 a11 a12 a13
  simp only [SupportedFeatures.union, b1, b2, b3, b4, b5, b6, b7, b8, b9, b10, b11, b12, b13,
    a1, a2, a3, a4, a5, a6, a7, a8, a9, a10, a11, a12, a13, Bool.false_or]

theorem union_assoc (f g h : SupportedFeatures) : (f.union g).union h = f.union (g.union h) := by
  simp only [SupportedFeatures.union, Bool.or_assoc]

theorem union_comm (f g : SupportedFeatures) : f.union g = g.union f := by
  simp only [SupportedFeatures.union, Bool.or_comm]

theorem union_self (f : SupportedFeatures) : f.union f = f := by
  simp only [SupportedFeatures.union, Bool.or_self]

theorem union_empty (f : SupportedFeatures) : f.union {} = f := by
  simp only [SupportedFeatures.union, Bool.or_false]

theorem foldl_setFeature_union (fold : Char → Char) (ts : List Str) (f : SupportedFeatures) :
    ts.foldl (setFeature fold) f = f.union (ts.foldl (setFeature fold) {}) := by
  induction ts generalizing f with
  | nil => exact (union_empty f).symm
  | cons t ts ih =>
    simp only [List.foldl_cons]
    rw [ih (setFeature fold f t), ih (setFeature fold {} t), setFeature_union fold f t, union_assoc]

theorem Split_append (sep : Char) (a b : Str) :
    Split sep (a ++ sep :: b) = Split sep a ++ Split sep b := by
  induction a with
  | nil => simp [Split]
  | cons c cs ih =>
    rw [List.cons_append]
    by_cases hc : c = sep
    · simp only [Split, hc, if_true, ih, List.cons_append]
    · simp only [Split, hc, if_false, ih]
      cases hs : Split sep cs with
      | nil => 
        exfalso
        cases cs with
        | nil => simp [Split] at hs
        | cons d ds =>
          simp only [Split] at hs
          split at hs
          · cases hs
          · split at hs <;> cases hs
      | cons p ps => rfl

theorem mem_mapDelete {κ ν : Type} [DecidableEq κ] (m : GoMap κ ν) (k : κ) (e : κ × ν)
    (h : e ∈ mapDelete m k) : e ∈ m := by
  unfold mapDelete at h
  exact (List.mem_filter.mp h).1

theorem mem_of_mapGet {κ ν : Type} [DecidableEq κ] (m : GoMap κ ν) (k : κ) (v : ν)
    (h : mapGet m k = some v) : (k, v) ∈ m := by
  induction m with
  | nil => cases h
  | cons e m ih =>
    obtain ⟨k', v'⟩ := e
    by_cases hk : k' = k
    · subst hk
      rw [mapGet_cons_eq] at h
      cases h
      exact List.mem_cons_self _ _
    · rw [mapGet_cons_ne m k k' v' hk] at h
      exact List.mem_cons_of_mem _ (ih h)

theorem mapGet_none_of_keys {κ ν : Type} [DecidableEq κ] (m : GoMap κ ν) (k : κ)
    (h : ∀ e ∈ m, e.1 ≠ k) : mapGet m k = none := by
  cases hg : mapGet m k with
  | none => rfl
  | some v => exact absurd rfl (h _ (mem_of_mapGet m k v hg))

theorem pendingInRange_nextCommand (y : YeeLight) (h : pendingInRange y) :
    pendingInRange (nextCommand y).1 := by
  obtain ⟨h0, hk⟩ := h
  have hid : (nextCommand y).1.idCommand = y.idCommand + 1 := rfl
  refine ⟨by rw [hid]; omega, ?_⟩
  intro e he
  rw [pending_nextCommand, mapSet] at he
  rw [hid]
  rcases List.mem_cons.mp he with h1 | h1
  · rw [h1]
    exact ⟨by simp only; omega, le_refl _⟩
  · have := hk e (mem_mapDelete _ _ _ h1)
    omega

theorem pendingInRange_newCommand (y : YeeLight) (method : Str) (params : List Iface)
    (h : pendingInRange y) : pendingInRange (newCommand y method params).1 := by
  unfold newCommand
  cases checkParams params with
  | error err => exact h
  | ok u => exact pendingInRange_nextCommand y h

theorem pendingInRange_releaseAnswerChan (y y' : YeeLight) (id : Int) (a : Option Answer)
    (r : Option Chan) (h : pendingInRange y) (hr : releaseAnswerChan y id a = some (y', r)) :
    pendingInRange y' := by
  unfold releaseAnswerChan at hr
  cases hg : mapGet (pending y) id with
  | none =>
    rw [hg] at hr
    simp only [Option.some.injEq, Prod.mk.injEq] at hr
    rw [← hr.1]
    exact h
  | some c =>
    rw [hg] at hr
    simp only at hr
    split at hr
    · cases hr
    · split at hr
      · cases hr
      · simp only [Option.some.injEq, Prod.mk.injEq] at hr
        rw [← hr.1]
        refine ⟨h.1, ?_⟩
        intro e he
        exact h.2 e (mem_mapDelete _ _ _ he)

theorem pendingInRange_socket (y : YeeLight) (c : Option Conn) (h : pendingInRange y) :
    pendingInRange { y with tcpSocket := c } := h

theorem pendingInRange_sendCommand (enc : Encoder) (y y' : YeeLight) (cmd : command)
    (arrived : Option Answer) (r : Except GoError Answer) (h : pendingInRange y)
    (hr : sendCommand enc y cmd arrived = some (y', r)) : pendingInRange y' := by
  unfold sendCommand at hr
  cases hs : y.tcpSocket with
  | none =>
    rw [hs] at hr
    simp only at hr
    cases hq : releaseAnswerChan y cmd.ID none with
    | none => rw [hq] at hr; cases hr
    | some p =>
      obtain ⟨y1, c1⟩ := p
      rw [hq] at hr
      simp only [Option.some.injEq, Prod.mk.injEq] at hr
      rw [← hr.1]
      exact pendingInRange_releaseAnswerChan y y1 cmd.ID none c1 h hq
  | some conn =>
    rw [hs] at hr
    simp only at hr
    cases hg : mapGet (pending y) cmd.ID with
    | none =>
      rw [hg] at hr
      simp only [Option.some.injEq, Prod.mk.injEq] at hr
      rw [← hr.1]
      exact h
    | some c =>
      rw [hg] at hr
      simp only at hr
      cases arrived with
      | some a =>
        simp only [Option.some.injEq, Prod.mk.injEq] at hr
        rw [← hr.1]
        exact pendingInRange_socket y _ h
      | none =>
        simp only at hr
        cases hq : releaseAnswerChan
            { y with tcpSocket := some (conn.Write (command.json enc cmd)) } cmd.ID none with
        | none => rw [hq] at hr; cases hr
        | some p =>
          obtain ⟨y2, c2⟩ := p
          rw [hq] at hr
          simp only [Option.some.injEq, Prod.mk.injEq] at hr
          rw [← hr.1]
          exact pendingInRange_releaseAnswerChan _ y2 cmd.ID none c2
            (pendingInRange_socket y _ h) hq

theorem pendingInRange_run (enc : Encoder) (c : Call) (y y' : YeeLight) (h : pendingInRange y)
    (hr : c.run enc y = some y') : pendingInRange y' := by
  cases c with
  | nextCommand =>
    simp only [Call.run, Option.some.injEq] at hr
    rw [← hr]
    exact pendingInRange_nextCommand y h
  | newCommand method params =>
    simp only [Call.run, Option.some.injEq] at hr
    rw [← hr]
    exact pendingInRange_newCommand y method params h
  | releaseAnswerChan id a =>
    simp only [Call.run] at hr
    cases hq : releaseAnswerChan y id a with
    | none => rw [hq] at hr; cases hr
    | some p =>
      obtain ⟨y1, c1⟩ := p
      rw [hq] at hr
      simp only [Option.map_some', Option.some.injEq] at hr
      rw [← hr]
      exact pendingInRange_releaseAnswerChan y y1 id a c1 h hq
  | sendCommand cmd arrived =>
    simp only [Call.run] at hr
    cases hq : sendCommand enc y cmd arrived with
    | none => rw [hq] at hr; cases hr
    | some p =>
      obtain ⟨y1, r1⟩ := p
      rw [hq] at hr
      simp only [Option.map_some', Option.some.injEq] at hr
      rw [← hr]
      exact pendingInRange_sendCommand enc y y1 cmd arrived r1 h hq

theorem pendingInRange_runCalls (enc : Encoder) (calls : List Call) :
    ∀ (y y' : YeeLight), pendingInRange y → runCalls enc calls y = some y' →
      pendingInRange y' := by
  induction calls with
  | nil =>
    intro y y' h hr
    simp only [runCalls, Option.some.injEq] at hr
    rw [← hr]
    exact h
  | cons c cs ih =>
    intro y y' h hr
    simp only [runCalls] at hr
    cases hq : c.run enc y with
    | none => rw [hq] at hr; cases hr
    | some y1 =>
      rw [hq] at hr
      exact ih y1 y' (pendingInRange_run enc c y y1 h hq) hr

/-- C35: in every state reached from a fresh device by calls of `nextCommand`,
`newCommand`, `releaseAnswerChan` and `sendCommand`, every key of the pending
table lies between 1 and the counter; so 0 is not a key, the identifier the
next call of `nextCommand` takes is not a key either, and that call leaves
every other entry of the table as it is. -/
theorem pending_keys_in_range (enc : Encoder) (calls : List Call) (y0 y : YeeLight)
    (hid : y0.idCommand = 0) (hp : y0.pendingCmds = none)
    (hrun : runCalls enc calls y0 = some y) :
    (∀ k c, (k, c) ∈ pending y → 1 ≤ k ∧ k ≤ y.idCommand) ∧
    mapGet (pending y) 0 = none ∧
    mapGet (pending y) (nextCommand y).2 = none ∧
    (∀ k, k ≠ (nextCommand y).2 →
      mapGet (pending (nextCommand y).1) k = mapGet (pending y) k) := by
  have h0 : pendingInRange y0 := by
    refine ⟨by rw [hid], ?_⟩
    intro e he
    simp only [pending, hp] at he
    cases he
  obtain ⟨hc, hk⟩ := pendingInRange_runCalls enc calls y0 y h0 hrun
  refine ⟨fun k c hm => hk (k, c) hm, ?_, ?_, ?_⟩
  · exact mapGet_none_of_keys _ _ (fun e he => by have := hk e he; omega)
  · have hn : (nextCommand y).2 = y.idCommand + 1 := rfl
    rw [hn]
    exact mapGet_none_of_keys _ _ (fun e he => by have := hk e he; omega)
  · intro k hne
    have hn : (nextCommand y).2 = y.idCommand + 1 := rfl
    rw [hn] at hne
    rw [pending_nextCommand, mapSet, mapGet_cons_ne _ _ _ _ (Ne.symm hne),
      mapGet_mapDelete_ne]
    exact hne

/-- C35 witness: on a fresh device two commands are built, the first is
released and a third command is built; the keys left are 2 and 3. -/
theorem pending_keys_in_range_witness :
    (∀ k c, (k, c) ∈ pending
        { idCommand := 3, pendingCmds := some [(3, Chan.make1), (2, Chan.make1)] } →
      1 ≤ k ∧ k ≤ 3) ∧
    mapGet (pending
      { idCommand := 3, pendingCmds := some [(3, Chan.make1), (2, Chan.make1)] }) 0 = none :=
  ⟨(pending_keys_in_range plainEncoder
      [.newCommand "toggle".toList [], .nextCommand, .releaseAnswerChan 1 none,
        .newCommand "toggle".toList []]
      {} { idCommand := 3, pendingCmds := some [(3, Chan.make1), (2, Chan.make1)] }
      rfl rfl (by decide)).1,
    (pending_keys_in_range plainEncoder
      [.newCommand "toggle".toList [], .nextCommand, .releaseAnswerChan 1 none,
        .newCommand "toggle".toList []]
      {} { idCommand := 3, pendingCmds := some [(3, Chan.make1), (2, Chan.make1)] }
      rfl rfl (by decide)).2.1⟩

/-- C39: `setSupport` only sets flags: the flags after the call are the
flag-wise OR of the flags before it and the flags the string gives a fresh
device, so a flag that was true stays true. On a fresh device the flags of
two strings joined by a blank are the OR of the flags of each; they do not
depend on the order of the two or on a repetition, and a second call with the
same string changes nothing. -/
theorem setSupport_homomorphism (fold : Char → Char) (y : YeeLight) (a b : Str) :
    (setSupport fold y a).Support = y.Support.union (setSupport fold {} a).Support ∧
    List.Forall₂ (fun before after => before = true → after = true)
      y.Support.flags (setSupport fold y a).Support.flags ∧
    (setSupport fold {} (a ++ ' ' :: b)).Support =
      (setSupport fold {} a).Support.union (setSupport fold {} b).Support ∧
    (setSupport fold {} (a ++ ' ' :: b)).Support = (setSupport fold {} (b ++ ' ' :: a)).Support ∧
    (setSupport fold {} (a ++ ' ' :: a)).Support = (setSupport fold {} a).Support ∧
    setSupport fold (setSupport fold y a) a = setSupport fold y a := by
  have hu : ∀ (z : YeeLight) (s : Str),
      (setSupport fold z s).Support = z.Support.union (setSupport fold {} s).Support := by
    intro z s
    simp only [setSupport]
    exact foldl_setFeature_union fold _ _
  have hj : ∀ s t : Str, (setSupport fold {} (s ++ ' ' :: t)).Support =
      (setSupport fold {} s).Support.union (setSupport fold {} t).Support := by
    intro s t
    simp only [setSupport, Split_append, List.foldl_append]
    exact foldl_setFeature_union fold _ _
  refine ⟨hu y a, ?_, hj a b, ?_, ?_, ?_⟩
  · rw [hu y a]
    simp only [SupportedFeatures.flags, SupportedFeatures.union, List.forall₂_cons,
      List.Forall₂.nil, and_true, Bool.or_eq_true]
    exact ⟨Or.inl, Or.inl, Or.inl, Or.inl, Or.inl, Or.inl, Or.inl, Or.inl, Or.inl, Or.inl,
      Or.inl, Or.inl, Or.inl⟩
  · rw [hj a b, hj b a, union_comm]
  · rw [hj a a, union_self]
  · have h1 : (setSupport fold (setSupport fold y a) a).Support = (setSupport fold y a).Support := by
      rw [hu (setSupport fold y a) a, hu y a, union_assoc, union_self]
    have h2 : ∀ (z : YeeLight) (s : Str),
        setSupport fold z s = { z with Support := (setSupport fold z s).Support } := fun z s => rfl
    rw [h2 (setSupport fold y a) a, h1]

theorem head_filterMap_split {α β : Type} (g : α → Option β) (L : List α) (e : β)
    (h : (L.filterMap g).head? = some e) :
    ∃ pre f post, L = pre ++ f :: post ∧ (∀ x ∈ pre, g x = none) ∧ g f = some e := by
  induction L with
  | nil => simp at h
  | cons x xs ih =>
    rw [List.filterMap_cons] at h
    cases hx : g x with
    | some b =>
      rw [hx] at h
      simp only [List.head?_cons, Option.some.injEq] at h
      exact ⟨[], x, xs, rfl, by simp, by rw [hx, h]⟩
    | none =>
      rw [hx] at h
      simp only at h
      obtain ⟨pre, f, post, hL, hpre, hf⟩ := ih h
      refine ⟨x :: pre, f, post, by rw [hL]; rfl, ?_, hf⟩
      intro z hz
      rcases List.mem_cons.mp hz with hz | hz
      · rw [hz]; exact hx
      · exact hpre z hz

theorem head_filterMap_of_split {α β : Type} (g : α → Option β) (pre post : List α) (f : α)
    (e : β) (hpre : ∀ x ∈ pre, g x = none) (hf : g f = some e) :
    ((pre ++ f :: post).filterMap g).head? = some e := by
  induction pre with
  | nil => simp [List.filterMap_cons, hf]
  | cons x xs ih =>
    have hx : g x = none := hpre x (List.mem_cons_self _ _)
    rw [List.cons_append, List.filterMap_cons, hx]
    exact ih (fun z hz => hpre z (List.mem_cons_of_mem _ hz))

theorem checkInt_some (lo hi : Int) (v : Str) (e : GoError) (h : checkInt lo hi v = some e) :
    (e = .NumError ∧ Atoi v = none) ∨ (e = .ErrInvalidRange ∧ Atoi v ≠ none) := by
  unfold checkInt at h
  cases hv : Atoi v with
  | none =>
    rw [hv] at h
    simp only [Option.some.injEq] at h
    exact Or.inl ⟨h.symm, rfl⟩
  | some n =>
    rw [hv] at h
    simp only at h
    split at h
    · simp only [Option.some.injEq] at h
      exact Or.inr ⟨h.symm, by simp⟩
    · cases h

theorem fieldChecks_cause (f : Str × (Str → Option GoError)) (hf : f ∈ fieldChecks) (v : Str)
    (e : GoError) (h : f.2 v = some e) :
    (e = .NumError ∧ Atoi v = none) ∨
    (e = .ErrInvalidRange ∧ (f.1 = "power".toList ∨ Atoi v ≠ none)) := by
  simp only [fieldChecks, List.mem_cons, List.mem_nil_iff, or_false] at hf
  rcases hf with rfl | rfl | rfl | rfl | rfl | rfl | rfl | rfl | rfl | rfl | rfl | rfl | rfl | rfl
  · cases h
  · cases h
  · cases h
  · cases h
  · cases h
  · cases h
  · cases h
  · have h : checkPower v = some e := h
    rcases checkPower_cases v with hc | hc
    · rw [hc] at h; cases h
    · rw [hc] at h
      simp only [Option.some.injEq] at h
      exact Or.inr ⟨h.symm, Or.inl rfl⟩
  all_goals
    rcases checkInt_some _ _ v e h with h1 | h1
    · exact Or.inl h1
    · exact Or.inr ⟨h1.1, Or.inr h1.2⟩

/-- C33: a header map that `parseFromMap` rejects has a first header, in the
order cache-control, location, id, name, model, fw_ver, support, power, bright,
color_mode, ct, rgb, hue, sat, that is absent or whose value fails its check,
every header before it being present with an accepted value. The cause of the
error is `ErrWrongAdvertisement` when that header is absent, the conversion
error when its value is not a decimal integer, and `ErrInvalidRange` when the
value is an integer out of range or a power other than on and off. Every map
with the same entries up to that header is rejected with the same error. -/
theorem parseFromMap_first_failure (fold : Char → Char) (lines : GoMap Str Str) (e : GoError)
    (h : parseFromMap fold lines = .error e) :
    ∃ pre f post, fieldChecks = pre ++ f :: post ∧
      (∀ g ∈ pre, ∃ v, mapGet lines g.1 = some v ∧ g.2 v = none) ∧
      ((mapGet lines f.1 = none ∧ e = .ErrWrongAdvertisement) ∨
       (∃ v, mapGet lines f.1 = some v ∧ f.2 v = some e ∧
          ((e = .NumError ∧ Atoi v = none) ∨
           (e = .ErrInvalidRange ∧ (f.1 = "power".toList ∨ Atoi v ≠ none))))) ∧
      (∀ lines' : GoMap Str Str, (∀ g ∈ pre, mapGet lines' g.1 = mapGet lines g.1) →
        mapGet lines' f.1 = mapGet lines f.1 → parseFromMap fold lines' = .error e) := by
  have hspec := parseFromMap_spec fold lines
  have hfirst : firstError lines = some e := by
    cases hfe : firstError lines with
    | none =>
      rw [hfe] at hspec
      obtain ⟨_, _, _, _, _, _, _, _, _, _, _, _, _, _, hrest⟩ := hspec
      rw [hrest.2.2.2.2.2.2.2.2.2.2.2.2.2.2.2.2.2.2.2.2.2] at h
      cases h
    | some e' =>
      rw [hfe] at hspec
      simp only at hspec
      rw [hspec] at h
      cases h
      rfl
  obtain ⟨pre, f, post, hL, hpre, hf⟩ := head_filterMap_split (fieldError lines) fieldChecks e hfirst
  refine ⟨pre, f, post, hL, ?_, ?_, ?_⟩
  · intro g hg
    have := hpre g hg
    unfold fieldError at this
    cases hv : mapGet lines g.1 with
    | none => rw [hv] at this; cases this
    | some v => rw [hv] at this; exact ⟨v, rfl, this⟩
  · unfold fieldError at hf
    cases hv : mapGet lines f.1 with
    | none =>
      rw [hv] at hf
      simp only [Option.some.injEq] at hf
      exact Or.inl ⟨rfl, hf.symm⟩
    | some v =>
      rw [hv] at hf
      have hmem : f ∈ fieldChecks := by rw [hL]; simp
      exact Or.inr ⟨v, rfl, hf, fieldChecks_cause f hmem v e hf⟩
  · intro lines' hsame hsamef
    have hpre' : ∀ x ∈ pre, fieldError lines' x = none := by
      intro x hx
      have := hpre x hx
      unfold fieldError at this ⊢
      rw [hsame x hx]
      exact this
    have hf' : fieldError lines' f = some e := by
      unfold fieldError at hf ⊢
      rw [hsamef]
      exact hf
    have hfirst' : firstError lines' = some e := by
      unfold firstError
      rw [hL]
      exact head_filterMap_of_split _ pre post f e hpre' hf'
    have hspec' := parseFromMap_spec fold lines'
    rw [hfirst'] at hspec'
    exact hspec'

/-- C33 witness: ct is 1699 and the later value hue is not a number; the
error is the one of ct. -/
theorem parseFromMap_first_failure_witness :
    ∃ pre f post, fieldChecks = pre ++ f :: post ∧
      (∀ g ∈ pre, ∃ v, mapGet headersLowCt g.1 = some v ∧ g.2 v = none) ∧
      ((mapGet headersLowCt f.1 = none ∧ GoError.ErrInvalidRange = .ErrWrongAdvertisement) ∨
       (∃ v, mapGet headersLowCt f.1 = some v ∧ f.2 v = some .ErrInvalidRange ∧
          ((GoError.ErrInvalidRange = .NumError ∧ Atoi v = none) ∨
           (GoError.ErrInvalidRange = .ErrInvalidRange ∧
             (f.1 = "power".toList ∨ Atoi v ≠ none))))) ∧
      (∀ lines' : GoMap Str Str, (∀ g ∈ pre, mapGet lines' g.1 = mapGet headersLowCt g.1) →
        mapGet lines' f.1 = mapGet headersLowCt f.1 →
        parseFromMap sampleFold lines' = .error .ErrInvalidRange) :=
  parseFromMap_first_failure sampleFold headersLowCt .ErrInvalidRange (by decide)

theorem Unmarshal_type_error (key : Str) (v : JSONValue)
    (hbad : ∀ y : YeeLight, (y.setMember key v).2 = true) (members : List (Str × JSONValue)) :
    (key, v) ∈ members → ∀ y : YeeLight, (YeeLight.Unmarshal members y).2 = some .JSONError := by
  induction members with
  | nil => intro h; cases h
  | cons m rest ih =>
    intro hm y
    obtain ⟨k, w⟩ := m
    rcases hs : y.setMember k w with ⟨y1, bad⟩
    rcases hu : YeeLight.Unmarshal rest y1 with ⟨y2, err⟩
    simp only [YeeLight.Unmarshal, hs, hu]
    rcases List.mem_cons.mp hm with h | h
    · cases h
      have := hbad y
      rw [hs] at this
      simp only at this
      simp only [this, if_true]
    · have := ih h y1
      rw [hu] at this
      simp only at this
      cases bad
      · simp only [Bool.false_eq_true, if_false]
        exact this
      · simp only [if_true]

theorem setMember_color_mode_string (y : YeeLight) (s : Str) :
    y.setMember "color_mode".toList (.scalar (.string s)) = (y, true) := by
  simp only [YeeLight.setMember, storeInt]
  rw [if_neg (by decide), if_neg (by decide), if_neg (by decide), if_neg (by decide),
    if_neg (by decide), if_neg (by decide), if_neg (by decide), if_neg (by decide)]
  rfl

theorem storeString_RGB (v : JSONValue) (set : Str → YeeLight) (y : YeeLight)
    (h : ∀ s, (set s).RGB = y.RGB) : (storeString v set y).1.RGB = y.RGB := by
  unfold storeString
  split
  · exact h _
  · rfl

theorem storeInt_RGB (v : JSONValue) (set : Int → YeeLight) (y : YeeLight)
    (h : ∀ n, (set n).RGB = y.RGB) : (storeInt v set y).1.RGB = y.RGB := by
  unfold storeInt
  split
  · exact h _
  · rfl

theorem setMember_RGB (y : YeeLight) (key : Str) (v : JSONValue) :
    (y.setMember key v).1.RGB = y.RGB := by
  unfold YeeLight.setMember
  by_cases h0 : key = "cache_control".toList
  · rw [if_pos h0]
    exact storeString_RGB _ _ _ (fun _ => rfl)
  rw [if_neg h0]
  by_cases h1 : key = "location".toList
  · rw [if_pos h1]
    exact storeString_RGB _ _ _ (fun _ => rfl)
  rw [if_neg h1]
  by_cases h2 : key = "id".toList
  · rw [if_pos h2]
    exact storeString_RGB _ _ _ (fun _ => rfl)
  rw [if_neg h2]
  by_cases h3 : key = "model".toList
  · rw [if_pos h3]
    exact storeString_RGB _ _ _ (fun _ => rfl)
  rw [if_neg h3]
  by_cases h4 : key = "fw_ver".toList
  · rw [if_pos h4]
    exact storeString_RGB _ _ _ (fun _ => rfl)
  rw [if_neg h4]
  by_cases h5 : key = "support".toList
  · rw [if_pos h5]
    cases v with
    | scalar w => rfl
    | object members => rfl
  rw [if_neg h5]
  by_cases h6 : key = "power".toList
  · rw [if_pos h6]
    exact storeString_RGB _ _ _ (fun _ => rfl)
  rw [if_neg h6]
  by_cases h7 : key = "brightness".toList
  · rw [if_pos h7]
    exact storeInt_RGB _ _ _ (fun _ => rfl)
  rw [if_neg h7]
  by_cases h8 : key = "color_mode".toList
  · rw [if_pos h8]
    exact storeInt_RGB _ _ _ (fun _ => rfl)
  rw [if_neg h8]
  by_cases h9 : key = "color_temperature".toList
  · rw [if_pos h9]
    exact storeInt_RGB _ _ _ (fun _ => rfl)
  rw [if_neg h9]
  by_cases h10 : key = "rgb".toList
  · rw [if_pos h10]
    cases v with
    | scalar w => rfl
    | object members => rfl
  rw [if_neg h10]
  by_cases h11 : key = "hue".toList
  · rw [if_pos h11]
    exact storeInt_RGB _ _ _ (fun _ => rfl)
  rw [if_neg h11]
  by_cases h12 : key = "saturation".toList
  · rw [if_pos h12]
    exact storeInt_RGB _ _ _ (fun _ => rfl)
  rw [if_neg h12]
  by_cases h13 : key = "name".toList
  · rw [if_pos h13]
    exact storeString_RGB _ _ _ (fun _ => rfl)
  rw [if_neg h13]

theorem Unmarshal_RGB (members : List (Str × JSONValue)) :
    ∀ y : YeeLight, (YeeLight.Unmarshal members y).1.RGB = y.RGB := by
  induction members with
  | nil => intro y; rfl
  | cons m rest ih =>
    intro y
    obtain ⟨k, w⟩ := m
    have h1 := setMember_RGB y k w
    rcases hs : y.setMember k w with ⟨y1, bad⟩
    rw [hs] at h1
    have h2 := ih y1
    rcases hu : YeeLight.Unmarshal rest y1 with ⟨y2, err⟩
    rw [hu] at h2
    simp only [YeeLight.Unmarshal, hs, hu]
    exact h2.trans h1

/-- C31 (the code on the text of its own test): `json.Marshal` writes the
colour mode of a device as a JSON string and its colour as an object with the
members r, g and b, and the types `ColorModeValue` and `RGBValue` have no
method `UnmarshalJSON`. So for every device whose colour mode is not 0, as for
every valid one, decoding the marshalled device returns an error, and for
every device the colour of the decoded device is the zero colour. On the text
of `Test_UnmarshalJSON`, which is what `Marshal` writes for the device of the
test, the call returns a type error and a device without the colour mode and
the colour. -/
theorem Unmarshal_Marshal_color_mode :
    (∀ y : YeeLight, y.ColorMode ≠ 0 →
      (YeeLight.Unmarshal y.Marshal {}).2 = some .JSONError) ∧
    (∀ y : YeeLight, (YeeLight.Unmarshal y.Marshal {}).1.RGB = {}) ∧
    deviceOfJSONTest.Marshal = membersOfJSONTest ∧
    YeeLight.Unmarshal membersOfJSONTest {} =
      ({ deviceOfJSONTest with ColorMode := 0, RGB := {} }, some .JSONError) ∧
    (YeeLight.Unmarshal membersOfJSONTest {}).1 ≠ deviceOfJSONTest := by
  refine ⟨?_, fun y => Unmarshal_RGB _ _, by decide, by decide, by decide⟩
  intro y hc
  apply Unmarshal_type_error "color_mode".toList (.scalar (.string (ColorModeValue.String y.ColorMode)))
    (fun z => by rw [setMember_color_mode_string])
  simp only [YeeLight.Marshal, hc, if_false, ColorModeValue.MarshalJSON, List.mem_append,
    List.mem_singleton, true_or, or_true]

end Yeelight
